import Mathlib

/-!
QXmpp: client reconnection policy, stanza dispatch, server extensions, call requests

A shallow embedding of parts of the QXmpp sources:

* `src/client/QXmppClient.cpp`: reconnection policy (`getNextReconnectTime`,
  `_q_streamError`, `_q_reconnect`, `_q_streamConnected`), extension dispatch
  (`_q_elementReceived`) and `sendSensitiveIq`;
* `src/server/QXmppServer.cpp`: `routeData`, `handleStanza`, `addExtension`;
* `src/client/QXmppEntityTimeManager.cpp`: `handleStanza`;
* `src/client/QXmppCall.cpp`: `handleAck`, `sendRequest`.

Qt objects are modelled by records, slots by functions on those records and
observable side effects (timer starts, emitted signals, packets handed to the
stream) by an ordered effect trace kept in the record.
-/

set_option autoImplicit false

/-! ## Shared data types -/

/-- Stream and stanza error conditions (`QXmppStanza::Error::Condition`). -/
inductive QXmppStanza.Error.Condition
  | BadRequest
  | Conflict
  | FeatureNotImplemented
  | Forbidden
  | Gone
  | InternalServerError
  | ItemNotFound
  | JidMalformed
  | NotAcceptable
  | NotAllowed
  | NotAuthorized
  | RecipientUnavailable
  | Redirect
  | RegistrationRequired
  | RemoteServerNotFound
  | RemoteServerTimeout
  | ResourceConstraint
  | ServiceUnavailable
  | SubscriptionRequired
  | UndefinedCondition
  | UnexpectedRequest
  | PolicyViolation
  deriving DecidableEq, Repr

/-- Error types of a stanza error (`QXmppStanza::Error::Type`). -/
inductive QXmppStanza.Error.Type
  | Cancel
  | Continue
  | Modify
  | Auth
  | Wait
  deriving DecidableEq, Repr

/-- A stanza error: `QXmppStanza::Error(type, condition)`. -/
structure QXmppStanza.Error where
  type : QXmppStanza.Error.Type
  condition : QXmppStanza.Error.Condition
  deriving DecidableEq, Repr

/-- Presence types (`QXmppPresence::Type`). -/
inductive QXmppPresence.Type
  | Error
  | Available
  | Unavailable
  | Subscribe
  | Subscribed
  | Unsubscribe
  | Unsubscribed
  | Probe
  deriving DecidableEq, Repr

/-- The fields of a presence stanza the client code reads and writes. -/
structure QXmppPresence where
  type : QXmppPresence.Type
  statusText : String
  deriving DecidableEq, Repr

/-- A message stanza as built by `QXmppMessage(from, to, body)`. -/
structure QXmppMessage where
  fromJid : String
  toJid : String
  body : String
  deriving DecidableEq, Repr

/-- The packets that the client code hands to `sendPacket` (a `QXmppNonza`
reference in the source): presences and messages. -/
inductive QXmppNonza
  | presence (packet : QXmppPresence)
  | message (packet : QXmppMessage)
  deriving DecidableEq, Repr

/-! ## Client: reconnection policy (`QXmppClient.cpp`) -/

/-- The error kinds reported by the stream: `QXmppClient::Error`. -/
inductive QXmppClient.Error
  | NoError
  | SocketError
  | KeepAliveError
  | XmppStreamError
  deriving DecidableEq, Repr

/-- Connection states of the client: `QXmppClient::State`. -/
inductive QXmppClient.State
  | DisconnectedState
  | ConnectingState
  | ConnectedState
  deriving DecidableEq, Repr

/-- What the client reads from its `QXmppOutgoingClient` stream: the
auto-reconnection switch of the configuration, the last stream error
condition and the connection flags. -/
structure QXmppOutgoingClient where
  autoReconnectionEnabled : Bool
  xmppStreamError : QXmppStanza.Error.Condition
  isConnected : Bool
  isAuthenticated : Bool
  deriving DecidableEq, Repr

/-- Observable actions of the client, in the order the code performs them. -/
inductive QXmppClient.Effect
  | timerStart (msec : Int)
  | timerStop
  | connectToHost
  | disconnectFromHost
  | sendPacket (packet : QXmppNonza)
  | debug (message : String)
  | emitError (err : QXmppClient.Error)
  | emitConnected
  | emitDisconnected
  | emitStateChanged (state : QXmppClient.State)
  deriving DecidableEq, Repr

/-- The data members of `QXmppClientPrivate` used by the reconnection code. -/
structure QXmppClientPrivate where
  clientPresence : QXmppPresence
  receivedConflict : Bool
  reconnectionTries : Int
  isActive : Bool
  deriving DecidableEq, Repr

/-- A client: its private data, its stream and the trace of its actions. -/
structure QXmppClient where
  d : QXmppClientPrivate
  stream : QXmppOutgoingClient
  trace : List QXmppClient.Effect
  deriving DecidableEq, Repr

namespace QXmppClientPrivate

/-- The constructor `QXmppClientPrivate::QXmppClientPrivate`. -/
def new : QXmppClientPrivate :=
  { clientPresence := { type := .Available, statusText := "" }
    receivedConflict := false
    reconnectionTries := 0
    isActive := true }

/-- The code of `QXmppClientPrivate::getNextReconnectTime`. -/
def getNextReconnectTime (d : QXmppClientPrivate) : Int :=
  if d.reconnectionTries < 5 then
    10 * 1000
  else if d.reconnectionTries < 10 then
    20 * 1000
  else if d.reconnectionTries < 15 then
    40 * 1000
  else
    60 * 1000

end QXmppClientPrivate

namespace QXmppClient

/-- A freshly constructed client attached to the given stream. -/
def new (stream : QXmppOutgoingClient) : QXmppClient :=
  { d := QXmppClientPrivate.new, stream := stream, trace := [] }

/-- Appends one action to the trace. -/
def perform (c : QXmppClient) (e : QXmppClient.Effect) : QXmppClient :=
  { c with trace := c.trace ++ [e] }

/-- The code of `QXmppClient::_q_reconnect`. -/
def _q_reconnect (c : QXmppClient) : QXmppClient :=
  if c.stream.autoReconnectionEnabled then
    (c.perform (.debug "Reconnecting to server")).perform .connectToHost
  else
    c

/-- The code of `QXmppClient::_q_streamConnected`. -/
def _q_streamConnected (c : QXmppClient) : QXmppClient :=
  let c1 : QXmppClient :=
    { c with d := { c.d with receivedConflict := false, reconnectionTries := 0, isActive := true } }
  let c2 := (c1.perform .emitConnected).perform (.emitStateChanged .ConnectedState)
  if c2.stream.isAuthenticated then
    c2.perform (.sendPacket (.presence c2.d.clientPresence))
  else
    c2

/-- The code of `QXmppClient::_q_streamDisconnected`. -/
def _q_streamDisconnected (c : QXmppClient) : QXmppClient :=
  (c.perform .emitDisconnected).perform (.emitStateChanged .DisconnectedState)

/-- The code of `QXmppClient::_q_streamError`. -/
def _q_streamError (c : QXmppClient) (err : QXmppClient.Error) : QXmppClient :=
  let c1 : QXmppClient :=
    if c.stream.autoReconnectionEnabled then
      if err = .XmppStreamError then
        if c.stream.xmppStreamError = .Conflict then
          { c with d := { c.d with receivedConflict := true } }
        else
          c
      else if err = .SocketError ∧ c.d.receivedConflict = false then
        c.perform (.timerStart c.d.getNextReconnectTime)
      else if err = .KeepAliveError then
        c.perform (.timerStart 1000)
      else
        c
    else
      c
  c1.perform (.emitError err)

/-- The code of `QXmppClient::disconnectFromServer`. -/
def disconnectFromServer (c : QXmppClient) : QXmppClient :=
  let c1 := c.perform .timerStop
  let c2 : QXmppClient :=
    { c1 with d := { c1.d with
        clientPresence := { c1.d.clientPresence with type := .Unavailable, statusText := "Logged out" } } }
  let c3 := if c2.stream.isConnected then c2.perform (.sendPacket (.presence c2.d.clientPresence)) else c2
  c3.perform .disconnectFromHost

/-- Things that happen to a client: the slots the stream and the timer invoke,
a user-initiated disconnect, and a change of the stream as seen by the client. -/
inductive Event
  | streamError (err : QXmppClient.Error)
  | reconnect
  | streamConnected
  | streamDisconnected
  | disconnectFromServer
  | streamChanged (stream : QXmppOutgoingClient)
  deriving DecidableEq, Repr

/-- One event handled by the client. -/
def step (c : QXmppClient) : Event → QXmppClient
  | .streamError err => c._q_streamError err
  | .reconnect => c._q_reconnect
  | .streamConnected => c._q_streamConnected
  | .streamDisconnected => c._q_streamDisconnected
  | .disconnectFromServer => c.disconnectFromServer
  | .streamChanged stream => { c with stream := stream }

/-- A sequence of events handled in order. -/
def run (c : QXmppClient) (events : List Event) : QXmppClient :=
  events.foldl step c

/-- One failed reconnection attempt: a socket error is reported, then the
reconnection timer fires. -/
def failedAttempt (c : QXmppClient) : QXmppClient :=
  (c._q_streamError .SocketError)._q_reconnect

/-- The value of `n` consecutive failed attempts. -/
def failedAttempts : Nat → QXmppClient → QXmppClient
  | 0, c => c
  | n + 1, c => failedAttempts n (failedAttempt c)

/-- The delays of the timer starts among the given actions, in order. -/
def timerStarts : List QXmppClient.Effect → List Int
  | [] => []
  | .timerStart msec :: rest => msec :: timerStarts rest
  | _ :: rest => timerStarts rest

/-- The delays with which handling `err` starts the reconnection timer: the
timer starts among the actions that `_q_streamError` adds to the trace. -/
def startedBy (c : QXmppClient) (err : QXmppClient.Error) : List Int :=
  timerStarts ((c._q_streamError err).trace.drop c.trace.length)

/-- The stream of a default configuration (auto-reconnection enabled), not
connected, without stream error of interest. -/
def defaultStream : QXmppOutgoingClient :=
  { autoReconnectionEnabled := true
    xmppStreamError := .UndefinedCondition
    isConnected := false
    isAuthenticated := false }

end QXmppClient

/-! ## XML elements and iq stanzas -/

/-- A DOM element as the code reads it: tag name, namespace, attributes, its
text and its child elements. -/
inductive QDomElement where
  | mk (tagName : String) (namespaceURI : String) (attributes : List (String × String))
      (text : String) (children : List QDomElement)

namespace QDomElement

/-- The null element, returned when a child is looked up and not found. -/
def null : QDomElement := .mk "" "" [] "" []

/-- The value of `QDomElement::tagName`. -/
def tagName : QDomElement → String
  | .mk t _ _ _ _ => t

/-- The value of `QDomElement::namespaceURI`. -/
def namespaceURI : QDomElement → String
  | .mk _ n _ _ _ => n

/-- The attribute list of the element. -/
def attributes : QDomElement → List (String × String)
  | .mk _ _ a _ _ => a

/-- The value of `QDomElement::text`. -/
def text : QDomElement → String
  | .mk _ _ _ t _ => t

/-- The child elements, in document order. -/
def children : QDomElement → List QDomElement
  | .mk _ _ _ _ c => c

/-- The value of `QDomElement::attribute(name)`: the empty string when absent. -/
def attributeValue (e : QDomElement) (name : String) : String :=
  match e.attributes.find? (fun kv => kv.1 == name) with
  | some kv => kv.2
  | none => ""

/-- The value of `QDomElement::firstChildElement(name)`: the null element when absent. -/
def firstChildElement (e : QDomElement) (name : String) : QDomElement :=
  match e.children.find? (fun c => c.tagName == name) with
  | some c => c
  | none => null

end QDomElement

/-- The types of an iq stanza (`QXmppIq::Type`), in the order of the enum. -/
inductive QXmppIq.Type
  | Error
  | Get
  | Set
  | Result
  deriving DecidableEq, Repr

/-- The envelope of an iq stanza: id, addresses, type and error payload.
`toJid` and `fromJid` are the values of `to()` and `from()`. -/
structure QXmppIq where
  id : String
  toJid : String
  fromJid : String
  type : QXmppIq.Type
  error : Option QXmppStanza.Error
  deriving DecidableEq, Repr

namespace QXmppIq

/-- A default-constructed `QXmppIq(type)`; the id is set by the caller. -/
def new (type : QXmppIq.Type) : QXmppIq :=
  { id := "", toJid := "", fromJid := "", type := type, error := none }

/-- Modelled from the spec: `QXmppIq::parse` (QXmppIq.cpp and QXmppStanza.cpp are
not among the sources). The stanza codec maps the attributes of the element to
the typed fields: `id`, `to`, `from` and `type`; the type of a
default-constructed iq (get) is kept when the attribute names no iq type. -/
def parse (element : QDomElement) : QXmppIq :=
  { id := element.attributeValue "id"
    toJid := element.attributeValue "to"
    fromJid := element.attributeValue "from"
    type :=
      if element.attributeValue "type" = "error" then .Error
      else if element.attributeValue "type" = "get" then .Get
      else if element.attributeValue "type" = "set" then .Set
      else if element.attributeValue "type" = "result" then .Result
      else .Get
    error := none }

end QXmppIq

/-! ## Client: extension dispatch (`QXmppClient::_q_elementReceived`) -/

/-- What `_q_elementReceived` leaves behind: the value of the reference
parameter `handled`, the state of the extensions, and the calls of
`handleStanza` it made, in order, each with the address of the extension and
the value returned. -/
structure QXmppClient.Dispatch (W : Type) where
  handled : Bool
  world : W
  calls : List (Nat × Bool)

/-- The code of `QXmppClient::_q_elementReceived`. The extensions are given by
address; `handleStanza p element w` is the virtual call on extension `p` in
state `w` of the extensions, returning its result and the new state. -/
def QXmppClient._q_elementReceived {W : Type} (handleStanza : Nat → QDomElement → W → Bool × W)
    (element : QDomElement) (handled : Bool) : List Nat → W → QXmppClient.Dispatch W
  | [], w => { handled := handled, world := w, calls := [] }
  | extension :: rest, w =>
    let r := handleStanza extension element w
    if r.1 then
      { handled := true, world := r.2, calls := [(extension, true)] }
    else
      let out := QXmppClient._q_elementReceived handleStanza element handled rest r.2
      { out with calls := (extension, false) :: out.calls }

/-! ## Client: `QXmppClient::sendSensitiveIq` -/

/-- Kinds of send errors (`QXmpp::SendError::Type`). -/
inductive QXmpp.SendError.Type
  | SocketWriteError
  | Disconnected
  | EncryptionError
  deriving DecidableEq, Repr

/-- A local send failure (`QXmpp::SendError`). -/
structure QXmpp.SendError where
  text : String
  type : QXmpp.SendError.Type
  deriving DecidableEq, Repr

/-- The result of `encryptIq`: the encrypted XML or an error. -/
inductive QXmppE2eeExtension.IqEncryptResult
  | xml (bytes : String)
  | error (err : QXmpp.SendError)

/-- The result of `decryptIq`: the decrypted element, the marker that the
response was not encrypted, or an error. -/
inductive QXmppE2eeExtension.IqDecryptResult
  | element (dom : QDomElement)
  | notEncrypted
  | error (err : QXmpp.SendError)

/-- The result of an iq request (`IqResult`): the response element or the send error. -/
inductive QXmppClient.IqResult
  | element (dom : QDomElement)
  | error (err : QXmpp.SendError)

/-- Calls made on the `QFutureInterface` behind the returned future. -/
inductive QXmppClient.FutureCall
  | reportResult (result : QXmppClient.IqResult)
  | reportFinished

/-- What each awaited step of `sendSensitiveIq` delivers: the result of
`encryptIq`, the result of the stream's `sendIq`, whether the encryption
extension is still set when the response arrives, and the result of `decryptIq`. -/
structure QXmppClient.SensitiveIqSteps where
  encrypted : QXmppE2eeExtension.IqEncryptResult
  response : QXmppClient.IqResult
  extensionAtResponse : Bool
  decrypted : QXmppE2eeExtension.IqDecryptResult

/-- The future returned by `sendSensitiveIq`: either the stream's own future
for the plain iq, or the future of a fresh interface together with the calls
made on that interface and the encrypted packet handed to the stream (if any). -/
inductive QXmppClient.SensitiveIqFuture
  | ofStream (id : String)
  | ofInterface (calls : List QXmppClient.FutureCall) (sent : Option (String × String))

/-- The code of `QXmppClient::sendSensitiveIq`. `hasIqId` is the stream's
`hasIqId`, `uuid` the value of `generateStanzaUuid()`, `encryptionExtension`
tells whether `d->encryptionExtension` is set at the call. -/
def QXmppClient.sendSensitiveIq (hasIqId : String → Bool) (uuid : String)
    (encryptionExtension : Bool) (steps : QXmppClient.SensitiveIqSteps) (iq : QXmppIq) :
    QXmppClient.SensitiveIqFuture :=
  let iq1 : QXmppIq := if iq.id.isEmpty || hasIqId iq.id then { iq with id := uuid } else iq
  if encryptionExtension then
    let id := iq1.id
    match steps.encrypted with
    | .xml bytes =>
      match steps.response with
      | .element encryptedDom =>
        if steps.extensionAtResponse then
          match steps.decrypted with
          | .element dom =>
            .ofInterface [.reportResult (.element dom), .reportFinished] (some (bytes, id))
          | .notEncrypted =>
            .ofInterface [.reportResult (.element encryptedDom), .reportFinished] (some (bytes, id))
          | .error err =>
            .ofInterface [.reportResult (.error err), .reportFinished] (some (bytes, id))
        else
          .ofInterface
            [.reportResult (.error { text := "No decryption extension found.", type := .EncryptionError }),
              .reportFinished]
            (some (bytes, id))
      | .error err =>
        .ofInterface [.reportResult (.error err), .reportFinished] (some (bytes, id))
    | .error err =>
      .ofInterface [.reportResult (.error err), .reportFinished] none
  else
    .ofStream iq1.id

/-! ## Server: routing and default handlers (`QXmppServer.cpp`) -/

/-- The helpers of `QXmppUtils` that the server code calls; QXmppUtils.cpp is
not among the sources, so they are parameters of the functions below.
`generateStanzaHash n` is the value of the `n`-th call of `generateStanzaHash()`. -/
structure QXmppUtils where
  jidToDomain : String → String
  jidToResource : String → String
  jidToBareJid : String → String
  generateStanzaHash : Nat → String

/-- The characters after the last occurrence of `c`, or all of them when `c`
does not occur. -/
def QXmppUtils.afterLast (c : Char) : List Char → List Char
  | [] => []
  | x :: xs => if c ∈ xs then QXmppUtils.afterLast c xs else if x = c then xs else x :: xs

/-- Modelled from the spec: the JID helpers of QXmppUtils (QXmppUtils.cpp is not
among the sources). A JID has the format `user@domain/resource`: the bare JID is
the part before the first `/`, the resource the part after it, the domain the
part of the bare JID after `@`. -/
def QXmppUtils.reference : QXmppUtils :=
  { jidToDomain := fun jid =>
      String.mk (QXmppUtils.afterLast '@' (jid.data.takeWhile (fun ch => ch != '/')))
    jidToResource := fun jid => String.mk ((jid.data.dropWhile (fun ch => ch != '/')).drop 1)
    jidToBareJid := fun jid => String.mk (jid.data.takeWhile (fun ch => ch != '/'))
    generateStanzaHash := fun n => String.mk (List.replicate (n + 1) 'h') }

/-- The value of `QString::endsWith`. -/
def QString.endsWith (s ending : String) : Bool :=
  ending.data.isSuffixOf s.data

/-- Serialised data handed to a connection: the XML of an element, the XML of
an iq packet, or literal text. -/
inductive QByteArray
  | ofElement (element : QDomElement)
  | ofPacket (packet : QXmppIq)
  | literal (text : String)

/-- The virtual methods of a server extension (`QXmppServerExtension`). -/
structure QXmppServerExtension where
  extensionName : String
  extensionPriority : Int
  handleStanza : QDomElement → Bool

/-- An outgoing server-to-server stream: its address, remote domain and local
stream key. -/
structure QXmppOutgoingServer where
  ptr : Nat
  remoteDomain : String
  localStreamKey : String
  deriving DecidableEq, Repr

/-- The commands of a dialback packet (`QXmppDialback::Command`). -/
inductive QXmppDialback.Command
  | Result
  | Verify
  deriving DecidableEq, Repr

/-- A server dialback packet: command, id, addresses, key and type. -/
structure QXmppDialback where
  command : QXmppDialback.Command
  id : String
  toJid : String
  fromJid : String
  key : String
  type : String
  deriving DecidableEq, Repr

/-- A default-constructed dialback packet. -/
def QXmppDialback.new : QXmppDialback :=
  { command := .Result, id := "", toJid := "", fromJid := "", key := "", type := "" }

/-- Observable actions of the server, in order: calls of the public
`sendPacket` and `sendElement`, data handed to connections, connection
attempts, gauges and log messages. -/
inductive QXmppServer.Effect
  | sendPacket (packet : QXmppIq)
  | sendElement (element : QDomElement)
  | sendData (conn : Nat) (data : QByteArray)
  | queueData (conn : Nat) (data : QByteArray)
  | connectToHost (conn : Nat) (domain : String)
  | setGauge (gauge : String) (value : Nat)
  | log (message : String)
  | disconnectFromHost (conn : Nat)
  | deleteLater (conn : Nat)
  | emitClientConnected (jid : String)
  | emitClientDisconnected (jid : String)
  | sendDialback (stream : Nat) (packet : QXmppDialback)

/-- The data members of `QXmppServerPrivate` used by routing and extension
handling. Objects are given by address; hashes and sets are association lists
and lists. -/
structure QXmppServerPrivate where
  domain : String
  extensions : List Nat
  logger : Bool
  incomingClients : List Nat
  incomingClientsByJid : List (String × Nat)
  incomingClientsByBareJid : List (String × List Nat)
  serversForServers : List Nat
  outgoingServers : List QXmppOutgoingServer
  loaded : Bool
  started : Bool

/-- A server: its private data, the extension objects by address, the
extensions that the static plugins create (per plugin, per key; `none` is a
null pointer), the next free address, the number of stanza hashes generated so
far, and the trace of its actions. -/
structure QXmppServer where
  d : QXmppServerPrivate
  extension : Nat → QXmppServerExtension
  staticPlugins : List (List (Option Nat))
  nextPtr : Nat
  hashes : Nat
  trace : List QXmppServer.Effect

namespace QXmppServerPrivate

/-- The constructor `QXmppServerPrivate::QXmppServerPrivate`. -/
def new : QXmppServerPrivate :=
  { domain := ""
    extensions := []
    logger := false
    incomingClients := []
    incomingClientsByJid := []
    incomingClientsByBareJid := []
    serversForServers := []
    outgoingServers := []
    loaded := false
    started := false }

end QXmppServerPrivate

namespace QXmppServer

/-- A freshly constructed server owning the given extension objects. -/
def new (extension : Nat → QXmppServerExtension) (staticPlugins : List (List (Option Nat))) :
    QXmppServer :=
  { d := QXmppServerPrivate.new
    extension := extension
    staticPlugins := staticPlugins
    nextPtr := 0
    hashes := 0
    trace := [] }

/-- Appends actions to the trace. -/
def perform (server : QXmppServer) (effects : List QXmppServer.Effect) : QXmppServer :=
  { server with trace := server.trace ++ effects }

/-- The code of `QXmppServerPrivate::info`. -/
def info (server : QXmppServer) (message : String) : QXmppServer :=
  if server.d.logger then server.perform [.log message] else server

/-- The loop of `QXmppServer::addExtension` that keeps the extensions sorted by
priority: the new extension goes before the first one of lower priority, or at
the end. -/
def insertByPriority (priority : Nat → Int) (extension : Nat) : List Nat → List Nat
  | [] => [extension]
  | other :: rest =>
    if priority other < priority extension then
      extension :: other :: rest
    else
      other :: insertByPriority priority extension rest

/-- The code of `QXmppServer::addExtension`; `none` is the null pointer. -/
def addExtension (server : QXmppServer) : Option Nat → QXmppServer
  | none => server
  | some extension =>
    if extension ∈ server.d.extensions then
      server
    else
      let s1 := server.info ("Added extension " ++ (server.extension extension).extensionName)
      { s1 with d := { s1.d with
          extensions :=
            insertByPriority (fun p => (s1.extension p).extensionPriority) extension s1.d.extensions } }

/-- The code of `QXmppServerPrivate::loadExtensions`. -/
def loadExtensions (server : QXmppServer) : QXmppServer :=
  if server.d.loaded then
    server
  else
    let s1 := server.staticPlugins.foldl (fun s keys => keys.foldl addExtension s) server
    { s1 with d := { s1.d with loaded := true } }

/-- The code of `QXmppServerPrivate::routeData`: the value returned and the
server afterwards. A new outgoing stream is registered with the remote domain
that its `connectToHost` call is given. -/
def routeData (u : QXmppUtils) (server : QXmppServer) (toJid : String) (data : QByteArray) :
    Bool × QXmppServer :=
  let toDomain := u.jidToDomain toJid
  if toJid = "" ∨ toJid = server.d.domain ∨ QString.endsWith toDomain ("." ++ server.d.domain) = true then
    (false, server)
  else if toDomain = server.d.domain then
    let found : List Nat :=
      if u.jidToResource toJid = "" then
        match server.d.incomingClientsByBareJid.find? (fun kv => kv.1 == toJid) with
        | some kv => kv.2
        | none => []
      else
        match server.d.incomingClientsByJid.find? (fun kv => kv.1 == toJid) with
        | some kv => [kv.2]
        | none => []
    (!found.isEmpty, server.perform (found.map (fun conn => .sendData conn data)))
  else if !server.d.serversForServers.isEmpty then
    match server.d.outgoingServers.find? (fun conn => conn.remoteDomain == toDomain) with
    | some conn => (true, server.perform [.queueData conn.ptr data])
    | none =>
      let conn : QXmppOutgoingServer :=
        { ptr := server.nextPtr
          remoteDomain := toDomain
          localStreamKey := u.generateStanzaHash server.hashes }
      let s1 : QXmppServer :=
        { server with
          d := { server.d with outgoingServers := server.d.outgoingServers ++ [conn] }
          nextPtr := server.nextPtr + 1
          hashes := server.hashes + 1 }
      (true, s1.perform
        [.setGauge "outgoing-server.count" s1.d.outgoingServers.length,
          .queueData conn.ptr data,
          .connectToHost conn.ptr toDomain])
  else
    (false, server)

/-- The code of `QXmppServer::sendElement`. -/
def sendElement (u : QXmppUtils) (server : QXmppServer) (element : QDomElement) :
    Bool × QXmppServer :=
  routeData u (server.perform [.sendElement element]) (element.attributeValue "to")
    (.ofElement element)

/-- The code of `QXmppServer::sendPacket` for an iq packet. -/
def sendPacket (u : QXmppUtils) (server : QXmppServer) (packet : QXmppIq) : Bool × QXmppServer :=
  routeData u (server.perform [.sendPacket packet]) packet.toJid (.ofPacket packet)

/-- The code of the static function `handleStanza` of QXmppServer.cpp
(`QXmppServer::handleElement`). -/
def handleStanza (u : QXmppUtils) (server : QXmppServer) (element : QDomElement) : QXmppServer :=
  -- try extensions
  let s0 := server.loadExtensions
  if s0.d.extensions.any (fun p => (s0.extension p).handleStanza element) then
    s0
  else
    -- default handlers
    let domain := s0.d.domain
    let toJid := element.attributeValue "to"
    if toJid = domain then
      if element.tagName = "iq" then
        let request := QXmppIq.parse element
        if request.type ≠ .Error ∧ request.type ≠ .Result then
          let response : QXmppIq :=
            { QXmppIq.new .Error with
              id := request.id
              fromJid := domain
              toJid := request.fromJid
              error := some { type := .Cancel, condition := .FeatureNotImplemented } }
          (sendPacket u s0 response).2
        else
          s0
      else
        s0
    else
      -- route element or reply on behalf of missing peer
      let routed := sendElement u s0 element
      if routed.1 = false ∧ element.tagName = "iq" then
        let request := QXmppIq.parse element
        let response : QXmppIq :=
          { QXmppIq.new .Error with
            id := request.id
            fromJid := request.toJid
            toJid := request.fromJid
            error := some { type := .Cancel, condition := .ServiceUnavailable } }
        (sendPacket u routed.2 response).2
      else
        routed.2

/-- The packets given to `sendPacket` among the given actions, in order. -/
def sentPackets : List QXmppServer.Effect → List QXmppIq
  | [] => []
  | .sendPacket packet :: rest => packet :: sentPackets rest
  | _ :: rest => sentPackets rest

/-- The packets that `handleStanza` gives to `sendPacket` for an element. -/
def answers (u : QXmppUtils) (server : QXmppServer) (element : QDomElement) : List QXmppIq :=
  sentPackets ((handleStanza u server element).trace.drop server.trace.length)

/-- The distinct non-null extensions among the registered ones, in order of
first registration. -/
def firstRegistrations : List (Option Nat) → List Nat
  | [] => []
  | none :: rest => firstRegistrations rest
  | some extension :: rest => extension :: (firstRegistrations rest).filter (fun p => p != extension)

/-- The stable sort by descending priority: the library merge sort, which keeps
elements of equal priority in their original order. -/
def stableSortByPriority (priority : Nat → Int) (extensions : List Nat) : List Nat :=
  extensions.mergeSort (fun a b => decide (priority b ≤ priority a))

end QXmppServer

/-! ## Client: entity time manager (`QXmppEntityTimeManager.cpp`) -/

/-- The namespace constant `ns_entity_time` of QXmppConstants.cpp. -/
def ns_entity_time : String := "urn:xmpp:time"

/-- A date and time: validity, the instant in milliseconds since the epoch and
the offset from UTC (in seconds) of its time specification. -/
structure QDateTime where
  isValid : Bool
  msecsSinceEpoch : Int
  offsetFromUtc : Int
  deriving DecidableEq, Repr

namespace QDateTime

/-- The value of `QDateTime::toUTC`: the same instant, in UTC. -/
def toUTC (t : QDateTime) : QDateTime :=
  { t with offsetFromUtc := 0 }

/-- The effect of `setTimeSpec(Qt::UTC)`: the date and time fields are kept and
read as UTC. -/
def setTimeSpecUTC (t : QDateTime) : QDateTime :=
  { t with msecsSinceEpoch := t.msecsSinceEpoch + t.offsetFromUtc * 1000, offsetFromUtc := 0 }

/-- The value of `QDateTime::secsTo`. -/
def secsTo (t other : QDateTime) : Int :=
  if t.isValid ∧ other.isValid then
    Int.tdiv (other.msecsSinceEpoch - t.msecsSinceEpoch) 1000
  else
    0

end QDateTime

/-- An entity time iq: the iq envelope with the time zone offset and UTC time. -/
structure QXmppEntityTimeIq where
  iq : QXmppIq
  tzo : Int
  utc : QDateTime
  deriving DecidableEq, Repr

namespace QXmppEntityTimeIq

/-- The code of `QXmppEntityTimeIq::isEntityTimeIq`. -/
def isEntityTimeIq (element : QDomElement) : Bool :=
  (element.firstChildElement "time").namespaceURI == ns_entity_time

/-- The code of `QXmppEntityTimeIq::parse`: the iq envelope and
`parseElementFromChild`. The string conversions of QXmppUtils are parameters. -/
def parse (timezoneOffsetFromString : String → Int) (datetimeFromString : String → QDateTime)
    (element : QDomElement) : QXmppEntityTimeIq :=
  let timeElement := element.firstChildElement "time"
  { iq := QXmppIq.parse element
    tzo := timezoneOffsetFromString (timeElement.firstChildElement "tzo").text
    utc := datetimeFromString (timeElement.firstChildElement "utc").text }

end QXmppEntityTimeIq

/-- Observable actions of the entity time manager. -/
inductive QXmppEntityTimeManager.Effect
  | sendPacket (packet : QXmppEntityTimeIq)
  | emitTimeReceived (entityTime : QXmppEntityTimeIq)
  deriving DecidableEq, Repr

/-- The code of `QXmppEntityTimeManager::handleStanza`: the value returned and
the actions performed. `currentDateTime` is the value of
`QDateTime::currentDateTime()`. -/
def QXmppEntityTimeManager.handleStanza (timezoneOffsetFromString : String → Int)
    (datetimeFromString : String → QDateTime) (currentDateTime : QDateTime)
    (element : QDomElement) : Bool × List QXmppEntityTimeManager.Effect :=
  if element.tagName = "iq" ∧ QXmppEntityTimeIq.isEntityTimeIq element = true then
    let entityTime := QXmppEntityTimeIq.parse timezoneOffsetFromString datetimeFromString element
    let sent : List QXmppEntityTimeManager.Effect :=
      if entityTime.iq.type = .Get then
        -- respond to query
        let utc := currentDateTime.toUTC
        let responseIq : QXmppEntityTimeIq :=
          { iq := { QXmppIq.new .Result with id := entityTime.iq.id, toJid := entityTime.iq.fromJid }
            utc := utc
            tzo := utc.secsTo currentDateTime.setTimeSpecUTC }
        [.sendPacket responseIq]
      else
        []
    (true, sent ++ [.emitTimeReceived entityTime])
  else
    (false, [])

/-- The packets sent among the given actions, in order. -/
def QXmppEntityTimeManager.sentPackets :
    List QXmppEntityTimeManager.Effect → List QXmppEntityTimeIq
  | [] => []
  | .sendPacket packet :: rest => packet :: QXmppEntityTimeManager.sentPackets rest
  | _ :: rest => QXmppEntityTimeManager.sentPackets rest

/-! ## Client: outstanding Jingle requests of a call (`QXmppCall.cpp`) -/

/-- The actions of a Jingle iq (`QXmppJingleIq::Action`). -/
inductive QXmppJingleIq.Action
  | ContentAccept
  | ContentAdd
  | ContentModify
  | ContentReject
  | ContentRemove
  | DescriptionInfo
  | SecurityInfo
  | SessionAccept
  | SessionInfo
  | SessionInitiate
  | SessionTerminate
  | TransportAccept
  | TransportInfo
  | TransportReject
  | TransportReplace
  deriving DecidableEq, Repr

/-- The reasons of a Jingle iq (`QXmppJingleIq::Reason::Type`). -/
inductive QXmppJingleIq.Reason.Type
  | None
  | AlternativeSession
  | Busy
  | Cancel
  | ConnectivityError
  | Decline
  | Expired
  | FailedApplication
  | FailedTransport
  | GeneralError
  | Gone
  | IncompatibleParameters
  | MediaError
  | SecurityError
  | Success
  | Timeout
  | UnsupportedApplications
  | UnsupportedTransports
  deriving DecidableEq, Repr

/-- A payload type of a Jingle description (`QXmppJinglePayloadType`), with the
fields that `QXmppCall.cpp` reads and writes. -/
structure QXmppJinglePayloadType where
  id : Nat
  name : String
  channels : Nat
  clockrate : Nat
  deriving DecidableEq, Repr

/-- A transport candidate (`QXmppJingleCandidate`); the call only passes
candidates on. -/
structure QXmppJingleCandidate where
  id : String
  host : String
  port : Nat
  deriving DecidableEq, Repr

/-- A content of a Jingle iq (`QXmppJingleIq::Content`), with the fields that
`QXmppCall.cpp` reads and writes. -/
structure QXmppJingleIq.Content where
  creator : String
  name : String
  senders : String
  descriptionMedia : String
  descriptionSsrc : Nat
  payloadTypes : List QXmppJinglePayloadType
  transportUser : String
  transportPassword : String
  transportCandidates : List QXmppJingleCandidate
  deriving DecidableEq, Repr

/-- A default-constructed `QXmppJingleIq::Content()`. -/
def QXmppJingleIq.Content.new : QXmppJingleIq.Content :=
  { creator := "", name := "", senders := "", descriptionMedia := "", descriptionSsrc := 0
    payloadTypes := [], transportUser := "", transportPassword := ""
    transportCandidates := [] }

/-- A Jingle iq: the iq envelope, the action, the session id, the reason and
the contents. -/
structure QXmppJingleIq where
  id : String
  toJid : String
  fromJid : String
  type : QXmppIq.Type
  action : QXmppJingleIq.Action
  sid : String
  reason : QXmppJingleIq.Reason.Type := .None
  contents : List QXmppJingleIq.Content := []
  deriving DecidableEq, Repr

/-- The directions of a call (`QXmppCall::Direction`). -/
inductive QXmppCall.Direction
  | IncomingDirection
  | OutgoingDirection
  deriving DecidableEq, Repr

/-- A codec of the call (`GstCodec`): the payload type number, the encoding
name, channels and clock rate, and the names of the GStreamer elements. -/
structure GstCodec where
  pt : Nat
  name : String
  channels : Nat
  clockrate : Nat
  gstPay : String
  gstDepay : String
  gstEnc : String
  gstDec : String
  deriving DecidableEq, Repr

/-- A media stream of a call (`QXmppCallStream`), with the data that
`QXmppCall.cpp` reads and writes: the accessors `id()`, `media()`, `creator()`,
`name()`, the private `payloadTypes` and `localSsrc`, and the local user,
password and candidates of the stream's ICE connection. A stream object is
identified by its id (`createStream` gives each stream the next id). -/
structure QXmppCallStream where
  id : Nat
  media : String
  creator : String
  name : String
  payloadTypes : List QXmppJinglePayloadType
  localSsrc : Nat
  localUser : String
  localPassword : String
  localCandidates : List QXmppJingleCandidate
  deriving DecidableEq, Repr

/-- The slots of `QXmppCall` that timers and signals are connected to. -/
inductive QXmppCall.Slot
  | terminated
  | ringing
  | localCandidatesChanged
  | hangup
  deriving DecidableEq, Repr

/-- The states of a call (`QXmppCall::State`). -/
inductive QXmppCall.State
  | ConnectingState
  | ActiveState
  | DisconnectingState
  | FinishedState
  deriving DecidableEq, Repr

/-- Observable actions of a call, in order. -/
inductive QXmppCall.Effect
  | sendPacket (packet : QXmppJingleIq)
  | debug (message : String)
  | closeConnection (stream : Nat)
  | emitStateChanged (state : QXmppCall.State)
  | emitConnected
  | emitFinished
  | sendIq (packet : QXmppIq)
  | warning (message : String)
  | info (message : String)
  | singleShot (msec : Nat) (slot : QXmppCall.Slot)
  | addEncoder (stream : Nat) (codec : GstCodec)
  | setRemoteUser (stream : Nat) (user : String)
  | setRemotePassword (stream : Nat) (password : String)
  | addRemoteCandidate (stream : Nat) (candidate : QXmppJingleCandidate)
  | connectToHost (stream : Nat)
  | setIceControlling (stream : Nat) (controlling : Bool)
  | setStunServers (stream : Nat)
  | setTurnServer (stream : Nat)
  | setTurnUser (stream : Nat)
  | setTurnPassword (stream : Nat)
  | bind (stream : Nat)
  | connect (stream : Nat) (signal : String) (slot : QXmppCall.Slot)
  | emitStreamCreated (stream : Nat)
  | deleteStream (stream : Nat)
  deriving DecidableEq, Repr

/-- The data members of `QXmppCallPrivate`: the outstanding requests, the call
state, the streams and the trace of actions; the direction, the remote jid,
the session id, the counter of stream ids and the two codec lists. The
defaults of direction and counter are those of the constructor. -/
structure QXmppCallPrivate where
  requests : List QXmppJingleIq
  state : QXmppCall.State
  streams : List QXmppCallStream
  trace : List QXmppCall.Effect
  direction : QXmppCall.Direction := .IncomingDirection
  jid : String := ""
  sid : String := ""
  nextId : Nat := 0
  audioCodecs : List GstCodec := []
  videoCodecs : List GstCodec := []
  deriving DecidableEq, Repr

namespace QXmppCallPrivate

/-- Appends actions to the trace. -/
def perform (d : QXmppCallPrivate) (effects : List QXmppCall.Effect) : QXmppCallPrivate :=
  { d with trace := d.trace ++ effects }

/-- The code of `QXmppCallPrivate::setState`. -/
def setState (d : QXmppCallPrivate) (newState : QXmppCall.State) : QXmppCallPrivate :=
  if d.state ≠ newState then
    let d1 := { d with state := newState }.perform [.emitStateChanged newState]
    if newState = .ActiveState then
      d1.perform [.emitConnected]
    else if newState = .FinishedState then
      d1.perform [.emitFinished]
    else
      d1
  else
    d

/-- The code of `QXmppCall::terminated`. -/
def terminated (d : QXmppCallPrivate) : QXmppCallPrivate :=
  (d.perform (d.streams.map (fun stream => .closeConnection stream.id))).setState .FinishedState

/-- The search of `handleAck`: the first request with the given id, taken out
of the list (`requests.takeAt(i)` at the first `i` with `id == requests[i].id()`),
with the remaining list; `none` when the loop ends without a match. -/
def takeRequest (id : String) : List QXmppJingleIq → Option (QXmppJingleIq × List QXmppJingleIq)
  | [] => none
  | request :: rest =>
    if id = request.id then
      some (request, rest)
    else
      match takeRequest id rest with
      | some (found, others) => some (found, request :: others)
      | none => none

/-- The code of `QXmppCallPrivate::handleAck`. -/
def handleAck (d : QXmppCallPrivate) (ack : QXmppIq) : QXmppCallPrivate :=
  let id := ack.id
  match takeRequest id d.requests with
  | some (request, others) =>
    -- process acknowledgement
    let d1 := { d with requests := others }.perform [.debug ("Received ACK for packet " ++ id)]
    -- handle termination
    if request.action = .SessionTerminate then d1.terminated else d1
  | none => d

/-- The code of `QXmppCallPrivate::sendRequest`. -/
def sendRequest (d : QXmppCallPrivate) (iq : QXmppJingleIq) : QXmppCallPrivate :=
  { d with requests := d.requests ++ [iq] }.perform [.sendPacket iq]

/-- The acknowledgement that `QXmppCallPrivate::sendAck` builds for a Jingle iq:
a default-constructed iq with id, `to` and type set. -/
def ackFor (iq : QXmppJingleIq) : QXmppIq :=
  { QXmppIq.new .Get with id := iq.id, toJid := iq.fromJid, type := .Result }

/-- The code of `QXmppCallPrivate::sendAck`. -/
def sendAck (d : QXmppCallPrivate) (iq : QXmppJingleIq) : QXmppCallPrivate :=
  d.perform [.sendIq (ackFor iq)]

end QXmppCallPrivate

namespace QXmppServer

/-- A server for the domain `example.org`, without extensions, plugins or connections. -/
def sampleServer : QXmppServer :=
  { QXmppServer.new (fun _ => { extensionName := "", extensionPriority := 0, handleStanza := fun _ => false }) [] with
    d := { QXmppServerPrivate.new with domain := "example.org" } }

/-- A get request with id `q1` from `alice@example.org/phone` to the given address. -/
def sampleRequest (toJid : String) : QDomElement :=
  .mk "iq" "jabber:client"
    [("type", "get"), ("id", "q1"), ("from", "alice@example.org/phone"), ("to", toJid)] "" []

/-- The second server continues the first: same domain, and its trace is the
first trace followed by actions among which no packet is given to `sendPacket`. -/
def Continues (s t : QXmppServer) : Prop :=
  t.d.domain = s.d.domain ∧ ∃ added, t.trace = s.trace ++ added ∧ sentPackets added = []

end QXmppServer

/-! ## Sample inputs -/

/-- The time zone conversion at the texts that occur in the sample inputs: the
empty text gives offset 0. -/
def sampleTimezoneOffsetFromString : String → Int :=
  fun _ => 0

/-- The date conversion at the texts that occur in the sample inputs: the
empty text gives an invalid date. -/
def sampleDatetimeFromString : String → QDateTime :=
  fun _ => { isValid := false, msecsSinceEpoch := 0, offsetFromUtc := 0 }

/-- A local time: 1000000 s after the epoch, one hour east of UTC. -/
def sampleCurrentDateTime : QDateTime :=
  { isValid := true, msecsSinceEpoch := 1000000000, offsetFromUtc := 3600 }

/-- An entity time iq of the given type with id `t1` from `bob@example.org/pc`,
carrying an empty `time` element in the entity time namespace. -/
def sampleTimeIq (type : String) : QDomElement :=
  .mk "iq" "jabber:client" [("type", type), ("id", "t1"), ("from", "bob@example.org/pc")] ""
    [.mk "time" "urn:xmpp:time" [] "" []]

/-- A stateless extension table: extensions 1 and 3 decline every element,
extension 2 handles every element. -/
def sampleClientExtensions : Nat → QDomElement → Unit → Bool × Unit :=
  fun p _ w => (p == 2, w)


/-- A call with two outstanding requests, with ids `a` and `b`. -/
def sampleCall : QXmppCallPrivate :=
  { requests :=
      [{ id := "a", toJid := "bob@example.org/pc", fromJid := "", type := .Set,
         action := .SessionInitiate, sid := "s1" },
       { id := "b", toJid := "bob@example.org/pc", fromJid := "", type := .Set,
         action := .TransportInfo, sid := "s1" }]
    state := .ConnectingState
    streams :=
      [{ id := 0, media := "audio", creator := "initiator", name := "voice", payloadTypes := []
         localSsrc := 0, localUser := "", localPassword := "", localCandidates := [] }]
    trace := [] }

/-- A session-terminate request with the given id. -/
def sampleTerminate (id : String) : QXmppJingleIq :=
  { id := id, toJid := "bob@example.org/pc", fromJid := "", type := .Set,
    action := .SessionTerminate, sid := "s1" }

/-- An acknowledgement (iq of type result) with the given id. -/
def sampleAck (id : String) : QXmppIq :=
  { QXmppIq.new .Result with id := id, fromJid := "bob@example.org/pc" }


/-- A server whose extension at address `p` has priority `p % 2`. -/
def samplePriorityServer : QXmppServer :=
  QXmppServer.new
    (fun p => { extensionName := "", extensionPriority := p % 2, handleStanza := fun _ => false }) []

/-- A sequence of registrations with a null pointer and a repeated extension. -/
def sampleRegistrations : List (Option Nat) :=
  [some 1, some 2, none, some 3, some 1, some 4]


/-! ## Client: `QXmppClient::sendMessage` -/

/-- The code of `QXmppClient::sendMessage`. `rosterManager` is the result of
`findExtension<QXmppRosterManager>()`: `none` when there is no roster manager,
otherwise its `getResources`. -/
def QXmppClient.sendMessage (c : QXmppClient) (rosterManager : Option (String → List String))
    (bareJid message : String) : QXmppClient :=
  let resources : List String :=
    match rosterManager with
    | some getResources => getResources bareJid
    | none => []
  if !resources.isEmpty then
    resources.foldl
      (fun s resource =>
        s.perform (.sendPacket (.message
          { fromJid := "", toJid := bareJid ++ "/" ++ resource, body := message })))
      c
  else
    c.perform (.sendPacket (.message { fromJid := "", toJid := bareJid, body := message }))


/-! ## Trust messages (`QXmppTrustMessages.cpp`) -/

/-- The namespace constant `ns_tm` of QXmppConstants.cpp. -/
def ns_tm : String := "urn:xmpp:tm:1"

/-- The bytes of a key identifier (a `QByteArray` in the source). -/
abbrev Bytes : Type := List (Fin 256)

/-- The element that `QXmlStreamWriter::writeTextElement(name, text)` writes,
as a namespace-aware parser reads it back: it has no namespace declaration of
its own, so it is in the default namespace in scope. -/
def QXmlStreamWriter.textElement (defaultNamespace name text : String) : QDomElement :=
  .mk name defaultNamespace [] text []

/-- The data members of `QXmppTrustMessageKeyOwnerPrivate`. -/
structure QXmppTrustMessageKeyOwner where
  jid : String
  trustedKeys : List Bytes
  distrustedKeys : List Bytes
  deriving DecidableEq, Repr

namespace QXmppTrustMessageKeyOwner

/-- A default-constructed key owner. -/
def new : QXmppTrustMessageKeyOwner :=
  { jid := "", trustedKeys := [], distrustedKeys := [] }

/-- The code of `QXmppTrustMessageKeyOwner::setJid`. -/
def setJid (u : QXmppUtils) (d : QXmppTrustMessageKeyOwner) (jid : String) :
    QXmppTrustMessageKeyOwner :=
  { d with jid := u.jidToBareJid jid }

/-- The code of `QXmppTrustMessageKeyOwner::setTrustedKeys`. -/
def setTrustedKeys (d : QXmppTrustMessageKeyOwner) (keyIds : List Bytes) :
    QXmppTrustMessageKeyOwner :=
  { d with trustedKeys := keyIds }

/-- The code of `QXmppTrustMessageKeyOwner::setDistrustedKeys`. -/
def setDistrustedKeys (d : QXmppTrustMessageKeyOwner) (keyIds : List Bytes) :
    QXmppTrustMessageKeyOwner :=
  { d with distrustedKeys := keyIds }

/-- The code of `QXmppTrustMessageKeyOwner::isTrustMessageKeyOwner`. -/
def isTrustMessageKeyOwner (element : QDomElement) : Bool :=
  element.tagName == "key-owner" && element.namespaceURI == ns_tm

/-- The body of the loop of `QXmppTrustMessageKeyOwner::parse` for one child element. -/
def parseChild (fromBase64 : String → Bytes) (d : QXmppTrustMessageKeyOwner)
    (childElement : QDomElement) : QXmppTrustMessageKeyOwner :=
  if childElement.tagName = "trust" then
    { d with trustedKeys := d.trustedKeys ++ [fromBase64 childElement.text] }
  else if childElement.tagName = "distrust" then
    { d with distrustedKeys := d.distrustedKeys ++ [fromBase64 childElement.text] }
  else
    d

/-- The code of `QXmppTrustMessageKeyOwner::parse`, called on the key owner `d`.
`fromBase64` is `QByteArray::fromBase64` applied to the text of an element. -/
def parse (fromBase64 : String → Bytes) (d : QXmppTrustMessageKeyOwner) (element : QDomElement) :
    QXmppTrustMessageKeyOwner :=
  element.children.foldl (parseChild fromBase64) { d with jid := element.attributeValue "jid" }

/-- The code of `QXmppTrustMessageKeyOwner::toXml`: the element written, as a
namespace-aware parser reads it back when `defaultNamespace` is the default
namespace in scope at the writer. `toBase64` is `QByteArray::toBase64`. -/
def toXml (toBase64 : Bytes → String) (defaultNamespace : String)
    (d : QXmppTrustMessageKeyOwner) : QDomElement :=
  .mk "key-owner" defaultNamespace [("jid", d.jid)] ""
    (d.trustedKeys.map
        (fun keyIdentifier =>
          QXmlStreamWriter.textElement defaultNamespace "trust" (toBase64 keyIdentifier)) ++
      d.distrustedKeys.map
        (fun keyIdentifier =>
          QXmlStreamWriter.textElement defaultNamespace "distrust" (toBase64 keyIdentifier)))

end QXmppTrustMessageKeyOwner

/-- The data members of `QXmppTrustMessageElementPrivate`. -/
structure QXmppTrustMessageElement where
  usage : String
  encryption : String
  keyOwners : List QXmppTrustMessageKeyOwner
  deriving DecidableEq, Repr

namespace QXmppTrustMessageElement

/-- A default-constructed trust message element. -/
def new : QXmppTrustMessageElement :=
  { usage := "", encryption := "", keyOwners := [] }

/-- The code of `QXmppTrustMessageElement::setUsage`. -/
def setUsage (d : QXmppTrustMessageElement) (usage : String) : QXmppTrustMessageElement :=
  { d with usage := usage }

/-- The code of `QXmppTrustMessageElement::setEncryption`. -/
def setEncryption (d : QXmppTrustMessageElement) (encryption : String) :
    QXmppTrustMessageElement :=
  { d with encryption := encryption }

/-- The code of `QXmppTrustMessageElement::setKeyOwners`. -/
def setKeyOwners (d : QXmppTrustMessageElement) (keyOwners : List QXmppTrustMessageKeyOwner) :
    QXmppTrustMessageElement :=
  { d with keyOwners := keyOwners }

/-- The code of `QXmppTrustMessageElement::addKeyOwner`. -/
def addKeyOwner (d : QXmppTrustMessageElement) (keyOwner : QXmppTrustMessageKeyOwner) :
    QXmppTrustMessageElement :=
  { d with keyOwners := d.keyOwners ++ [keyOwner] }

/-- The body of the loop of `QXmppTrustMessageElement::parse` for one
`key-owner` child element. -/
def parseKeyOwner (fromBase64 : String → Bytes) (d : QXmppTrustMessageElement)
    (keyOwnerElement : QDomElement) : QXmppTrustMessageElement :=
  if QXmppTrustMessageKeyOwner.isTrustMessageKeyOwner keyOwnerElement then
    { d with
      keyOwners := d.keyOwners ++
        [QXmppTrustMessageKeyOwner.parse fromBase64 QXmppTrustMessageKeyOwner.new keyOwnerElement] }
  else
    d

/-- The code of `QXmppTrustMessageElement::parse`, called on the element `d`:
the loop runs over the child elements with tag name `key-owner`, in order. -/
def parse (fromBase64 : String → Bytes) (d : QXmppTrustMessageElement) (element : QDomElement) :
    QXmppTrustMessageElement :=
  (element.children.filter (fun child => child.tagName == "key-owner")).foldl
    (parseKeyOwner fromBase64)
    { d with
      usage := element.attributeValue "usage"
      encryption := element.attributeValue "encryption" }

/-- The code of `QXmppTrustMessageElement::toXml`: the element written, as a
namespace-aware parser reads it back. -/
def toXml (toBase64 : Bytes → String) (d : QXmppTrustMessageElement) : QDomElement :=
  .mk "trust-message" ns_tm [("usage", d.usage), ("encryption", d.encryption)] ""
    (d.keyOwners.map (fun keyOwner => QXmppTrustMessageKeyOwner.toXml toBase64 ns_tm keyOwner))

/-- The code of `QXmppTrustMessageElement::isTrustMessageElement`. -/
def isTrustMessageElement (element : QDomElement) : Bool :=
  element.tagName == "trust-message" && element.namespaceURI == ns_tm

end QXmppTrustMessageElement


/-! ## Base64 text of key identifiers (`QByteArray::toBase64`, `QByteArray::fromBase64`) -/

namespace QByteArray

/-- The Base64 alphabet: the character for a six-bit value. -/
def alphabet (d : Nat) : Char :=
  "ABCDEFGHIJKLMNOPQRSTUVWXYZabcdefghijklmnopqrstuvwxyz0123456789+/".data.getD d '='

/-- The four characters written for a chunk of three bytes, of which the last
`padlen` are missing and padded with `=`. -/
def encodeChunk (chunk padlen : Nat) : List Char :=
  [alphabet (chunk / 262144 % 64),
    alphabet (chunk / 4096 % 64),
    if padlen > 1 then '=' else alphabet (chunk / 64 % 64),
    if padlen > 0 then '=' else alphabet (chunk % 64)]

/-- The characters of `toBase64()`: three bytes at a time. -/
def toBase64Chars : List (Fin 256) → List Char
  | [] => []
  | [a] => encodeChunk (a.val * 65536) 2
  | [a, b] => encodeChunk (a.val * 65536 + b.val * 256) 1
  | a :: b :: c :: rest =>
    encodeChunk (a.val * 65536 + b.val * 256 + c.val) 0 ++ toBase64Chars rest

/-- The value of `QByteArray::toBase64()`, as text. -/
def toBase64 (bytes : Bytes) : String :=
  String.mk (toBase64Chars bytes)

/-- The six-bit value of a character; `none` for a character outside the
alphabet, which the decoder skips. -/
def base64Value (ch : Char) : Option Nat :=
  if 'A' ≤ ch ∧ ch ≤ 'Z' then some (ch.toNat - 65)
  else if 'a' ≤ ch ∧ ch ≤ 'z' then some (ch.toNat - 97 + 26)
  else if '0' ≤ ch ∧ ch ≤ '9' then some (ch.toNat - 48 + 52)
  else if ch = '+' then some 62
  else if ch = '/' then some 63
  else none

/-- The state of the decoder: the bit buffer, the number of bits in it and the
bytes written so far. -/
structure Decoder where
  buf : Nat
  nbits : Nat
  output : Bytes
  deriving DecidableEq, Repr

/-- One character read by the decoder: its six bits are shifted into the
buffer, and a byte is written as soon as eight bits are there. -/
def decodeChar (s : Decoder) (ch : Char) : Decoder :=
  match base64Value ch with
  | none => s
  | some d =>
    if s.nbits + 6 ≥ 8 then
      { buf := (s.buf * 64 + d) % 2 ^ (s.nbits + 6 - 8)
        nbits := s.nbits + 6 - 8
        output := s.output ++
          [⟨(s.buf * 64 + d) / 2 ^ (s.nbits + 6 - 8) % 256, Nat.mod_lt _ (by decide)⟩] }
    else
      { buf := s.buf * 64 + d, nbits := s.nbits + 6, output := s.output }

/-- The value of `QByteArray::fromBase64` on the Latin-1 bytes of a text. -/
def fromBase64 (text : String) : Bytes :=
  (text.data.foldl decodeChar { buf := 0, nbits := 0, output := [] }).output

end QByteArray


/-- A trust message element built through the setters: usage and encryption
namespaces, and the key owners Alice (two trusted keys, one distrusted key,
registered with a full JID) and Bob (one trusted key). -/
def sampleTrustMessage : QXmppTrustMessageElement :=
  ((QXmppTrustMessageElement.new.setUsage "urn:xmpp:atm:1").setEncryption "urn:xmpp:omemo:1").setKeyOwners
    [((QXmppTrustMessageKeyOwner.new.setJid QXmppUtils.reference "alice@example.org/phone").setTrustedKeys
        [[209, 23, 21, 176], [181, 137]]).setDistrustedKeys [[120, 138, 64]],
      (QXmppTrustMessageKeyOwner.new.setJid QXmppUtils.reference "bob@example.com").setTrustedKeys
        [[182, 194, 30, 17, 27]]]

/-- A `key-owner` element whose `jid` attribute is a full JID. -/
def sampleKeyOwnerElement : QDomElement :=
  .mk "key-owner" "urn:xmpp:tm:1" [("jid", "alice@example.org/phone")] ""
    [.mk "trust" "urn:xmpp:tm:1" [] "TWFu" []]


/-! ## Entity time payload (`QXmppEntityTimeIq.cpp`) -/

namespace QXmppEntityTimeIq

/-- A default-constructed entity time iq: offset 0 and an invalid date. -/
def new : QXmppEntityTimeIq :=
  { iq := QXmppIq.new .Get
    tzo := 0
    utc := { isValid := false, msecsSinceEpoch := 0, offsetFromUtc := 0 } }

/-- The code of `QXmppEntityTimeIq::setTzo`. -/
def setTzo (d : QXmppEntityTimeIq) (tzo : Int) : QXmppEntityTimeIq :=
  { d with tzo := tzo }

/-- The code of `QXmppEntityTimeIq::setUtc`. -/
def setUtc (d : QXmppEntityTimeIq) (utc : QDateTime) : QXmppEntityTimeIq :=
  { d with utc := utc }

/-- The code of `QXmppEntityTimeIq::parseElementFromChild`, called on the iq
`d` with the iq element. The string conversions of QXmppUtils are parameters. -/
def parseElementFromChild (timezoneOffsetFromString : String → Int)
    (datetimeFromString : String → QDateTime) (d : QXmppEntityTimeIq) (element : QDomElement) :
    QXmppEntityTimeIq :=
  let timeElement := element.firstChildElement "time"
  { d with
    tzo := timezoneOffsetFromString (timeElement.firstChildElement "tzo").text
    utc := datetimeFromString (timeElement.firstChildElement "utc").text }

/-- The code of `QXmppEntityTimeIq::toXmlElementFromChild`: the `time` element
written, as a namespace-aware parser reads it back. The string conversions of
QXmppUtils are parameters; `helperToXmlAddTextElement` writes an element with
the given name and text. -/
def toXmlElementFromChild (timezoneOffsetToString : Int → String)
    (datetimeToString : QDateTime → String) (d : QXmppEntityTimeIq) : QDomElement :=
  .mk "time" ns_entity_time [] ""
    (if d.utc.isValid then
      [QXmlStreamWriter.textElement ns_entity_time "tzo" (timezoneOffsetToString d.tzo),
        QXmlStreamWriter.textElement ns_entity_time "utc" (datetimeToString d.utc)]
    else
      [])

end QXmppEntityTimeIq

/-- The start of the epoch, in UTC. -/
def sampleEpoch : QDateTime :=
  { isValid := true, msecsSinceEpoch := 0, offsetFromUtc := 0 }

/-- An iq element with the given payload as its only child. -/
def sampleIqWith (payload : QDomElement) : QDomElement :=
  .mk "iq" "jabber:client" [("type", "result"), ("id", "t1")] "" [payload]


/-! ## Server: client connections and dialback (`QXmppServer.cpp`) -/

namespace QXmppServer

/-- The connections that `routeData` looks up for a destination of the
server's domain: with a resource, the connection registered under the full
JID, if any; without a resource, the connections registered under the bare JID. -/
def selected (u : QXmppUtils) (server : QXmppServer) (toJid : String) : List Nat :=
  if u.jidToResource toJid = "" then
    match server.d.incomingClientsByBareJid.find? (fun kv => kv.1 == toJid) with
    | some kv => kv.2
    | none => []
  else
    match server.d.incomingClientsByJid.find? (fun kv => kv.1 == toJid) with
    | some kv => [kv.2]
    | none => []

/-- The connections that were handed data among the given actions, in order. -/
def deliveredTo : List QXmppServer.Effect → List Nat
  | [] => []
  | .sendData conn _ :: rest => conn :: deliveredTo rest
  | _ :: rest => deliveredTo rest

/-- The text of the stream error sent to a connection that is replaced. -/
def conflictStreamError : String :=
  "<stream:error><conflict xmlns='urn:ietf:params:xml:ns:xmpp-streams'/><text xmlns='urn:ietf:params:xml:ns:xmpp-streams'>Replaced by new connection</text></stream:error>"

/-- The code of `QXmppServer::addIncomingClient`. -/
def addIncomingClient (server : QXmppServer) (stream : Nat) : QXmppServer :=
  let clients :=
    if stream ∈ server.d.incomingClients then server.d.incomingClients
    else server.d.incomingClients ++ [stream]
  { server with d := { server.d with incomingClients := clients } }.perform
    [.setGauge "incoming-client.count" clients.length]

/-- The code of `QXmppServer::_q_clientConnected`. `sender` is the incoming
client that emitted the signal (`none` when the sender is no incoming client),
`jid` the value of its `jid()`. -/
def _q_clientConnected (u : QXmppUtils) (server : QXmppServer) (sender : Option Nat)
    (jid : String) : QXmppServer :=
  match sender with
  | none => server
  | some client =>
    -- check whether the connection conflicts with another one
    let s1 : QXmppServer :=
      match server.d.incomingClientsByJid.find? (fun kv => kv.1 == jid) with
      | some kv =>
        if kv.2 ≠ client then
          server.perform [.sendData kv.2 (.literal conflictStreamError), .disconnectFromHost kv.2]
        else
          server
      | none => server
    let bareJid := u.jidToBareJid jid
    let members : List Nat :=
      match s1.d.incomingClientsByBareJid.find? (fun kv => kv.1 == bareJid) with
      | some kv => kv.2
      | none => []
    let inserted : List Nat := if members.contains client then members else members ++ [client]
    let s2 : QXmppServer :=
      { s1 with d := { s1.d with
          incomingClientsByJid :=
            (jid, client) :: s1.d.incomingClientsByJid.filter (fun kv => kv.1 != jid)
          incomingClientsByBareJid :=
            (bareJid, inserted) ::
              s1.d.incomingClientsByBareJid.filter (fun kv => kv.1 != bareJid) } }
    -- emit signal
    s2.perform [.emitClientConnected jid]

/-- The code of `QXmppServer::_q_clientDisconnected`. -/
def _q_clientDisconnected (u : QXmppUtils) (server : QXmppServer) (sender : Option Nat)
    (jid : String) : QXmppServer :=
  match sender with
  | none => server
  | some client =>
    if client ∈ server.d.incomingClients then
      let s1 : QXmppServer :=
        { server with d := { server.d with
            incomingClients := server.d.incomingClients.filter (fun p => p != client) } }
      -- remove stream from routing tables
      let s2 : QXmppServer :=
        if jid ≠ "" then
          let byJid :=
            match s1.d.incomingClientsByJid.find? (fun kv => kv.1 == jid) with
            | some kv =>
              if kv.2 = client then s1.d.incomingClientsByJid.filter (fun kv => kv.1 != jid)
              else s1.d.incomingClientsByJid
            | none => s1.d.incomingClientsByJid
          let bareJid := u.jidToBareJid jid
          let byBareJid :=
            match s1.d.incomingClientsByBareJid.find? (fun kv => kv.1 == bareJid) with
            | some kv =>
              if (kv.2.filter (fun p => p != client)).isEmpty then
                s1.d.incomingClientsByBareJid.filter (fun kv => kv.1 != bareJid)
              else
                (bareJid, kv.2.filter (fun p => p != client)) ::
                  s1.d.incomingClientsByBareJid.filter (fun kv => kv.1 != bareJid)
            | none => s1.d.incomingClientsByBareJid
          { s1 with d := { s1.d with
              incomingClientsByJid := byJid, incomingClientsByBareJid := byBareJid } }
        else
          s1
      -- destroy client, emit signal, update counter
      ((s2.perform [.deleteLater client]).perform
          (if jid ≠ "" then [.emitClientDisconnected jid] else [])).perform
        [.setGauge "incoming-client.count" s2.d.incomingClients.length]
    else
      server

/-- The verify response that `_q_dialbackRequestReceived` builds. -/
def verifyResponse (server : QXmppServer) (dialback : QXmppDialback) (out : QXmppOutgoingServer) :
    QXmppDialback :=
  { QXmppDialback.new with
    command := .Verify
    id := dialback.id
    toJid := dialback.fromJid
    fromJid := server.d.domain
    type := if dialback.key = out.localStreamKey then "valid" else "invalid" }

/-- The code of `QXmppServer::_q_dialbackRequestReceived`. `sender` is the
incoming server stream that emitted the signal (`none` when the sender is no
incoming server stream). -/
def _q_dialbackRequestReceived (server : QXmppServer) (sender : Option Nat)
    (dialback : QXmppDialback) : QXmppServer :=
  match sender with
  | none => server
  | some stream =>
    if dialback.command = .Verify then
      -- handle a verify request
      match server.d.outgoingServers.find? (fun out => out.remoteDomain == dialback.fromJid) with
      | some out => server.perform [.sendDialback stream (verifyResponse server dialback out)]
      | none => server
    else
      server

/-- The dialback packets sent among the given actions, with the stream each
was sent on, in order. -/
def sentDialbacks : List QXmppServer.Effect → List (Nat × QXmppDialback)
  | [] => []
  | .sendDialback stream packet :: rest => (stream, packet) :: sentDialbacks rest
  | _ :: rest => sentDialbacks rest

end QXmppServer


namespace QXmppServer

/-- The value of `incomingClientsByJid.value(jid)`: `none` is the null pointer. -/
def registered (server : QXmppServer) (jid : String) : Option Nat :=
  match server.d.incomingClientsByJid.find? (fun kv => kv.1 == jid) with
  | some kv => some kv.2
  | none => none

/-- The value of `incomingClientsByBareJid.value(bareJid)`. -/
def registeredBare (server : QXmppServer) (bareJid : String) : List Nat :=
  match server.d.incomingClientsByBareJid.find? (fun kv => kv.1 == bareJid) with
  | some kv => kv.2
  | none => []

/-- The server for `example.org` after the streams 1 and 2 connected as
`alice@example.org/phone` and `alice@example.org/pc`. -/
def sampleRoutingServer : QXmppServer :=
  (sampleServer._q_clientConnected QXmppUtils.reference (some 1)
    "alice@example.org/phone")._q_clientConnected QXmppUtils.reference (some 2) "alice@example.org/pc"

/-- The server for `example.org` with an outgoing stream to `example.com`
whose local stream key is `secret`. -/
def sampleDialbackServer : QXmppServer :=
  { sampleServer with
    d := { sampleServer.d with
      outgoingServers := [{ ptr := 7, remoteDomain := "example.com", localStreamKey := "secret" }] } }

end QXmppServer


/-! ## Client: Jingle requests, descriptions and termination of a call (`QXmppCall.cpp`) -/

/-- What `QXmppCall.cpp` uses from code that lies outside the file: the media
names `AUDIO_MEDIA` and `VIDEO_MEDIA` (declared in a header), the GStreamer
lookup `gst_element_factory_find` (whether a factory of that name exists) and
the constructor of `QXmppCallStream`, which receives the media, the creator, the
name and the id. -/
structure QXmppCall.Platform where
  AUDIO_MEDIA : String
  VIDEO_MEDIA : String
  gst_element_factory_find : String → Bool
  newStream : String → String → String → Nat → QXmppCallStream

namespace QXmppCallPrivate

/-- The code of `QXmppCallPrivate::isFormatSupported`. -/
def isFormatSupported (env : QXmppCall.Platform) (codecName : String) : Bool :=
  env.gst_element_factory_find codecName

/-- The code of `QXmppCallPrivate::findStreamByName`. -/
def findStreamByName (d : QXmppCallPrivate) (name : String) : Option QXmppCallStream :=
  d.streams.find? (fun stream => stream.name == name)

/-- The code of `QXmppCallPrivate::findStreamById`. -/
def findStreamById (d : QXmppCallPrivate) (id : Nat) : Option QXmppCallStream :=
  d.streams.find? (fun stream => stream.id == id)

/-- The state of the loop `for (auto &codec : codecs)` in `handleDescription`:
the flags `foundCandidate` and `supported`, the entries of the local list
`codecs` visited so far (after the assignments to them) and the actions done. -/
structure DescriptionLoop where
  foundCandidate : Bool
  supported : Bool
  codecs : List GstCodec
  effects : List QXmppCall.Effect
  deriving DecidableEq, Repr

/-- The body of the loop `for (auto &codec : codecs)` in `handleDescription`,
for the payload type `it` of the stream. -/
def matchCodec (stream : Nat) (it : QXmppJinglePayloadType) (dynamic : Bool)
    (loop : DescriptionLoop) (codec : GstCodec) : DescriptionLoop :=
  if dynamic then
    if codec.name = it.name ∧ codec.clockrate = it.clockrate ∧ codec.channels = it.channels then
      { foundCandidate := true
        supported := true
        -- Adopt id from other side.
        codecs := loop.codecs ++ [{ codec with pt := it.id }]
        effects :=
          loop.effects ++ (if !loop.foundCandidate then [.addEncoder stream codec] else []) }
    else
      { loop with codecs := loop.codecs ++ [codec] }
  else
    if codec.pt = it.id ∧ codec.clockrate = it.clockrate ∧ codec.channels = it.channels then
      { foundCandidate := true
        supported := true
        -- Keep our name just to be sure
        codecs := loop.codecs ++ [{ codec with name := it.name }]
        effects :=
          loop.effects ++ (if !loop.foundCandidate then [.addEncoder stream codec] else []) }
    else
      { loop with codecs := loop.codecs ++ [codec] }

/-- One round of the loop `while (it != stream->d->payloadTypes.end())` in
`handleDescription`: the local list `auto codecs = ...` is a copy of
`audioCodecs` or `videoCodecs`, made anew in every round. -/
def matchPayloadType (env : QXmppCall.Platform) (d : QXmppCallPrivate) (stream : QXmppCallStream)
    (it : QXmppJinglePayloadType) (foundCandidate : Bool) : DescriptionLoop :=
  let dynamic := decide (it.id ≥ 96)
  let codecs := if stream.media = env.AUDIO_MEDIA then d.audioCodecs else d.videoCodecs
  codecs.foldl (matchCodec stream.id it dynamic)
    { foundCandidate := foundCandidate, supported := false, codecs := [], effects := [] }

/-- The loop `while (it != stream->d->payloadTypes.end())` in
`handleDescription`: the payload types that stay in the stream (those not
supported are erased), the final `foundCandidate` and the actions done. The
local list `codecs` of a round goes out of scope at the end of the round. -/
def filterPayloadTypes (env : QXmppCall.Platform) (d : QXmppCallPrivate)
    (stream : QXmppCallStream) :
    List QXmppJinglePayloadType → Bool → List QXmppJinglePayloadType × Bool × List QXmppCall.Effect
  | [], foundCandidate => ([], foundCandidate, [])
  | it :: rest, foundCandidate =>
    let loop := matchPayloadType env d stream it foundCandidate
    let (kept, found, effects) := filterPayloadTypes env d stream rest loop.foundCandidate
    (if loop.supported then it :: kept else kept, found, loop.effects ++ effects)

/-- Writes the payload types of the stream object with the id of `stream`. -/
def setPayloadTypes (d : QXmppCallPrivate) (stream : QXmppCallStream)
    (payloadTypes : List QXmppJinglePayloadType) : QXmppCallPrivate :=
  { d with
    streams :=
      d.streams.map
        (fun s => if s.id = stream.id then { s with payloadTypes := payloadTypes } else s) }

/-- The code of `QXmppCallPrivate::handleDescription`. -/
def handleDescription (env : QXmppCall.Platform) (d : QXmppCallPrivate) (stream : QXmppCallStream)
    (content : QXmppJingleIq.Content) : QXmppCallPrivate × Bool :=
  let (payloadTypes, _, effects) := filterPayloadTypes env d stream content.payloadTypes false
  let d1 := (d.setPayloadTypes stream payloadTypes).perform effects
  if payloadTypes.isEmpty then
    (d1.perform
        [.warning ("Remote party " ++ d.jid ++ " did not provide any known " ++ stream.media ++
          " payloads for call " ++ d.sid)],
      false)
  else
    (d1, true)

/-- The code of `QXmppCallPrivate::handleTransport`. -/
def handleTransport (d : QXmppCallPrivate) (stream : QXmppCallStream)
    (content : QXmppJingleIq.Content) : QXmppCallPrivate × Bool :=
  let candidates := content.transportCandidates
  let d1 :=
    d.perform
      ([.setRemoteUser stream.id content.transportUser,
        .setRemotePassword stream.id content.transportPassword] ++
        candidates.map (fun candidate => .addRemoteCandidate stream.id candidate))
  -- perform ICE negotiation
  if !content.transportCandidates.isEmpty then
    (d1.perform [.connectToHost stream.id], true)
  else
    (d1, true)

/-- The code of `QXmppCallPrivate::createStream`; the stream object is the one
made by the constructor of `QXmppCallStream`, holding the arguments passed. -/
def createStream (env : QXmppCall.Platform) (d : QXmppCallPrivate) (media creator name : String) :
    QXmppCallPrivate × Option QXmppCallStream :=
  if media ≠ env.AUDIO_MEDIA ∧ media ≠ env.VIDEO_MEDIA then
    (d.perform [.warning ("Unsupported media type " ++ media)], none)
  else if !isFormatSupported env "rtpbin" then
    (d.perform [.warning "The rtpbin GStreamer plugin is missing. Calls are not possible."], none)
  else
    let d1 := { d with nextId := d.nextId + 1 }
    let fresh : QXmppCallStream :=
      { env.newStream media creator name d1.nextId with
        id := d1.nextId, media := media, creator := creator, name := name }
    -- Fill local payload payload types
    let codecs := if media = env.AUDIO_MEDIA then d1.audioCodecs else d1.videoCodecs
    let stream : QXmppCallStream :=
      { fresh with
        payloadTypes :=
          fresh.payloadTypes ++
            codecs.map
              (fun codec =>
                { id := codec.pt, name := codec.name, channels := codec.channels
                  clockrate := codec.clockrate }) }
    -- ICE connection, then connect signals, then `emit q->streamCreated(stream)`
    (d1.perform
        [.setIceControlling stream.id (decide (d1.direction = .OutgoingDirection)),
         .setStunServers stream.id,
         .setTurnServer stream.id,
         .setTurnUser stream.id,
         .setTurnPassword stream.id,
         .bind stream.id,
         .connect stream.id "localCandidatesChanged" .localCandidatesChanged,
         .connect stream.id "disconnected" .hangup,
         .emitStreamCreated stream.id],
      some stream)

/-- The stream object that the pointer `stream` refers to, as it is now. -/
def current (d : QXmppCallPrivate) (stream : QXmppCallStream) : QXmppCallStream :=
  (d.findStreamById stream.id).getD stream

/-- The code of `QXmppCallPrivate::localContent`. -/
def localContent (d : QXmppCallPrivate) (stream : QXmppCallStream) : QXmppJingleIq.Content :=
  let s := d.current stream
  { creator := s.creator
    name := s.name
    senders := "both"
    -- description
    descriptionMedia := s.media
    descriptionSsrc := s.localSsrc
    payloadTypes := s.payloadTypes
    -- transport
    transportUser := s.localUser
    transportPassword := s.localPassword
    transportCandidates := s.localCandidates }

/-- The request that `QXmppCallPrivate::terminate` builds; `id` is the id that
the constructor of the iq generates. -/
def terminateRequest (d : QXmppCallPrivate) (id : String)
    (reasonType : QXmppJingleIq.Reason.Type) : QXmppJingleIq :=
  { id := id, toJid := d.jid, fromJid := "", type := .Set, action := .SessionTerminate
    sid := d.sid, reason := reasonType }

/-- The code of `QXmppCallPrivate::terminate`; `id` is the id that the
constructor of the new iq generates. -/
def terminate (d : QXmppCallPrivate) (id : String) (reasonType : QXmppJingleIq.Reason.Type) :
    QXmppCallPrivate :=
  if d.state = .DisconnectingState ∨ d.state = .FinishedState then
    d
  else
    -- hangup call
    let d1 := d.sendRequest (d.terminateRequest id reasonType)
    let d2 := d1.setState .DisconnectingState
    -- schedule forceful termination in 5s
    d2.perform [.singleShot 5000 .terminated]

/-- The code of `QXmppCall::hangup`. -/
def hangup (d : QXmppCallPrivate) (id : String) : QXmppCallPrivate :=
  d.terminate id .None

/-- The end of the content-add branch of `QXmppCallPrivate::handleRequest`, from
the comment `check content description` on: the new stream is in `streams`; the
content is rejected and the stream deleted when description or transport fail,
and accepted otherwise. `id` is the id that the constructor of the new iq
generates. -/
def answerContentAdd (env : QXmppCall.Platform) (d : QXmppCallPrivate) (id : String)
    (stream : QXmppCallStream) (content : QXmppJingleIq.Content) : QXmppCallPrivate :=
  -- check content description
  let described := d.handleDescription env stream content
  let transported :=
    if !described.2 then described else described.1.handleTransport stream content
  if !transported.2 then
    let reject : QXmppJingleIq :=
      { id := id, toJid := d.jid, fromJid := "", type := .Set, action := .ContentReject
        sid := d.sid, reason := .FailedApplication }
    let d1 := transported.1.sendRequest reject
    { d1 with streams := d1.streams.filter (fun s => s.id != stream.id) }.perform
      [.deleteStream stream.id]
  else
    -- accept content
    let accept : QXmppJingleIq :=
      { id := id, toJid := d.jid, fromJid := "", type := .Set, action := .ContentAccept
        sid := d.sid, contents := [transported.1.localContent stream] }
    transported.1.sendRequest accept

/-- The code of `QXmppCallPrivate::handleRequest`; `id` is the id that the
constructor generates for the iq built while the request is handled. -/
def handleRequest (env : QXmppCall.Platform) (d : QXmppCallPrivate) (id : String)
    (iq : QXmppJingleIq) : QXmppCallPrivate :=
  let content :=
    match iq.contents with
    | [] => QXmppJingleIq.Content.new
    | first :: _ => first
  if iq.action = .SessionAccept then
    if d.direction = .IncomingDirection then
      d.perform [.warning "Ignoring Session-Accept for an incoming call"]
    else
      -- send ack
      let d1 := d.sendAck iq
      -- check content description and transport
      match d1.findStreamByName content.name with
      | none => d1.terminate id .FailedApplication
      | some stream =>
        let (d2, described) := d1.handleDescription env stream content
        if !described then
          d2.terminate id .FailedApplication
        else
          let (d3, transported) := d2.handleTransport stream content
          if !transported then
            d3.terminate id .FailedApplication
          else
            -- check for call establishment
            d3.setState .ActiveState
  else if iq.action = .SessionInfo then
    -- notify user
    d.perform [.singleShot 0 .ringing]
  else if iq.action = .SessionTerminate then
    -- send ack
    let d1 := d.sendAck iq
    -- terminate
    let d2 :=
      d1.perform [.info ("Remote party " ++ iq.fromJid ++ " terminated call " ++ iq.sid)]
    d2.terminated
  else if iq.action = .ContentAccept then
    -- send ack
    let d1 := d.sendAck iq
    -- check content description and transport
    match d1.findStreamByName content.name with
    | none => d1
    | some stream =>
      let (d2, described) := d1.handleDescription env stream content
      if !described then
        d2
      else
        (d2.handleTransport stream content).1
  else if iq.action = .ContentAdd then
    -- send ack
    let d1 := d.sendAck iq
    -- check media stream does not exist yet
    match d1.findStreamByName content.name with
    | some _ => d1
    | none =>
      -- create media stream
      match d1.createStream env content.descriptionMedia content.creator content.name with
      | (d2, none) => d2
      | (d2, some stream) =>
        { d2 with streams := d2.streams ++ [stream] }.answerContentAdd env id stream content
  else if iq.action = .TransportInfo then
    -- send ack
    let d1 := d.sendAck iq
    -- check content transport
    match d1.findStreamByName content.name with
    | none => d1
    | some stream => (d1.handleTransport stream content).1
  else
    d

/-- The acknowledgements among a list of actions: the iqs handed to the
client's `sendPacket` by `sendAck`. -/
def acks : List QXmppCall.Effect → List QXmppIq
  | [] => []
  | .sendIq packet :: rest => packet :: acks rest
  | _ :: rest => acks rest

/-- The Jingle requests among a list of actions: the iqs handed to the
client's `sendPacket` by `sendRequest`. -/
def sentRequests : List QXmppCall.Effect → List QXmppJingleIq
  | [] => []
  | .sendPacket packet :: rest => packet :: sentRequests rest
  | _ :: rest => sentRequests rest

/-- The acknowledgements sent between the call state `old` and the later state `d`. -/
def sentAcks (old d : QXmppCallPrivate) : List QXmppIq :=
  acks (d.trace.drop old.trace.length)

/-- The session-terminate requests sent between the call state `old` and the
later state `d`. -/
def sentTerminates (old d : QXmppCallPrivate) : List QXmppJingleIq :=
  (sentRequests (d.trace.drop old.trace.length)).filter (fun iq => iq.action = .SessionTerminate)

end QXmppCallPrivate

/-- The platform of the samples: media names `audio` and `video`, every
GStreamer element available, streams constructed without payload types and with
the local user `ufrag` and password `pwd`. -/
def samplePlatform : QXmppCall.Platform :=
  { AUDIO_MEDIA := "audio"
    VIDEO_MEDIA := "video"
    gst_element_factory_find := fun _ => true
    newStream := fun media creator name id =>
      { id := id, media := media, creator := creator, name := name, payloadTypes := []
        localSsrc := 0, localUser := "ufrag", localPassword := "pwd", localCandidates := [] } }

/-- The Opus codec with the local payload type number 96. -/
def sampleOpus : GstCodec :=
  { pt := 96, name := "opus", channels := 2, clockrate := 48000, gstPay := "rtpopuspay"
    gstDepay := "rtpopusdepay", gstEnc := "opusenc", gstDec := "opusdec" }

/-- The PCMU codec with the static payload type number 0 and a local name in
lower case. -/
def samplePcmu : GstCodec :=
  { pt := 0, name := "pcmu", channels := 1, clockrate := 8000, gstPay := "rtppcmupay"
    gstDepay := "rtppcmudepay", gstEnc := "mulawenc", gstDec := "mulawdec" }

/-- The audio stream `voice` with id 1. -/
def sampleStream : QXmppCallStream :=
  { id := 1, media := "audio", creator := "initiator", name := "voice", payloadTypes := []
    localSsrc := 0, localUser := "ufrag", localPassword := "pwd", localCandidates := [] }

/-- An outgoing call to Bob with the audio stream `voice` and the audio codecs
Opus (96) and PCMU (0). -/
def sampleOutgoingCall : QXmppCallPrivate :=
  { requests := []
    state := .ConnectingState
    streams := [sampleStream]
    trace := []
    direction := .OutgoingDirection
    jid := "bob@example.org/pc"
    sid := "s1"
    nextId := 1
    audioCodecs := [sampleOpus, samplePcmu] }

/-- The same call as an incoming call. -/
def sampleIncomingCall : QXmppCallPrivate :=
  { sampleOutgoingCall with direction := .IncomingDirection }

/-- The remote content for the stream `voice`: Opus offered under the dynamic
payload type 111 and PCMU under the static payload type 0 with the name in
upper case. -/
def sampleRemoteContent : QXmppJingleIq.Content :=
  { QXmppJingleIq.Content.new with
    creator := "initiator"
    name := "voice"
    descriptionMedia := "audio"
    payloadTypes :=
      [{ id := 111, name := "opus", channels := 2, clockrate := 48000 },
       { id := 0, name := "PCMU", channels := 1, clockrate := 8000 }] }

/-- A Jingle request from Bob with the given action, carrying the sample content. -/
def sampleJingleRequest (action : QXmppJingleIq.Action) : QXmppJingleIq :=
  { id := "r1", toJid := "alice@example.org/phone", fromJid := "bob@example.org/pc", type := .Set
    action := action, sid := "s1", contents := [sampleRemoteContent] }

/-! ## Client: `QXmppClient::send` -/

/-- A stanza passed to `QXmppClient::send`, by its dynamic type. -/
inductive QXmppStanza
  | message (message : QXmppMessage)
  | iq (iq : QXmppIq)
  | presence (presence : QXmppPresence)

/-- The encryption extension (`QXmppE2eeExtension`), by what the futures of
`encryptMessage` and `encryptIq` deliver: the encrypted XML or a send error. -/
structure QXmppE2eeExtension where
  encryptMessage : QXmppMessage → QXmppE2eeExtension.IqEncryptResult
  encryptIq : QXmppIq → QXmppE2eeExtension.IqEncryptResult

/-- What `d->stream->send` is handed: a stanza, which the stream serialises, or
a packet of ready bytes (`QXmppPacket(xml, true, interface)`). -/
inductive QXmppStream.Handed
  | stanza (stanza : QXmppStanza)
  | packet (xml : String)

/-- Calls that `send` makes on the `QFutureInterface<QXmpp::SendResult>` behind
the returned future. -/
inductive QXmppClient.SendCall
  | reportResult (err : QXmpp.SendError)
  | reportFinished

/-- The future returned by `send`: the stream's own future, or the future of a
fresh interface together with the calls that `send` makes on that interface. -/
inductive QXmppClient.SendFuture
  | ofStream
  | ofInterface (calls : List QXmppClient.SendCall)

/-- What a call of `send` does: what it hands to the stream, in order, and the
future it returns. -/
structure QXmppClient.SendOutcome where
  handed : List QXmppStream.Handed
  future : QXmppClient.SendFuture

/-- The lambda `sendEncrypted` of `QXmppClient::send`, applied to the result
that the awaited future delivers. -/
def QXmppClient.sendEncrypted (result : QXmppE2eeExtension.IqEncryptResult) :
    QXmppClient.SendOutcome :=
  match result with
  | .xml bytes => { handed := [.packet bytes], future := .ofInterface [] }
  | .error err => { handed := [], future := .ofInterface [.reportResult err, .reportFinished] }

/-- The code of `QXmppClient::send`; `encryptionExtension` is
`d->encryptionExtension` (`none` for a null pointer). -/
def QXmppClient.send (encryptionExtension : Option QXmppE2eeExtension) (stanza : QXmppStanza) :
    QXmppClient.SendOutcome :=
  match encryptionExtension with
  | some extension =>
    match stanza with
    | .message message => QXmppClient.sendEncrypted (extension.encryptMessage message)
    | .iq iq => QXmppClient.sendEncrypted (extension.encryptIq iq)
    | _ => { handed := [.stanza stanza], future := .ofStream }
  | none => { handed := [.stanza stanza], future := .ofStream }

/-- Whether what the stream was handed is the stanza object itself (to be
serialised as it is) and the stanza is a message or an iq. -/
def QXmppStream.Handed.isPlainMessageOrIq : QXmppStream.Handed → Bool
  | .stanza (.message _) => true
  | .stanza (.iq _) => true
  | _ => false

/-- An extension that encrypts every message to the same bytes and fails on
every iq. -/
def sampleE2eeExtension : QXmppE2eeExtension :=
  { encryptMessage := fun _ => .xml "<message><encrypted xmlns='urn:xmpp:omemo:2'/></message>"
    encryptIq := fun _ => .error { text := "No session", type := .EncryptionError } }

/-- A message from Alice to Bob. -/
def sampleSecretMessage : QXmppMessage :=
  { fromJid := "alice@example.org/phone", toJid := "bob@example.org", body := "secret" }

/-! ## Date and time texts of `QXmppUtils` (XEP-0082 profiles)

QXmppUtils.cpp is not among the sources. This section models its four string
conversions for time zone offsets and dates from the spec, which has the codec
map typed fields to text in a fixed, XEP-defined vocabulary; the digits and the
calendar arithmetic below are the parts of that model. -/

namespace QXmppUtils

/-- The decimal digit of `k % 10` as a character. -/
def digitChar (k : Nat) : Char :=
  Char.ofNat (48 + k % 10)

/-- The value of a decimal digit; `none` for any other character. -/
def digitValue (c : Char) : Option Nat :=
  if 48 ≤ c.toNat ∧ c.toNat ≤ 57 then some (c.toNat - 48) else none

/-- The number written by two decimal digits. -/
def number2 (c1 c2 : Char) : Option Nat :=
  match digitValue c1, digitValue c2 with
  | some a, some b => some (a * 10 + b)
  | _, _ => none

/-- The number written by three decimal digits. -/
def number3 (c1 c2 c3 : Char) : Option Nat :=
  match digitValue c1, digitValue c2, digitValue c3 with
  | some a, some b, some c => some (a * 100 + b * 10 + c)
  | _, _, _ => none

/-- The number written by four decimal digits. -/
def number4 (c1 c2 c3 c4 : Char) : Option Nat :=
  match number2 c1 c2, number2 c3 c4 with
  | some a, some b => some (a * 100 + b)
  | _, _ => none

/-- Modelled from the spec: `QXmppUtils::timezoneOffsetToString` (QXmppUtils.cpp
is not among the sources). The stanza codec maps typed fields to text in a
fixed, XEP-defined vocabulary; for the `tzo` of entity time that is the time
zone definition of XEP-0082: `Z` for no offset, otherwise the sign followed by
hours and minutes as `hh:mm`, the hours counted within one day. -/
def timezoneOffsetToString (secs : Int) : String :=
  if secs = 0 then
    "Z"
  else
    String.mk
      [if secs < 0 then '-' else '+',
        digitChar (secs.natAbs / 3600 % 24 / 10), digitChar (secs.natAbs / 3600 % 24), ':',
        digitChar (secs.natAbs / 60 % 60 / 10), digitChar (secs.natAbs / 60 % 60)]

/-- Modelled from the spec: `QXmppUtils::timezoneOffsetFromString` (QXmppUtils.cpp
is not among the sources), for the texts of the time zone definition of
XEP-0082: `Z` is the offset 0, a sign followed by `hh:mm` is that offset in
seconds; a text of any other form gives 0. -/
def timezoneOffsetFromString (str : String) : Int :=
  match str.data with
  | [sign, h1, h2, ':', m1, m2] =>
    match number2 h1 h2, number2 m1 m2 with
    | some hours, some minutes =>
      if sign = '-' then
        -((hours * 3600 + minutes * 60 : Nat) : Int)
      else if sign = '+' then
        ((hours * 3600 + minutes * 60 : Nat) : Int)
      else
        0
    | _, _ => 0
  | _ => 0

/-- The date (year, month, day) of the day with the number `z`, counted from
the first of March of the year 0 of the proleptic Gregorian calendar: eras of
400 years (146097 days), centuries of 36524 days (the last of an era has one
more), cycles of four years (1461 days) and years of 365 days (the last of a
cycle has one more); the months are counted from March. -/
def civilFromDays (z : Nat) : Nat × Nat × Nat :=
  let era := z / 146097
  let doe := z % 146097
  let century := if doe / 36524 < 3 then doe / 36524 else 3
  let doc := doe - 36524 * century
  let cycle := doc / 1461
  let doq := doc % 1461
  let yoq := if doq / 365 < 3 then doq / 365 else 3
  let doy := doq - 365 * yoq
  let mp := (5 * doy + 2) / 153
  let day := doy - (153 * mp + 2) / 5 + 1
  let month := if mp < 10 then mp + 3 else mp - 9
  let year := 400 * era + 100 * century + 4 * cycle + yoq + (if month ≤ 2 then 1 else 0)
  (year, month, day)

/-- The number of the day with the given date, counted from the first of March
of the year 0 of the proleptic Gregorian calendar. -/
def daysFromCivil (year month day : Nat) : Nat :=
  let y := if month ≤ 2 then year - 1 else year
  let era := y / 400
  let yoe := y % 400
  let mp := if month ≤ 2 then month + 9 else month - 3
  let doy := (153 * mp + 2) / 5 + day - 1
  let doe := yoe * 365 + yoe / 4 - yoe / 100 + doy
  era * 146097 + doe

/-- Milliseconds from 0001-01-01T00:00:00Z to the epoch (1970-01-01T00:00:00Z). -/
def epochMsecs : Int := 62135596800000

/-- Modelled from the spec: `QXmppUtils::datetimeToString` (QXmppUtils.cpp is not
among the sources). The stanza codec maps typed fields to text in a fixed,
XEP-defined vocabulary; for a date and time that is the UTC profile of
XEP-0082: the instant converted to UTC and written as `yyyy-MM-ddThh:mm:ssZ`,
with the milliseconds as `.zzz` before the `Z` when they are not zero (the
presence test of the repository writes 1969-07-21 02:56:15 UTC as
`1969-07-21T02:56:15Z`). The profile has four digits for the year: an invalid
date and a date outside the years 1 to 9999 give the empty text. -/
def datetimeToString (dt : QDateTime) : String :=
  let utc := dt.toUTC
  if utc.isValid = true ∧ -epochMsecs ≤ utc.msecsSinceEpoch ∧
      utc.msecsSinceEpoch < 315537897600000 - epochMsecs then
    let msecs := (utc.msecsSinceEpoch + epochMsecs).toNat
    let date := civilFromDays (msecs / 86400000 + 306)
    let time := msecs % 86400000
    String.mk
      ([digitChar (date.1 / 1000), digitChar (date.1 / 100), digitChar (date.1 / 10),
          digitChar date.1, '-',
          digitChar (date.2.1 / 10), digitChar date.2.1, '-',
          digitChar (date.2.2 / 10), digitChar date.2.2, 'T',
          digitChar (time / 3600000 / 10), digitChar (time / 3600000), ':',
          digitChar (time / 60000 % 60 / 10), digitChar (time / 60000 % 60), ':',
          digitChar (time / 1000 % 60 / 10), digitChar (time / 1000 % 60)] ++
        (if time % 1000 = 0 then
          []
        else
          ['.', digitChar (time % 1000 / 100), digitChar (time % 1000 / 10),
            digitChar (time % 1000)]) ++
        ['Z'])
  else
    ""

/-- The date and time with the given fields, in UTC; invalid when the year is
0, when the calendar has no such day (the date of the day's number is another
one) or when a field of the time is out of range. -/
def utcDateTime (year month day hours minutes seconds msecs : Nat) : QDateTime :=
  if 1 ≤ year ∧ civilFromDays (daysFromCivil year month day) = (year, month, day) ∧
      hours < 24 ∧ minutes < 60 ∧ seconds < 60 then
    { isValid := true
      msecsSinceEpoch :=
        (((daysFromCivil year month day - 306) * 86400000 +
            ((hours * 60 + minutes) * 60 + seconds) * 1000 + msecs : Nat) : Int) - epochMsecs
      offsetFromUtc := 0 }
  else
    { isValid := false, msecsSinceEpoch := 0, offsetFromUtc := 0 }

/-- Modelled from the spec: `QXmppUtils::datetimeFromString` (QXmppUtils.cpp is
not among the sources), for the texts of the UTC profile of XEP-0082:
`yyyy-MM-ddThh:mm:ssZ` and `yyyy-MM-ddThh:mm:ss.zzzZ` are read as that date and
time in UTC; a text of any other form gives an invalid date. -/
def datetimeFromString (str : String) : QDateTime :=
  match str.data with
  | [y1, y2, y3, y4, '-', M1, M2, '-', d1, d2, 'T', h1, h2, ':', m1, m2, ':', s1, s2, 'Z'] =>
    match number4 y1 y2 y3 y4, number2 M1 M2, number2 d1 d2, number2 h1 h2, number2 m1 m2,
      number2 s1 s2 with
    | some year, some month, some day, some hours, some minutes, some seconds =>
      utcDateTime year month day hours minutes seconds 0
    | _, _, _, _, _, _ => { isValid := false, msecsSinceEpoch := 0, offsetFromUtc := 0 }
  | [y1, y2, y3, y4, '-', M1, M2, '-', d1, d2, 'T', h1, h2, ':', m1, m2, ':', s1, s2, '.',
      z1, z2, z3, 'Z'] =>
    match number4 y1 y2 y3 y4, number2 M1 M2, number2 d1 d2, number2 h1 h2, number2 m1 m2,
      number2 s1 s2, number3 z1 z2 z3 with
    | some year, some month, some day, some hours, some minutes, some seconds, some msecs =>
      utcDateTime year month day hours minutes seconds msecs
    | _, _, _, _, _, _, _ => { isValid := false, msecsSinceEpoch := 0, offsetFromUtc := 0 }
  | _ => { isValid := false, msecsSinceEpoch := 0, offsetFromUtc := 0 }

end QXmppUtils

/-- The instant 1000000 s after the epoch (1970-01-12T13:46:40Z), in UTC. -/
def sampleUtc : QDateTime :=
  { isValid := true, msecsSinceEpoch := 1000000000, offsetFromUtc := 0 }

/-! ## Theorems: reconnection policy -/

namespace QXmppClient

theorem trace_perform (c : QXmppClient) (e : QXmppClient.Effect) :
    (c.perform e).trace = c.trace ++ [e] := rfl

theorem timerStarts_append (xs ys : List QXmppClient.Effect) :
    timerStarts (xs ++ ys) = timerStarts xs ++ timerStarts ys := by
  induction xs with
  | nil => rfl
  | cons x xs ih => cases x <;> simp [timerStarts, ih]

end QXmppClient

namespace QXmppClient

theorem trace_streamError_socket (c : QXmppClient)
    (hauto : c.stream.autoReconnectionEnabled = true) (hflag : c.d.receivedConflict = false) :
    (c._q_streamError .SocketError).trace =
      c.trace ++ [.timerStart c.d.getNextReconnectTime, .emitError .SocketError] := by
  simp [_q_streamError, perform, hauto, hflag]

theorem trace_streamError_socket_inhibited (c : QXmppClient)
    (hflag : c.d.receivedConflict = true) :
    (c._q_streamError .SocketError).trace = c.trace ++ [.emitError .SocketError] := by
  cases hauto : c.stream.autoReconnectionEnabled <;>
    simp [_q_streamError, perform, hauto, hflag]

theorem trace_streamError_keepAlive (c : QXmppClient)
    (hauto : c.stream.autoReconnectionEnabled = true) :
    (c._q_streamError .KeepAliveError).trace =
      c.trace ++ [.timerStart 1000, .emitError .KeepAliveError] := by
  simp [_q_streamError, perform, hauto]

theorem startedBy_of_trace (c : QXmppClient) (err : QXmppClient.Error)
    (added : List QXmppClient.Effect) (h : (c._q_streamError err).trace = c.trace ++ added) :
    startedBy c err = timerStarts added := by
  simp [startedBy, h]

/-- Handling a stream error leaves the private data unchanged, except that a
conflict may be recorded. -/
theorem d_streamError (c : QXmppClient) (err : QXmppClient.Error) :
    (c._q_streamError err).d = c.d ∨
      (c._q_streamError err).d = { c.d with receivedConflict := true } := by
  unfold _q_streamError
  simp only [perform]
  split_ifs <;> simp

theorem stream_streamError (c : QXmppClient) (err : QXmppClient.Error) :
    (c._q_streamError err).stream = c.stream := by
  unfold _q_streamError
  simp only [perform]
  split_ifs <;> rfl

theorem d_reconnect (c : QXmppClient) : c._q_reconnect.d = c.d := by
  unfold _q_reconnect
  split_ifs <;> rfl

theorem stream_reconnect (c : QXmppClient) : c._q_reconnect.stream = c.stream := by
  unfold _q_reconnect
  split_ifs <;> rfl

/-- The attempt counter is written by no slot but `_q_streamConnected`, which
sets it to zero. -/
theorem reconnectionTries_step (c : QXmppClient) (e : Event) :
    (c.step e).d.reconnectionTries = c.d.reconnectionTries ∨
      (c.step e).d.reconnectionTries = 0 := by
  cases e with
  | streamError err =>
    left
    rcases d_streamError c err with h | h <;> simp [step, h]
  | reconnect => left; simp [step, d_reconnect]
  | streamConnected =>
    right
    simp only [step, _q_streamConnected, perform]
    split_ifs <;> rfl
  | streamDisconnected => left; rfl
  | disconnectFromServer =>
    left
    simp only [step, disconnectFromServer, perform]
    split_ifs <;> rfl
  | streamChanged stream => left; rfl

/-- A recorded conflict stays recorded until `_q_streamConnected` runs. -/
theorem receivedConflict_step (c : QXmppClient) (e : Event)
    (hflag : c.d.receivedConflict = true) (he : e ≠ .streamConnected) :
    (c.step e).d.receivedConflict = true := by
  cases e with
  | streamError err =>
    rcases d_streamError c err with h | h <;> simp [step, h, hflag]
  | reconnect => simp [step, d_reconnect, hflag]
  | streamConnected => exact absurd rfl he
  | streamDisconnected => exact hflag
  | disconnectFromServer =>
    simp only [step, disconnectFromServer, perform]
    split_ifs <;> exact hflag
  | streamChanged stream => exact hflag

theorem receivedConflict_run (events : List Event) (c : QXmppClient)
    (hflag : c.d.receivedConflict = true) (hevents : ∀ e ∈ events, e ≠ .streamConnected) :
    (c.run events).d.receivedConflict = true := by
  induction events generalizing c with
  | nil => exact hflag
  | cons e rest ih =>
    have hstep := receivedConflict_step c e hflag (hevents e (List.mem_cons_self _ _))
    exact ih (c.step e) hstep (fun x hx => hevents x (List.mem_cons_of_mem _ hx))

theorem receivedConflict_of_conflict (c : QXmppClient)
    (hauto : c.stream.autoReconnectionEnabled = true)
    (hconflict : c.stream.xmppStreamError = .Conflict) :
    (c._q_streamError .XmppStreamError).d.receivedConflict = true := by
  simp [_q_streamError, perform, hauto, hconflict]

/-- Failed attempts leave the private data and the stream as they were. -/
theorem failedAttempts_keeps (n : Nat) (c : QXmppClient)
    (hflag : c.d.receivedConflict = false) :
    (failedAttempts n c).d = c.d ∧ (failedAttempts n c).stream = c.stream := by
  induction n generalizing c with
  | zero => exact ⟨rfl, rfl⟩
  | succ n ih =>
    have hd : (failedAttempt c).d = c.d := by
      unfold failedAttempt
      rw [d_reconnect]
      unfold _q_streamError
      simp only [perform]
      split_ifs <;> simp_all
    have hs : (failedAttempt c).stream = c.stream := by
      unfold failedAttempt
      rw [stream_reconnect, stream_streamError]
    have := ih (failedAttempt c) (by rw [hd]; exact hflag)
    simp only [failedAttempts]
    rw [this.1, this.2, hd, hs]
    exact ⟨rfl, rfl⟩

end QXmppClient

/-- C1: for every attempt count, `getNextReconnectTime` returns 10000 ms below 5,
20000 ms from 5 to 9, 40000 ms from 10 to 14 and 60000 ms from 15 on; for the
counts 0, 4, 5, 9, 10, 14, 15, 20 it returns 10, 10, 20, 20, 40, 40, 60, 60 seconds. -/
theorem QXmppClientPrivate.getNextReconnectTime_tiers (d : QXmppClientPrivate) :
    (d.reconnectionTries < 5 → d.getNextReconnectTime = 10000) ∧
    (5 ≤ d.reconnectionTries ∧ d.reconnectionTries ≤ 9 → d.getNextReconnectTime = 20000) ∧
    (10 ≤ d.reconnectionTries ∧ d.reconnectionTries ≤ 14 → d.getNextReconnectTime = 40000) ∧
    (15 ≤ d.reconnectionTries → d.getNextReconnectTime = 60000) ∧
    [0, 4, 5, 9, 10, 14, 15, 20].map
        (fun n => ({ d with reconnectionTries := n } : QXmppClientPrivate).getNextReconnectTime) =
      [10 * 1000, 10 * 1000, 20 * 1000, 20 * 1000, 40 * 1000, 40 * 1000, 60 * 1000, 60 * 1000] := by
  refine ⟨?_, ?_, ?_, ?_, ?_⟩
  · intro h
    simp [QXmppClientPrivate.getNextReconnectTime, h]
  · intro h
    have h1 : ¬ d.reconnectionTries < 5 := by omega
    have h2 : d.reconnectionTries < 10 := by omega
    simp [QXmppClientPrivate.getNextReconnectTime, h1, h2]
  · intro h
    have h1 : ¬ d.reconnectionTries < 5 := by omega
    have h2 : ¬ d.reconnectionTries < 10 := by omega
    have h3 : d.reconnectionTries < 15 := by omega
    simp [QXmppClientPrivate.getNextReconnectTime, h1, h2, h3]
  · intro h
    have h1 : ¬ d.reconnectionTries < 5 := by omega
    have h2 : ¬ d.reconnectionTries < 10 := by omega
    have h3 : ¬ d.reconnectionTries < 15 := by omega
    simp [QXmppClientPrivate.getNextReconnectTime, h1, h2, h3]
  · simp [QXmppClientPrivate.getNextReconnectTime]

/-- C1, at a concrete input: with 7 attempts counted the delay is 20000 ms. -/
theorem QXmppClientPrivate.getNextReconnectTime_tiers_seven :
    (5 : Int) ≤ 7 ∧ (7 : Int) ≤ 9 ∧
      ({ QXmppClientPrivate.new with reconnectionTries := 7 } : QXmppClientPrivate).getNextReconnectTime
        = 20000 :=
  ⟨by decide, by decide,
    (QXmppClientPrivate.getNextReconnectTime_tiers
      { QXmppClientPrivate.new with reconnectionTries := 7 }).2.1 ⟨by decide, by decide⟩⟩

/-- C2: the code never increments the attempt counter, so after any number of
consecutive failed attempts of a fresh client with auto-reconnection enabled the
counter is still 0 and the next socket error starts the timer with 10000 ms;
after 5 failed attempts the delay is 10000 ms, not 20000 ms. -/
theorem QXmppClient.delay_after_failed_attempts (n : Nat) (stream : QXmppOutgoingClient) :
    (QXmppClient.failedAttempts n
        (QXmppClient.new { stream with autoReconnectionEnabled := true })).d.reconnectionTries = 0 ∧
    QXmppClient.startedBy
        (QXmppClient.failedAttempts n (QXmppClient.new { stream with autoReconnectionEnabled := true }))
        .SocketError = [10000] ∧
    QXmppClient.startedBy (QXmppClient.failedAttempts 5 (QXmppClient.new QXmppClient.defaultStream))
        .SocketError ≠ [20000] := by
  have key : ∀ (m : Nat) (st : QXmppOutgoingClient),
      (QXmppClient.failedAttempts m
          (QXmppClient.new { st with autoReconnectionEnabled := true })).d.reconnectionTries = 0 ∧
      QXmppClient.startedBy
          (QXmppClient.failedAttempts m (QXmppClient.new { st with autoReconnectionEnabled := true }))
          .SocketError = [10000] := by
    intro m st
    have hk := QXmppClient.failedAttempts_keeps m
      (QXmppClient.new { st with autoReconnectionEnabled := true }) rfl
    refine ⟨by rw [hk.1]; rfl, ?_⟩
    rw [QXmppClient.startedBy_of_trace _ _ _
      (QXmppClient.trace_streamError_socket _ (by rw [hk.2]; rfl) (by rw [hk.1]; rfl))]
    rw [hk.1]
    rfl
  refine ⟨(key n stream).1, (key n stream).2, ?_⟩
  have h5 := (key 5 QXmppClient.defaultStream).2
  have hd : ({ QXmppClient.defaultStream with autoReconnectionEnabled := true } :
      QXmppOutgoingClient) = QXmppClient.defaultStream := rfl
  rw [hd] at h5
  rw [h5]
  decide

/-- C3: with auto-reconnection enabled, a keep-alive error handled after a
conflict stream error starts the reconnection timer with 1000 ms, although no
`_q_streamConnected` ran in between. -/
theorem QXmppClient.keepAlive_after_conflict_starts_timer (c : QXmppClient)
    (hauto : c.stream.autoReconnectionEnabled = true)
    (hconflict : c.stream.xmppStreamError = .Conflict) :
    (c._q_streamError .XmppStreamError).d.receivedConflict = true ∧
    QXmppClient.startedBy (c._q_streamError .XmppStreamError) .KeepAliveError = [1000] := by
  refine ⟨QXmppClient.receivedConflict_of_conflict c hauto hconflict, ?_⟩
  rw [QXmppClient.startedBy_of_trace _ _ _
    (QXmppClient.trace_streamError_keepAlive _ (by rw [QXmppClient.stream_streamError]; exact hauto))]
  rfl

/-- C3, at a concrete input: a fresh client whose stream reports a conflict. -/
theorem QXmppClient.keepAlive_after_conflict_fresh :
    QXmppClient.startedBy
      ((QXmppClient.new { QXmppClient.defaultStream with xmppStreamError := .Conflict })._q_streamError
        .XmppStreamError) .KeepAliveError = [1000] :=
  (QXmppClient.keepAlive_after_conflict_starts_timer
    (QXmppClient.new { QXmppClient.defaultStream with xmppStreamError := .Conflict }) rfl rfl).2

/-- C4: with auto-reconnection enabled, a socket error handled after a conflict
stream error and any events other than `_q_streamConnected` starts no timer (it
only emits the error signal), whereas a socket error handled with no conflict
recorded starts the timer with the delay of `getNextReconnectTime`. -/
theorem QXmppClient.socketError_conflict_gate :
    (∀ (c : QXmppClient) (events : List QXmppClient.Event),
      c.stream.autoReconnectionEnabled = true →
      c.stream.xmppStreamError = .Conflict →
      (∀ e ∈ events, e ≠ QXmppClient.Event.streamConnected) →
      (((c._q_streamError .XmppStreamError).run events)._q_streamError .SocketError).trace =
          ((c._q_streamError .XmppStreamError).run events).trace ++ [.emitError .SocketError] ∧
        QXmppClient.startedBy ((c._q_streamError .XmppStreamError).run events) .SocketError = []) ∧
    (∀ c : QXmppClient,
      c.stream.autoReconnectionEnabled = true →
      c.d.receivedConflict = false →
      (c._q_streamError .SocketError).trace =
          c.trace ++ [.timerStart c.d.getNextReconnectTime, .emitError .SocketError] ∧
        QXmppClient.startedBy c .SocketError = [c.d.getNextReconnectTime]) := by
  constructor
  · intro c events hauto hconflict hevents
    have hflag := QXmppClient.receivedConflict_run events _
      (QXmppClient.receivedConflict_of_conflict c hauto hconflict) hevents
    have htrace := QXmppClient.trace_streamError_socket_inhibited _ hflag
    exact ⟨htrace, by rw [QXmppClient.startedBy_of_trace _ _ _ htrace]; rfl⟩
  · intro c hauto hflag
    have htrace := QXmppClient.trace_streamError_socket c hauto hflag
    exact ⟨htrace, by rw [QXmppClient.startedBy_of_trace _ _ _ htrace]; rfl⟩

/-- C4, at a concrete input: after a conflict, a failed reconnection and a
keep-alive error, a socket error starts no timer; on a fresh client it starts
the timer with 10000 ms. -/
theorem QXmppClient.socketError_conflict_gate_fresh :
    QXmppClient.startedBy
        (((QXmppClient.new { QXmppClient.defaultStream with xmppStreamError := .Conflict })._q_streamError
          .XmppStreamError).run [.reconnect, .streamError .KeepAliveError, .streamDisconnected])
        .SocketError = [] ∧
      QXmppClient.startedBy (QXmppClient.new QXmppClient.defaultStream) .SocketError = [10000] :=
  ⟨(QXmppClient.socketError_conflict_gate.1
      (QXmppClient.new { QXmppClient.defaultStream with xmppStreamError := .Conflict })
      [.reconnect, .streamError .KeepAliveError, .streamDisconnected] rfl rfl (by decide)).2,
    (QXmppClient.socketError_conflict_gate.2 (QXmppClient.new QXmppClient.defaultStream) rfl rfl).2⟩

namespace QXmppServer

theorem sentPackets_append (xs ys : List QXmppServer.Effect) :
    sentPackets (xs ++ ys) = sentPackets xs ++ sentPackets ys := by
  induction xs with
  | nil => rfl
  | cons x xs ih => cases x <;> simp [sentPackets, ih]

theorem Continues.refl (s : QXmppServer) : Continues s s :=
  ⟨rfl, [], by simp, rfl⟩

theorem Continues.trans {s t r : QXmppServer} (h1 : Continues s t) (h2 : Continues t r) :
    Continues s r := by
  obtain ⟨hd1, a1, ht1, hs1⟩ := h1
  obtain ⟨hd2, a2, ht2, hs2⟩ := h2
  refine ⟨hd2.trans hd1, a1 ++ a2, ?_, ?_⟩
  · rw [ht2, ht1, List.append_assoc]
  · rw [sentPackets_append, hs1, hs2]; rfl

theorem continues_info (s : QXmppServer) (message : String) : Continues s (s.info message) := by
  unfold info
  split_ifs
  · exact ⟨rfl, [.log message], rfl, rfl⟩
  · exact Continues.refl s

theorem continues_addExtension (s : QXmppServer) (extension : Option Nat) :
    Continues s (s.addExtension extension) := by
  cases extension with
  | none => exact Continues.refl s
  | some p =>
    simp only [addExtension]
    split_ifs
    · exact Continues.refl s
    · obtain ⟨hd, a, ht, hs⟩ := continues_info s ("Added extension " ++ (s.extension p).extensionName)
      exact ⟨hd, a, ht, hs⟩

theorem continues_foldl_addExtension (keys : List (Option Nat)) (s : QXmppServer) :
    Continues s (keys.foldl addExtension s) := by
  induction keys generalizing s with
  | nil => exact Continues.refl s
  | cons k rest ih => exact (continues_addExtension s k).trans (ih _)

theorem continues_loadExtensions (s : QXmppServer) : Continues s s.loadExtensions := by
  unfold loadExtensions
  split_ifs
  · exact Continues.refl s
  · have h : ∀ (plugins : List (List (Option Nat))) (t : QXmppServer),
        Continues t (plugins.foldl (fun r keys => keys.foldl addExtension r) t) := by
      intro plugins
      induction plugins with
      | nil => intro t; exact Continues.refl t
      | cons keys rest ih =>
        intro t
        exact (continues_foldl_addExtension keys t).trans (ih _)
    obtain ⟨hd, a, ht, hs⟩ := h s.staticPlugins s
    exact ⟨hd, a, ht, hs⟩

theorem sentPackets_sendData (found : List Nat) (data : QByteArray) :
    sentPackets (found.map (fun conn => QXmppServer.Effect.sendData conn data)) = [] := by
  induction found with
  | nil => rfl
  | cons x xs ih => simpa [sentPackets] using ih

theorem continues_routeData (u : QXmppUtils) (s : QXmppServer) (toJid : String)
    (data : QByteArray) : Continues s (routeData u s toJid data).2 := by
  unfold routeData
  simp only
  split_ifs
  all_goals first
    | exact Continues.refl s
    | exact ⟨rfl, _, rfl, sentPackets_sendData _ _⟩
    | (split <;> exact ⟨rfl, _, rfl, rfl⟩)

/-- The packets given to `sendPacket` by `sendPacket` itself: exactly the packet. -/
theorem sendPacket_trace (u : QXmppUtils) (s : QXmppServer) (packet : QXmppIq) :
    ∃ added, (sendPacket u s packet).2.trace = s.trace ++ added ∧ sentPackets added = [packet] := by
  obtain ⟨_, a, ht, hs⟩ := continues_routeData u (s.perform [.sendPacket packet]) packet.toJid
    (.ofPacket packet)
  refine ⟨.sendPacket packet :: a, ?_, ?_⟩
  · unfold sendPacket
    rw [ht]
    simp [perform]
  · simp [sentPackets, hs]

theorem continues_sendElement (u : QXmppUtils) (s : QXmppServer) (element : QDomElement) :
    Continues s (sendElement u s element).2 := by
  have h1 : Continues s (s.perform [.sendElement element]) := ⟨rfl, _, rfl, rfl⟩
  exact h1.trans (continues_routeData u _ _ _)

theorem answers_of_trace (u : QXmppUtils) (s : QXmppServer) (element : QDomElement)
    (added : List QXmppServer.Effect) (h : (handleStanza u s element).trace = s.trace ++ added) :
    answers u s element = sentPackets added := by
  simp [answers, h]

end QXmppServer

/-- C5: an iq element of type get or set that no server extension handles is
answered by `handleStanza` as follows. If its `to` is the server domain, exactly
one packet is sent: an error iq with the request's id, addressed to the
request's `from`, from the server domain, with condition
feature-not-implemented. If its `to` differs from the domain and routing the
element failed, exactly one packet is sent: an error iq with the request's id,
addressed to the request's `from`, from the request's `to`, with condition
service-unavailable. If routing succeeded, no packet is sent. -/
theorem QXmppServer.handleStanza_unhandled_iq (u : QXmppUtils) (server : QXmppServer)
    (element : QDomElement)
    (hno : ∀ p ∈ server.loadExtensions.d.extensions,
      (server.loadExtensions.extension p).handleStanza element = false)
    (hiq : element.tagName = "iq")
    (htype : (QXmppIq.parse element).type = .Get ∨ (QXmppIq.parse element).type = .Set) :
    ((QXmppIq.parse element).toJid = server.d.domain →
      QXmppServer.answers u server element =
        [{ id := (QXmppIq.parse element).id
           toJid := (QXmppIq.parse element).fromJid
           fromJid := server.d.domain
           type := .Error
           error := some { type := .Cancel, condition := .FeatureNotImplemented } }]) ∧
    ((QXmppIq.parse element).toJid ≠ server.d.domain →
      (QXmppServer.sendElement u server.loadExtensions element).1 = false →
      QXmppServer.answers u server element =
        [{ id := (QXmppIq.parse element).id
           toJid := (QXmppIq.parse element).fromJid
           fromJid := (QXmppIq.parse element).toJid
           type := .Error
           error := some { type := .Cancel, condition := .ServiceUnavailable } }]) ∧
    ((QXmppIq.parse element).toJid ≠ server.d.domain →
      (QXmppServer.sendElement u server.loadExtensions element).1 = true →
      QXmppServer.answers u server element = []) := by
  obtain ⟨hdom, a0, ht0, hs0⟩ := QXmppServer.continues_loadExtensions server
  have hany : server.loadExtensions.d.extensions.any
      (fun p => (server.loadExtensions.extension p).handleStanza element) = false := by
    rw [List.any_eq_false]
    intro p hp
    simp [hno p hp]
  have hty : (QXmppIq.parse element).type ≠ .Error ∧ (QXmppIq.parse element).type ≠ .Result := by
    rcases htype with h | h <;> rw [h] <;> exact ⟨by decide, by decide⟩
  have hto : (QXmppIq.parse element).toJid = element.attributeValue "to" := rfl
  refine ⟨?_, ?_, ?_⟩
  · intro hself
    obtain ⟨a1, ht1, hs1⟩ := QXmppServer.sendPacket_trace u server.loadExtensions
      { QXmppIq.new .Error with
        id := (QXmppIq.parse element).id
        fromJid := server.loadExtensions.d.domain
        toJid := (QXmppIq.parse element).fromJid
        error := some { type := .Cancel, condition := .FeatureNotImplemented } }
    have htrace : (QXmppServer.handleStanza u server element).trace = server.trace ++ (a0 ++ a1) := by
      unfold QXmppServer.handleStanza
      simp only [hany, Bool.false_eq_true, if_false]
      rw [if_pos (by rw [← hto, hself, hdom]), if_pos hiq, if_pos hty, ht1, ht0, List.append_assoc]
    rw [QXmppServer.answers_of_trace u server element _ htrace, QXmppServer.sentPackets_append,
      hs0, hs1, hdom]
    rfl
  · intro hother hfail
    obtain ⟨_, a1, ht1, hs1⟩ := QXmppServer.continues_sendElement u server.loadExtensions element
    obtain ⟨a2, ht2, hs2⟩ := QXmppServer.sendPacket_trace u
      (QXmppServer.sendElement u server.loadExtensions element).2
      { QXmppIq.new .Error with
        id := (QXmppIq.parse element).id
        fromJid := (QXmppIq.parse element).toJid
        toJid := (QXmppIq.parse element).fromJid
        error := some { type := .Cancel, condition := .ServiceUnavailable } }
    have htrace : (QXmppServer.handleStanza u server element).trace =
        server.trace ++ (a0 ++ (a1 ++ a2)) := by
      unfold QXmppServer.handleStanza
      simp only [hany, Bool.false_eq_true, if_false]
      rw [if_neg (by rw [← hto, hdom]; exact hother), if_pos ⟨hfail, hiq⟩, ht2, ht1, ht0]
      simp [List.append_assoc]
    rw [QXmppServer.answers_of_trace u server element _ htrace, QXmppServer.sentPackets_append,
      QXmppServer.sentPackets_append, hs0, hs1, hs2]
    rfl
  · intro hother hrouted
    obtain ⟨_, a1, ht1, hs1⟩ := QXmppServer.continues_sendElement u server.loadExtensions element
    have htrace : (QXmppServer.handleStanza u server element).trace = server.trace ++ (a0 ++ a1) := by
      unfold QXmppServer.handleStanza
      simp only [hany, Bool.false_eq_true, if_false]
      rw [if_neg (by rw [← hto, hdom]; exact hother),
        if_neg (by rw [hrouted]; simp), ht1, ht0, List.append_assoc]
    rw [QXmppServer.answers_of_trace u server element _ htrace, QXmppServer.sentPackets_append,
      hs0, hs1]
    rfl

/-- C5, at concrete inputs: a server for `example.org` without extensions and
without connections receives a get iq addressed to itself, and one addressed to
an account that is not connected. -/
theorem QXmppServer.handleStanza_unhandled_iq_sample :
    QXmppServer.answers QXmppUtils.reference QXmppServer.sampleServer
        (QXmppServer.sampleRequest "example.org") =
      [{ id := "q1", toJid := "alice@example.org/phone", fromJid := "example.org", type := .Error,
         error := some { type := .Cancel, condition := .FeatureNotImplemented } }] ∧
    QXmppServer.answers QXmppUtils.reference QXmppServer.sampleServer
        (QXmppServer.sampleRequest "bob@example.org") =
      [{ id := "q1", toJid := "alice@example.org/phone", fromJid := "bob@example.org", type := .Error,
         error := some { type := .Cancel, condition := .ServiceUnavailable } }] :=
  ⟨(QXmppServer.handleStanza_unhandled_iq QXmppUtils.reference QXmppServer.sampleServer
      (QXmppServer.sampleRequest "example.org") (fun _ hp => nomatch hp) rfl (Or.inl rfl)).1 rfl,
    (QXmppServer.handleStanza_unhandled_iq QXmppUtils.reference QXmppServer.sampleServer
      (QXmppServer.sampleRequest "bob@example.org") (fun _ hp => nomatch hp) rfl (Or.inl rfl)).2.1
      (by decide) (by decide)⟩

/-! ## Theorems: entity time manager -/

/-- C6, as stated, fails: an entity time iq of type set is consumed
(`handleStanza` returns true) and no response is sent. -/
theorem QXmppEntityTimeManager.handleStanza_set_unanswered :
    (QXmppIq.parse (sampleTimeIq "set")).type = .Set ∧
    (QXmppEntityTimeManager.handleStanza sampleTimezoneOffsetFromString sampleDatetimeFromString
      sampleCurrentDateTime (sampleTimeIq "set")).1 = true ∧
    QXmppEntityTimeManager.sentPackets
      (QXmppEntityTimeManager.handleStanza sampleTimezoneOffsetFromString sampleDatetimeFromString
        sampleCurrentDateTime (sampleTimeIq "set")).2 = [] := by
  refine ⟨by decide, by decide, by decide⟩

/-- An entity time iq of a type other than get is consumed without a response. -/
theorem QXmppEntityTimeManager.handleStanza_other_unanswered
    (timezoneOffsetFromString : String → Int) (datetimeFromString : String → QDateTime)
    (currentDateTime : QDateTime) (element : QDomElement)
    (hother : (QXmppIq.parse element).type ≠ .Get) :
    QXmppEntityTimeManager.sentPackets
      (QXmppEntityTimeManager.handleStanza timezoneOffsetFromString datetimeFromString
        currentDateTime element).2 = [] := by
  unfold QXmppEntityTimeManager.handleStanza
  have hother2 : ¬ (QXmppEntityTimeIq.parse timezoneOffsetFromString datetimeFromString
      element).iq.type = .Get := hother
  split_ifs
  · simp only [hother2, if_false]
    rfl
  · rfl

/-- C6, amended: for every incoming iq element of type get for which
`handleStanza` returns true, the manager sends exactly one response: an iq of
type result with the request's id, addressed to the request's `from`. -/
theorem QXmppEntityTimeManager.handleStanza_get_answered
    (timezoneOffsetFromString : String → Int) (datetimeFromString : String → QDateTime)
    (currentDateTime : QDateTime) (element : QDomElement)
    (hconsumed : (QXmppEntityTimeManager.handleStanza timezoneOffsetFromString datetimeFromString
      currentDateTime element).1 = true)
    (hget : (QXmppIq.parse element).type = .Get) :
    ∃ response,
      QXmppEntityTimeManager.sentPackets
        (QXmppEntityTimeManager.handleStanza timezoneOffsetFromString datetimeFromString
          currentDateTime element).2 = [response] ∧
      response.iq.id = (QXmppIq.parse element).id ∧
      response.iq.type = .Result ∧
      response.iq.toJid = (QXmppIq.parse element).fromJid := by
  unfold QXmppEntityTimeManager.handleStanza at hconsumed ⊢
  by_cases hc : element.tagName = "iq" ∧ QXmppEntityTimeIq.isEntityTimeIq element = true
  · rw [if_pos hc]
    have hget2 : (QXmppEntityTimeIq.parse timezoneOffsetFromString datetimeFromString
        element).iq.type = .Get := hget
    simp only [hget2, if_true]
    exact ⟨_, rfl, rfl, rfl, rfl⟩
  · rw [if_neg hc] at hconsumed
    exact absurd hconsumed (by decide)

/-- C6, amended, at a concrete input: an entity time get with id `t1` is
answered by exactly one packet, whose id is `t1`. -/
theorem QXmppEntityTimeManager.handleStanza_get_answered_sample :
    ∃ response,
      QXmppEntityTimeManager.sentPackets
        (QXmppEntityTimeManager.handleStanza sampleTimezoneOffsetFromString sampleDatetimeFromString
          sampleCurrentDateTime (sampleTimeIq "get")).2 = [response] ∧
      response.iq.id = (QXmppIq.parse (sampleTimeIq "get")).id ∧
      response.iq.type = .Result ∧
      response.iq.toJid = (QXmppIq.parse (sampleTimeIq "get")).fromJid :=
  (QXmppEntityTimeManager.handleStanza_get_answered sampleTimezoneOffsetFromString
    sampleDatetimeFromString sampleCurrentDateTime (sampleTimeIq "get") (by decide) (by decide))

/-! ## Theorems: extension dispatch -/

namespace QXmppClient

theorem _q_elementReceived_nil {W : Type} (handleStanza : Nat → QDomElement → W → Bool × W)
    (element : QDomElement) (handled : Bool) (w : W) :
    _q_elementReceived handleStanza element handled [] w =
      { handled := handled, world := w, calls := [] } := rfl

theorem _q_elementReceived_cons_true {W : Type} (handleStanza : Nat → QDomElement → W → Bool × W)
    (element : QDomElement) (handled : Bool) (p : Nat) (rest : List Nat) (w : W)
    (h : (handleStanza p element w).1 = true) :
    _q_elementReceived handleStanza element handled (p :: rest) w =
      { handled := true, world := (handleStanza p element w).2, calls := [(p, true)] } := by
  simp [_q_elementReceived, h]

theorem _q_elementReceived_cons_false {W : Type} (handleStanza : Nat → QDomElement → W → Bool × W)
    (element : QDomElement) (handled : Bool) (p : Nat) (rest : List Nat) (w : W)
    (h : (handleStanza p element w).1 = false) :
    _q_elementReceived handleStanza element handled (p :: rest) w =
      { _q_elementReceived handleStanza element handled rest (handleStanza p element w).2 with
        calls := (p, false) ::
          (_q_elementReceived handleStanza element handled rest (handleStanza p element w).2).calls } := by
  simp [_q_elementReceived, h]

end QXmppClient

/-- C7: `_q_elementReceived` calls `handleStanza` on the extensions in list
order, each position once, starting at the first, and stops at the first call
that returns true: the extensions called are a leading segment of the list,
every call but the last returned false, no call follows one that returned
true; if some call returned true then `handled` is true, otherwise every
extension was called and `handled` is left as it was. For extensions whose
answer does not depend on their state, the extensions called are those before
the first that handles the element, followed by that one. -/
theorem QXmppClient._q_elementReceived_first_handler :
    (∀ (W : Type) (handleStanza : Nat → QDomElement → W → Bool × W) (element : QDomElement)
        (handled : Bool) (extensions : List Nat) (w : W),
      (QXmppClient._q_elementReceived handleStanza element handled extensions w).calls.map Prod.fst =
          extensions.take
            (QXmppClient._q_elementReceived handleStanza element handled extensions w).calls.length ∧
        (∀ c ∈ (QXmppClient._q_elementReceived handleStanza element handled extensions w).calls.dropLast,
          c.2 = false) ∧
        ((∃ c ∈ (QXmppClient._q_elementReceived handleStanza element handled extensions w).calls,
            c.2 = true) →
          (QXmppClient._q_elementReceived handleStanza element handled extensions w).handled = true) ∧
        ((∀ c ∈ (QXmppClient._q_elementReceived handleStanza element handled extensions w).calls,
            c.2 = false) →
          (QXmppClient._q_elementReceived handleStanza element handled extensions w).handled = handled ∧
          (QXmppClient._q_elementReceived handleStanza element handled extensions w).calls.length =
            extensions.length)) ∧
    (∀ (W : Type) (handles : Nat → Bool) (element : QDomElement) (handled : Bool)
        (extensions : List Nat) (w : W),
      (QXmppClient._q_elementReceived (fun p _ v => (handles p, v)) element handled extensions w).calls =
          (extensions.takeWhile (fun p => !handles p)).map (fun p => (p, false)) ++
            ((extensions.find? handles).toList.map (fun p => (p, true))) ∧
        (QXmppClient._q_elementReceived (fun p _ v => (handles p, v)) element handled extensions w).handled =
          (if extensions.any handles then true else handled)) := by
  constructor
  · intro W handleStanza element handled extensions
    induction extensions with
    | nil =>
      intro w
      simp [QXmppClient._q_elementReceived_nil]
    | cons p rest ih =>
      intro w
      cases h : (handleStanza p element w).1 with
      | true =>
        rw [QXmppClient._q_elementReceived_cons_true _ _ _ _ _ _ h]
        simp
      | false =>
        rw [QXmppClient._q_elementReceived_cons_false _ _ _ _ _ _ h]
        obtain ⟨h1, h2, h3, h4⟩ := ih (handleStanza p element w).2
        refine ⟨?_, ?_, ?_, ?_⟩
        · simp only [List.map_cons, List.length_cons, List.take_succ_cons]
          rw [h1]
        · intro c hc
          cases hcalls : (QXmppClient._q_elementReceived handleStanza element handled rest
              (handleStanza p element w).2).calls with
          | nil => simp [hcalls] at hc
          | cons x xs =>
            rw [hcalls, List.dropLast_cons₂] at hc
            rcases List.mem_cons.1 hc with hc | hc
            · rw [hc]
            · exact h2 c (by rw [hcalls]; exact hc)
        · rintro ⟨c, hc, hct⟩
          rcases List.mem_cons.1 hc with hc | hc
          · rw [hc] at hct
            simp at hct
          · exact h3 ⟨c, hc, hct⟩
        · intro hall
          have := h4 (fun c hc => hall c (List.mem_cons_of_mem _ hc))
          exact ⟨this.1, by simp [this.2]⟩
  · intro W handles element handled extensions
    induction extensions with
    | nil =>
      intro w
      simp [QXmppClient._q_elementReceived_nil]
    | cons p rest ih =>
      intro w
      cases h : handles p with
      | true =>
        rw [QXmppClient._q_elementReceived_cons_true _ _ _ _ _ _ h]
        simp [h]
      | false =>
        rw [QXmppClient._q_elementReceived_cons_false _ _ _ _ _ _ h]
        obtain ⟨h1, h2⟩ := ih w
        simp [h, h1, h2]

/-- C7, at a concrete input: of three extensions of which the second handles
the element, the first two are called, the third is not, and `handled` is set. -/
theorem QXmppClient._q_elementReceived_first_handler_sample :
    (QXmppClient._q_elementReceived sampleClientExtensions (sampleTimeIq "get") false [1, 2, 3] ()).calls =
        [(1, false), (2, true)] ∧
      (QXmppClient._q_elementReceived sampleClientExtensions (sampleTimeIq "get") false [1, 2, 3] ()).handled =
        true :=
  ⟨(QXmppClient._q_elementReceived_first_handler.2 Unit (fun p => p == 2) (sampleTimeIq "get") false
      [1, 2, 3] ()).1,
    (QXmppClient._q_elementReceived_first_handler.2 Unit (fun p => p == 2) (sampleTimeIq "get") false
      [1, 2, 3] ()).2⟩

/-! ## Theorems: outstanding Jingle requests -/

namespace QXmppCallPrivate

theorem takeRequest_none (id : String) (requests : List QXmppJingleIq)
    (h : ∀ r ∈ requests, r.id ≠ id) : takeRequest id requests = none := by
  induction requests with
  | nil => rfl
  | cons r rest ih =>
    have hr : ¬ id = r.id := fun e => h r (List.mem_cons_self _ _) e.symm
    simp [takeRequest, hr, ih (fun x hx => h x (List.mem_cons_of_mem _ hx))]

theorem takeRequest_first (id : String) (before : List QXmppJingleIq) (request : QXmppJingleIq)
    (after : List QXmppJingleIq) (hid : request.id = id) (h : ∀ r ∈ before, r.id ≠ id) :
    takeRequest id (before ++ request :: after) = some (request, before ++ after) := by
  induction before with
  | nil => simp [takeRequest, hid]
  | cons r rest ih =>
    have hr : ¬ id = r.id := fun e => h r (List.mem_cons_self _ _) e.symm
    simp [takeRequest, hr, ih (fun x hx => h x (List.mem_cons_of_mem _ hx))]

theorem requests_setState (d : QXmppCallPrivate) (newState : QXmppCall.State) :
    (d.setState newState).requests = d.requests := by
  unfold setState
  split_ifs <;> rfl

theorem requests_terminated (d : QXmppCallPrivate) : d.terminated.requests = d.requests := by
  unfold terminated
  rw [requests_setState]
  rfl

theorem requests_handleAck (d : QXmppCallPrivate) (ack : QXmppIq) (request : QXmppJingleIq)
    (others : List QXmppJingleIq) (h : takeRequest ack.id d.requests = some (request, others)) :
    (d.handleAck ack).requests = others := by
  unfold handleAck
  simp only [h]
  split_ifs
  · rw [requests_terminated]; rfl
  · rfl

theorem handleAck_unknown (d : QXmppCallPrivate) (ack : QXmppIq)
    (h : ∀ r ∈ d.requests, r.id ≠ ack.id) : d.handleAck ack = d := by
  unfold handleAck
  simp only [takeRequest_none ack.id d.requests h]

end QXmppCallPrivate

/-- C9: `handleAck` removes the first outstanding request whose id equals the
acknowledgement's id and leaves the other requests unchanged and in order; when
no outstanding request has that id it changes nothing. Hence, when a request
with an id that no outstanding request has is sent and then acknowledged, the
outstanding requests are as before it was sent, and a second acknowledgement
with the same id changes nothing. -/
theorem QXmppCallPrivate.handleAck_removes_first (d : QXmppCallPrivate) (ack : QXmppIq) :
    (∀ (before : List QXmppJingleIq) (request : QXmppJingleIq) (after : List QXmppJingleIq),
      d.requests = before ++ request :: after →
      request.id = ack.id →
      (∀ r ∈ before, r.id ≠ ack.id) →
      (d.handleAck ack).requests = before ++ after) ∧
    ((∀ r ∈ d.requests, r.id ≠ ack.id) → d.handleAck ack = d) ∧
    (∀ iq : QXmppJingleIq,
      iq.id = ack.id →
      (∀ r ∈ d.requests, r.id ≠ ack.id) →
      ((d.sendRequest iq).handleAck ack).requests = d.requests ∧
      ((d.sendRequest iq).handleAck ack).handleAck ack = (d.sendRequest iq).handleAck ack) := by
  refine ⟨?_, QXmppCallPrivate.handleAck_unknown d ack, ?_⟩
  · intro before request after hsplit hid hbefore
    apply QXmppCallPrivate.requests_handleAck d ack request
    rw [hsplit]
    exact QXmppCallPrivate.takeRequest_first ack.id before request after hid hbefore
  · intro iq hid hfresh
    have hsent : (d.sendRequest iq).requests = d.requests ++ iq :: [] := rfl
    have hfirst : ((d.sendRequest iq).handleAck ack).requests = d.requests := by
      have := QXmppCallPrivate.requests_handleAck (d.sendRequest iq) ack iq (d.requests ++ [])
        (by rw [hsent]; exact QXmppCallPrivate.takeRequest_first ack.id d.requests iq [] hid hfresh)
      simpa using this
    refine ⟨hfirst, ?_⟩
    apply QXmppCallPrivate.handleAck_unknown
    rw [hfirst]
    exact hfresh

/-- C9, at a concrete input: with requests `a` and `b` outstanding, the
acknowledgement of `b` leaves `a`; a session-terminate request `x` that is sent
and acknowledged leaves `a` and `b`, and a second acknowledgement of `x`
changes nothing. -/
theorem QXmppCallPrivate.handleAck_removes_first_sample :
    (sampleCall.handleAck (sampleAck "b")).requests = sampleCall.requests.take 1 ∧
    ((sampleCall.sendRequest (sampleTerminate "x")).handleAck (sampleAck "x")).requests =
      sampleCall.requests ∧
    ((sampleCall.sendRequest (sampleTerminate "x")).handleAck (sampleAck "x")).handleAck (sampleAck "x") =
      (sampleCall.sendRequest (sampleTerminate "x")).handleAck (sampleAck "x") :=
  ⟨(QXmppCallPrivate.handleAck_removes_first sampleCall (sampleAck "b")).1
      (sampleCall.requests.take 1) _ [] rfl rfl (by decide),
    ((QXmppCallPrivate.handleAck_removes_first sampleCall (sampleAck "x")).2.2
      (sampleTerminate "x") rfl (by decide)).1,
    ((QXmppCallPrivate.handleAck_removes_first sampleCall (sampleAck "x")).2.2
      (sampleTerminate "x") rfl (by decide)).2⟩

/-! ## Theorems: `sendSensitiveIq` -/

/-- C10: with an encryption extension set, whatever the outcomes of the steps
(encryption, the stream's response, the presence of the extension at the
response, decryption), the calls made on the interface of the returned future
are exactly one `reportResult`, with a response element or a send error,
followed by `reportFinished`. -/
theorem QXmppClient.sendSensitiveIq_reports_once (hasIqId : String → Bool) (uuid : String)
    (steps : QXmppClient.SensitiveIqSteps) (iq : QXmppIq) :
    ∃ (result : QXmppClient.IqResult) (sent : Option (String × String)),
      QXmppClient.sendSensitiveIq hasIqId uuid true steps iq =
        .ofInterface [.reportResult result, .reportFinished] sent := by
  obtain ⟨encrypted, response, present, decrypted⟩ := steps
  unfold QXmppClient.sendSensitiveIq
  cases encrypted with
  | error err => exact ⟨_, _, rfl⟩
  | xml bytes =>
    cases response with
    | error err => exact ⟨_, _, rfl⟩
    | element dom =>
      cases present with
      | false => exact ⟨_, _, rfl⟩
      | true =>
        cases decrypted with
        | element plain => exact ⟨_, _, rfl⟩
        | notEncrypted => exact ⟨_, _, rfl⟩
        | error err => exact ⟨_, _, rfl⟩

/-! ## Theorems: server extensions -/

namespace QXmppServer

/-- Inserting at the front of an insertion sort and inserting by priority commute. -/
theorem orderedInsert_insertByPriority (priority : Nat → Int) (b x : Nat) (l : List Nat) :
    List.orderedInsert (fun a c => priority c ≤ priority a) b (insertByPriority priority x l) =
      insertByPriority priority x (List.orderedInsert (fun a c => priority c ≤ priority a) b l) := by
  induction l with
  | nil =>
    by_cases h : priority x ≤ priority b
    · have h2 : ¬ priority b < priority x := by omega
      simp [insertByPriority, List.orderedInsert, h, h2]
    · have h2 : priority b < priority x := by omega
      simp [insertByPriority, List.orderedInsert, h, h2]
  | cons c rest ih =>
    by_cases h1 : priority c ≤ priority b <;> by_cases h2 : priority c < priority x
    · by_cases h3 : priority x ≤ priority b
      · have h4 : ¬ priority b < priority x := by omega
        simp [insertByPriority, List.orderedInsert, h1, h2, h3, h4]
      · have h4 : priority b < priority x := by omega
        simp [insertByPriority, List.orderedInsert, h1, h2, h3, h4]
    · have h4 : ¬ priority b < priority x := by omega
      simp [insertByPriority, List.orderedInsert, h1, h2, h4]
    · have h3 : ¬ priority x ≤ priority b := by omega
      simp [insertByPriority, List.orderedInsert, h1, h2, h3]
    · simp [insertByPriority, List.orderedInsert, h1, h2, ih]

/-- Sorting a list extended at the end is inserting by priority into the sorted list. -/
theorem insertionSort_append_singleton (priority : Nat → Int) (x : Nat) (l : List Nat) :
    List.insertionSort (fun a c => priority c ≤ priority a) (l ++ [x]) =
      insertByPriority priority x (List.insertionSort (fun a c => priority c ≤ priority a) l) := by
  induction l with
  | nil => simp [insertByPriority]
  | cons b rest ih =>
    show List.orderedInsert _ b (List.insertionSort _ (rest ++ [x])) =
      insertByPriority priority x (List.orderedInsert _ b (List.insertionSort _ rest))
    rw [ih, orderedInsert_insertByPriority]

/-- Inserting an element after the elements it does not precede and before the
elements it precedes. -/
theorem orderedInsert_middle (priority : Nat → Int) (a : Nat) (l₁ l₂ : List Nat)
    (h₁ : ∀ b ∈ l₁, ¬ priority b ≤ priority a) (h₂ : ∀ c ∈ l₂, priority c ≤ priority a) :
    List.orderedInsert (fun a c => priority c ≤ priority a) a (l₁ ++ l₂) = l₁ ++ a :: l₂ := by
  induction l₁ with
  | nil =>
    cases l₂ with
    | nil => rfl
    | cons c rest => simp [List.orderedInsert, h₂ c (List.mem_cons_self _ _)]
  | cons b rest ih =>
    simp [List.orderedInsert, h₁ b (List.mem_cons_self _ _),
      ih (fun x hx => h₁ x (List.mem_cons_of_mem _ hx))]

theorem priority_trans (priority : Nat → Int) (a b c : Nat) :
    decide (priority b ≤ priority a) = true → decide (priority c ≤ priority b) = true →
      decide (priority c ≤ priority a) = true := by
  simp only [decide_eq_true_eq]
  omega

theorem priority_total (priority : Nat → Int) (a b : Nat) :
    (decide (priority b ≤ priority a) || decide (priority a ≤ priority b)) = true := by
  simp only [Bool.or_eq_true, decide_eq_true_eq]
  omega

/-- The stable sort is the insertion sort. -/
theorem stableSortByPriority_eq_insertionSort (priority : Nat → Int) (l : List Nat) :
    stableSortByPriority priority l =
      List.insertionSort (fun a c => priority c ≤ priority a) l := by
  induction l with
  | nil => simp [stableSortByPriority]
  | cons a rest ih =>
    unfold stableSortByPriority at ih ⊢
    obtain ⟨l₁, l₂, h₁, h₂, h₃⟩ := List.mergeSort_cons (priority_trans priority)
      (priority_total priority) a rest
    have hsorted := List.sorted_mergeSort (priority_trans priority) (priority_total priority)
      (a :: rest)
    rw [h₁] at hsorted ⊢
    show _ = List.orderedInsert _ a (List.insertionSort _ rest)
    rw [← ih, h₂]
    symm
    apply orderedInsert_middle
    · intro b hb
      have := h₃ b hb
      simpa using this
    · intro c hc
      have h := (List.pairwise_append.1 hsorted).2.1
      have := List.rel_of_pairwise_cons h hc
      simpa using this

theorem mem_stableSortByPriority (priority : Nat → Int) (l : List Nat) (x : Nat) :
    x ∈ stableSortByPriority priority l ↔ x ∈ l := by
  unfold stableSortByPriority
  exact List.mem_mergeSort

theorem stableSortByPriority_append_singleton (priority : Nat → Int) (x : Nat) (l : List Nat) :
    stableSortByPriority priority (l ++ [x]) =
      insertByPriority priority x (stableSortByPriority priority l) := by
  rw [stableSortByPriority_eq_insertionSort, stableSortByPriority_eq_insertionSort,
    insertionSort_append_singleton]

theorem firstRegistrations_append_none (calls : List (Option Nat)) :
    firstRegistrations (calls ++ [none]) = firstRegistrations calls := by
  induction calls with
  | nil => rfl
  | cons c rest ih =>
    cases c with
    | none => simpa [firstRegistrations] using ih
    | some y => simp [firstRegistrations, ih]

theorem firstRegistrations_append_some (calls : List (Option Nat)) (x : Nat) :
    firstRegistrations (calls ++ [some x]) =
      if x ∈ firstRegistrations calls then firstRegistrations calls
      else firstRegistrations calls ++ [x] := by
  induction calls with
  | nil => simp [firstRegistrations]
  | cons c rest ih =>
    cases c with
    | none => simpa [firstRegistrations] using ih
    | some y =>
      have hcons : firstRegistrations (some y :: rest ++ [some x]) =
          y :: (firstRegistrations (rest ++ [some x])).filter (fun p => p != y) := rfl
      have hcons2 : firstRegistrations (some y :: rest) =
          y :: (firstRegistrations rest).filter (fun p => p != y) := rfl
      rw [hcons, hcons2, ih]
      by_cases hxy : x = y
      · subst hxy
        by_cases hx : x ∈ firstRegistrations rest
        · simp [hx]
        · simp [hx, List.filter_append]
      · by_cases hx : x ∈ firstRegistrations rest
        · have hx2 : x ∈ List.filter (fun p => p != y) (firstRegistrations rest) := by
            simp [List.mem_filter, hx, hxy]
          simp [hx, hx2, hxy]
        · have hx2 : x ∉ List.filter (fun p => p != y) (firstRegistrations rest) := by
            simp [List.mem_filter, hx]
          simp [hx, hx2, hxy, List.filter_append]

theorem extension_info (s : QXmppServer) (message : String) :
    (s.info message).extension = s.extension ∧ (s.info message).d = s.d := by
  unfold info
  split_ifs <;> exact ⟨rfl, rfl⟩

theorem extension_addExtension (s : QXmppServer) (c : Option Nat) :
    (s.addExtension c).extension = s.extension := by
  cases c with
  | none => rfl
  | some p =>
    simp only [addExtension]
    split_ifs
    · rfl
    · exact (extension_info s _).1

theorem extensions_addExtension_some (s : QXmppServer) (p : Nat) :
    (s.addExtension (some p)).d.extensions =
      if p ∈ s.d.extensions then s.d.extensions
      else insertByPriority (fun q => (s.extension q).extensionPriority) p s.d.extensions := by
  simp only [addExtension]
  split_ifs
  · rfl
  · simp only [(extension_info s _).1, (extension_info s _).2]

/-- The extension list after any sequence of registrations on a server whose
list was empty: the stable sort of the first registrations. -/
theorem extensions_foldl_addExtension (server : QXmppServer) (calls : List (Option Nat))
    (hempty : server.d.extensions = []) :
    (calls.foldl addExtension server).extension = server.extension ∧
    (calls.foldl addExtension server).d.extensions =
      stableSortByPriority (fun p => (server.extension p).extensionPriority)
        (firstRegistrations calls) := by
  induction calls using List.reverseRecOn with
  | nil => exact ⟨rfl, by simp [hempty, firstRegistrations, stableSortByPriority]⟩
  | append_singleton rest c ih =>
    obtain ⟨hext, hlist⟩ := ih
    rw [List.foldl_append]
    simp only [List.foldl_cons, List.foldl_nil]
    refine ⟨by rw [extension_addExtension, hext], ?_⟩
    cases c with
    | none => rw [firstRegistrations_append_none]; exact hlist
    | some p =>
      rw [extensions_addExtension_some, firstRegistrations_append_some, hlist, hext]
      by_cases hp : p ∈ firstRegistrations rest
      · rw [if_pos ((mem_stableSortByPriority _ _ _).2 hp), if_pos hp]
      · rw [if_neg (fun h => hp ((mem_stableSortByPriority _ _ _).1 h)), if_neg hp,
          stableSortByPriority_append_singleton]

end QXmppServer

/-- C8: after any sequence of `addExtension` calls on a server whose extension
list was empty, the list is the stable sort, by descending priority, of the
distinct non-null extensions in order of first registration: it is sorted by
non-increasing priority, and the extensions of any one priority appear in
order of first registration. -/
theorem QXmppServer.addExtension_stable_sort (server : QXmppServer) (calls : List (Option Nat))
    (hempty : server.d.extensions = []) :
    (calls.foldl QXmppServer.addExtension server).d.extensions =
        QXmppServer.stableSortByPriority (fun p => (server.extension p).extensionPriority)
          (QXmppServer.firstRegistrations calls) ∧
    (calls.foldl QXmppServer.addExtension server).d.extensions.Pairwise
        (fun a b => (server.extension b).extensionPriority ≤ (server.extension a).extensionPriority) ∧
    ∀ v : Int,
      (calls.foldl QXmppServer.addExtension server).d.extensions.filter
          (fun p => (server.extension p).extensionPriority == v) =
        (QXmppServer.firstRegistrations calls).filter
          (fun p => (server.extension p).extensionPriority == v) := by
  have hlist := (QXmppServer.extensions_foldl_addExtension server calls hempty).2
  rw [hlist]
  refine ⟨rfl, ?_, ?_⟩
  · have hsorted := List.sorted_mergeSort
      (QXmppServer.priority_trans (fun p => (server.extension p).extensionPriority))
      (QXmppServer.priority_total (fun p => (server.extension p).extensionPriority))
      (QXmppServer.firstRegistrations calls)
    exact hsorted.imp (fun h => by simpa using h)
  · intro v
    have hsub : List.Sublist
        ((QXmppServer.firstRegistrations calls).filter
          (fun p => (server.extension p).extensionPriority == v))
        (QXmppServer.stableSortByPriority (fun p => (server.extension p).extensionPriority)
          (QXmppServer.firstRegistrations calls)) := by
      apply List.sublist_mergeSort
        (QXmppServer.priority_trans (fun p => (server.extension p).extensionPriority))
        (QXmppServer.priority_total (fun p => (server.extension p).extensionPriority))
      · apply List.pairwise_of_forall_mem_list
        intro a ha b hb
        have h1 := (List.mem_filter.1 ha).2
        have h2 := (List.mem_filter.1 hb).2
        simp only [beq_iff_eq] at h1 h2
        simp [h1, h2]
      · exact List.filter_sublist _
    have hsub2 := hsub.filter (fun p => (server.extension p).extensionPriority == v)
    rw [List.filter_filter] at hsub2
    simp only [Bool.and_self] at hsub2
    have hperm : (QXmppServer.stableSortByPriority
        (fun p => (server.extension p).extensionPriority)
        (QXmppServer.firstRegistrations calls)).Perm (QXmppServer.firstRegistrations calls) :=
      List.mergeSort_perm _ _
    have hlen := (hperm.filter (fun p => (server.extension p).extensionPriority == v)).length_eq
    exact (hsub2.eq_of_length hlen.symm).symm

/-- C8, at a concrete input: extensions 1, 2, 3, 1 again and 4, of priorities
1, 0, 1, 1 and 0, and a null pointer, are kept as 1, 3, 2, 4. -/
theorem QXmppServer.addExtension_stable_sort_sample :
    (sampleRegistrations.foldl QXmppServer.addExtension samplePriorityServer).d.extensions =
        [1, 3, 2, 4] ∧
      QXmppServer.stableSortByPriority (fun p => (samplePriorityServer.extension p).extensionPriority)
        (QXmppServer.firstRegistrations sampleRegistrations) = [1, 3, 2, 4] :=
  ⟨by decide,
    (QXmppServer.addExtension_stable_sort samplePriorityServer sampleRegistrations rfl).1.symm.trans
      (by decide)⟩

/-! ## Theorems: keep-alive delay, reset on connection, disabled auto-reconnection -/

namespace QXmppClient

theorem stream_streamConnected (c : QXmppClient) : c._q_streamConnected.stream = c.stream := by
  unfold _q_streamConnected
  simp only [perform]
  split_ifs <;> rfl

theorem d_streamConnected (c : QXmppClient) :
    c._q_streamConnected.d =
      { c.d with receivedConflict := false, reconnectionTries := 0, isActive := true } := by
  unfold _q_streamConnected
  simp only [perform]
  split_ifs <;> rfl

/-- No slot but a stream error of kind `XmppStreamError` records a conflict. -/
theorem receivedConflict_false_step (c : QXmppClient) (e : Event)
    (hflag : c.d.receivedConflict = false) (he : e ≠ .streamError .XmppStreamError) :
    (c.step e).d.receivedConflict = false := by
  cases e with
  | streamError err =>
    have herr : err ≠ .XmppStreamError := fun h => he (by rw [h])
    simp only [step, _q_streamError, perform]
    split_ifs <;> simp_all
  | reconnect => simp [step, d_reconnect, hflag]
  | streamConnected => simp [step, d_streamConnected]
  | streamDisconnected => exact hflag
  | disconnectFromServer =>
    simp only [step, disconnectFromServer, perform]
    split_ifs <;> exact hflag
  | streamChanged stream => exact hflag

/-- A counter at zero and a cleared conflict flag are kept by every sequence of
events without a stream error of kind `XmppStreamError`. -/
theorem reset_kept_run (events : List Event) (c : QXmppClient)
    (htries : c.d.reconnectionTries = 0) (hflag : c.d.receivedConflict = false)
    (hevents : ∀ e ∈ events, e ≠ .streamError .XmppStreamError) :
    (c.run events).d.reconnectionTries = 0 ∧ (c.run events).d.receivedConflict = false := by
  induction events generalizing c with
  | nil => exact ⟨htries, hflag⟩
  | cons e rest ih =>
    have h1 : (c.step e).d.reconnectionTries = 0 := by
      rcases reconnectionTries_step c e with h | h
      · rw [h, htries]
      · exact h
    have h2 := receivedConflict_false_step c e hflag (hevents e (List.mem_cons_self _ _))
    exact ih (c.step e) h1 h2 (fun x hx => hevents x (List.mem_cons_of_mem _ hx))

end QXmppClient

/-- C14: with auto-reconnection enabled, handling a keep-alive error starts the
reconnection timer with exactly 1000 ms and emits the error, whatever the
attempt counter and the conflict flag are. -/
theorem QXmppClient.keepAlive_delay (c : QXmppClient)
    (hauto : c.stream.autoReconnectionEnabled = true) :
    (c._q_streamError .KeepAliveError).trace =
        c.trace ++ [.timerStart 1000, .emitError .KeepAliveError] ∧
    QXmppClient.startedBy c .KeepAliveError = [1000] ∧
    ∀ (n : Int) (conflict : Bool),
      QXmppClient.startedBy
        { c with d := { c.d with reconnectionTries := n, receivedConflict := conflict } }
        .KeepAliveError = [1000] := by
  have h := QXmppClient.trace_streamError_keepAlive c hauto
  refine ⟨h, by rw [QXmppClient.startedBy_of_trace _ _ _ h]; rfl, ?_⟩
  intro n conflict
  have h2 := QXmppClient.trace_streamError_keepAlive
    { c with d := { c.d with reconnectionTries := n, receivedConflict := conflict } } hauto
  rw [QXmppClient.startedBy_of_trace _ _ _ h2]
  rfl

/-- C14, at a concrete input: with 12 attempts counted, a keep-alive error
starts the timer with 1000 ms. -/
theorem QXmppClient.keepAlive_delay_sample :
    QXmppClient.startedBy
      { QXmppClient.new QXmppClient.defaultStream with
        d := { QXmppClientPrivate.new with reconnectionTries := 12 } }
      .KeepAliveError = [1000] :=
  (QXmppClient.keepAlive_delay
    { QXmppClient.new QXmppClient.defaultStream with
      d := { QXmppClientPrivate.new with reconnectionTries := 12 } } rfl).2.1

/-- C15: after `_q_streamConnected` the attempt counter is 0 and the conflict
flag is cleared, whatever they were before, and `getNextReconnectTime` is
10000 ms; a socket error handled next (or after any events other than a stream
error of kind `XmppStreamError`) starts the timer with 10000 ms when
auto-reconnection is enabled. -/
theorem QXmppClient.streamConnected_resets (c : QXmppClient) :
    c._q_streamConnected.d.reconnectionTries = 0 ∧
    c._q_streamConnected.d.receivedConflict = false ∧
    c._q_streamConnected.d.getNextReconnectTime = 10000 ∧
    (c.stream.autoReconnectionEnabled = true →
      QXmppClient.startedBy c._q_streamConnected .SocketError = [10000]) ∧
    (∀ events : List QXmppClient.Event,
      (∀ e ∈ events, e ≠ QXmppClient.Event.streamError .XmppStreamError) →
      (c._q_streamConnected.run events).stream.autoReconnectionEnabled = true →
      QXmppClient.startedBy (c._q_streamConnected.run events) .SocketError = [10000]) := by
  have hd := QXmppClient.d_streamConnected c
  have htries : c._q_streamConnected.d.reconnectionTries = 0 := by rw [hd]
  have hflag : c._q_streamConnected.d.receivedConflict = false := by rw [hd]
  have hlater : ∀ events : List QXmppClient.Event,
      (∀ e ∈ events, e ≠ QXmppClient.Event.streamError .XmppStreamError) →
      (c._q_streamConnected.run events).stream.autoReconnectionEnabled = true →
      QXmppClient.startedBy (c._q_streamConnected.run events) .SocketError = [10000] := by
    intro events hevents hauto
    obtain ⟨h1, h2⟩ := QXmppClient.reset_kept_run events _ htries hflag hevents
    rw [QXmppClient.startedBy_of_trace _ _ _ (QXmppClient.trace_streamError_socket _ hauto h2)]
    simp [QXmppClient.timerStarts, QXmppClientPrivate.getNextReconnectTime, h1]
  refine ⟨htries, hflag, ?_, ?_, hlater⟩
  · simp [QXmppClientPrivate.getNextReconnectTime, htries]
  · intro hauto
    have hs : (c._q_streamConnected.run []).stream = c.stream :=
      QXmppClient.stream_streamConnected c
    exact hlater [] (fun _ h => nomatch h) (by rw [hs]; exact hauto)

/-- C15, at a concrete input: a client with 17 attempts counted and a conflict
recorded connects, the timer fires and a keep-alive error occurs; the next
socket error starts the timer with 10000 ms. -/
theorem QXmppClient.streamConnected_resets_sample :
    QXmppClient.startedBy
      (({ QXmppClient.new QXmppClient.defaultStream with
          d := { QXmppClientPrivate.new with reconnectionTries := 17, receivedConflict := true }
        } : QXmppClient)._q_streamConnected.run [.reconnect, .streamError .KeepAliveError])
      .SocketError = [10000] :=
  (QXmppClient.streamConnected_resets
    { QXmppClient.new QXmppClient.defaultStream with
      d := { QXmppClientPrivate.new with reconnectionTries := 17, receivedConflict := true } }).2.2.2.2
    [.reconnect, .streamError .KeepAliveError] (by decide) rfl

/-- C16: while auto-reconnection is disabled, `_q_streamError` starts the
reconnection timer for no error kind, changes no private data and emits the
error signal exactly once; `_q_reconnect` does not call `connectToHost` (it
does nothing at all). -/
theorem QXmppClient.disabled_no_reconnection (c : QXmppClient) (err : QXmppClient.Error)
    (hauto : c.stream.autoReconnectionEnabled = false) :
    (c._q_streamError err).trace = c.trace ++ [.emitError err] ∧
    (c._q_streamError err).d = c.d ∧
    QXmppClient.startedBy c err = [] ∧
    c._q_reconnect = c := by
  have htrace : (c._q_streamError err).trace = c.trace ++ [.emitError err] := by
    simp [QXmppClient._q_streamError, QXmppClient.perform, hauto]
  refine ⟨htrace, ?_, ?_, ?_⟩
  · simp [QXmppClient._q_streamError, QXmppClient.perform, hauto]
  · rw [QXmppClient.startedBy_of_trace _ _ _ htrace]
    rfl
  · simp [QXmppClient._q_reconnect, hauto]

/-- C16, at a concrete input: a fresh client with auto-reconnection switched
off handles a socket error and a timer shot. -/
theorem QXmppClient.disabled_no_reconnection_sample :
    ((QXmppClient.new { QXmppClient.defaultStream with autoReconnectionEnabled := false })._q_streamError
        .SocketError).trace = [.emitError .SocketError] ∧
      (QXmppClient.new { QXmppClient.defaultStream with autoReconnectionEnabled := false })._q_reconnect =
        QXmppClient.new { QXmppClient.defaultStream with autoReconnectionEnabled := false } :=
  ⟨(QXmppClient.disabled_no_reconnection
      (QXmppClient.new { QXmppClient.defaultStream with autoReconnectionEnabled := false })
      .SocketError rfl).1,
    (QXmppClient.disabled_no_reconnection
      (QXmppClient.new { QXmppClient.defaultStream with autoReconnectionEnabled := false })
      .SocketError rfl).2.2.2⟩

/-! ## Theorems: `disconnectFromServer` and `sendMessage` -/

/-- C17: `disconnectFromServer` first stops the reconnection timer, then sets
the client presence to type Unavailable with status text "Logged out", sends
that presence if and only if the stream is connected, and last disconnects the
stream; afterwards the client presence has type Unavailable and status text
"Logged out" in both cases. -/
theorem QXmppClient.disconnectFromServer_effects (c : QXmppClient) :
    c.disconnectFromServer.trace =
        c.trace ++ [.timerStop] ++
          (if c.stream.isConnected then
            [.sendPacket (.presence
              { c.d.clientPresence with type := .Unavailable, statusText := "Logged out" })]
          else []) ++
          [.disconnectFromHost] ∧
    c.disconnectFromServer.d.clientPresence.type = .Unavailable ∧
    c.disconnectFromServer.d.clientPresence.statusText = "Logged out" := by
  unfold QXmppClient.disconnectFromServer
  cases h : c.stream.isConnected <;> simp [QXmppClient.perform, h]

/-- C19: `sendMessage` sends, when the roster manager knows resources for the
bare JID, one message per resource, in order, each addressed to the bare JID
followed by `/` and the resource, and nothing else; when it knows none, or
there is no roster manager, exactly one message addressed to the bare JID. The
number of packets sent is the maximum of 1 and the number of resources. -/
theorem QXmppClient.sendMessage_packets (c : QXmppClient) (getResources : String → List String)
    (bareJid message : String) :
    (getResources bareJid ≠ [] →
      (c.sendMessage (some getResources) bareJid message).trace =
        c.trace ++ (getResources bareJid).map (fun resource =>
          QXmppClient.Effect.sendPacket (.message
            { fromJid := "", toJid := bareJid ++ "/" ++ resource, body := message }))) ∧
    (getResources bareJid = [] →
      (c.sendMessage (some getResources) bareJid message).trace =
        c.trace ++ [.sendPacket (.message { fromJid := "", toJid := bareJid, body := message })]) ∧
    (c.sendMessage none bareJid message).trace =
        c.trace ++ [.sendPacket (.message { fromJid := "", toJid := bareJid, body := message })] ∧
    (c.sendMessage (some getResources) bareJid message).trace.length =
        c.trace.length + max 1 (getResources bareJid).length := by
  have hfold : ∀ (resources : List String) (s : QXmppClient),
      (resources.foldl
        (fun s resource =>
          s.perform (.sendPacket (.message
            { fromJid := "", toJid := bareJid ++ "/" ++ resource, body := message })))
        s).trace =
      s.trace ++ resources.map (fun resource =>
        QXmppClient.Effect.sendPacket (.message
          { fromJid := "", toJid := bareJid ++ "/" ++ resource, body := message })) := by
    intro resources
    induction resources with
    | nil => intro s; simp
    | cons r rest ih =>
      intro s
      simp only [List.foldl_cons, List.map_cons]
      rw [ih]
      simp [QXmppClient.perform]
  have hsome : getResources bareJid ≠ [] →
      (c.sendMessage (some getResources) bareJid message).trace =
        c.trace ++ (getResources bareJid).map (fun resource =>
          QXmppClient.Effect.sendPacket (.message
            { fromJid := "", toJid := bareJid ++ "/" ++ resource, body := message })) := by
    intro hne
    unfold QXmppClient.sendMessage
    have : (!(getResources bareJid).isEmpty) = true := by
      cases hr : getResources bareJid with
      | nil => exact absurd hr hne
      | cons x xs => rfl
    simp only [this, if_true]
    exact hfold _ _
  have hnil : getResources bareJid = [] →
      (c.sendMessage (some getResources) bareJid message).trace =
        c.trace ++ [.sendPacket (.message { fromJid := "", toJid := bareJid, body := message })] := by
    intro he
    unfold QXmppClient.sendMessage
    simp [he, QXmppClient.perform]
  refine ⟨hsome, hnil, ?_, ?_⟩
  · simp [QXmppClient.sendMessage, QXmppClient.perform]
  · by_cases he : getResources bareJid = []
    · rw [hnil he, he]
      simp
    · rw [hsome he]
      have : 1 ≤ (getResources bareJid).length := by
        cases hr : getResources bareJid with
        | nil => exact absurd hr he
        | cons x xs => simp
      simp only [List.length_append, List.length_map]
      omega

/-- C19, at a concrete input: two resources known for `bob@example.org`. -/
theorem QXmppClient.sendMessage_packets_sample :
    ((QXmppClient.new QXmppClient.defaultStream).sendMessage (some (fun _ => ["pc", "phone"]))
        "bob@example.org" "hi").trace =
      [.sendPacket (.message { fromJid := "", toJid := "bob@example.org/pc", body := "hi" }),
        .sendPacket (.message { fromJid := "", toJid := "bob@example.org/phone", body := "hi" })] :=
  (QXmppClient.sendMessage_packets (QXmppClient.new QXmppClient.defaultStream)
    (fun _ => ["pc", "phone"]) "bob@example.org" "hi").1 (by decide)

/-! ## Theorems: responses carry the request's id -/

/-- C13: the response that `QXmppEntityTimeManager::handleStanza` sends for an
entity time get request, and the acknowledgement that `sendAck` sends for a
Jingle request, are iqs of type result whose id is the request's id, whatever
that id is, and whose `to` is the request's `from`. -/
theorem QXmppIq.response_carries_request_id :
    (∀ (timezoneOffsetFromString : String → Int) (datetimeFromString : String → QDateTime)
        (currentDateTime : QDateTime) (element : QDomElement),
      element.tagName = "iq" →
      QXmppEntityTimeIq.isEntityTimeIq element = true →
      (QXmppIq.parse element).type = .Get →
      ∃ response,
        QXmppEntityTimeManager.sentPackets
          (QXmppEntityTimeManager.handleStanza timezoneOffsetFromString datetimeFromString
            currentDateTime element).2 = [response] ∧
        response.iq.type = .Result ∧
        response.iq.id = (QXmppIq.parse element).id ∧
        response.iq.toJid = (QXmppIq.parse element).fromJid) ∧
    (∀ (d : QXmppCallPrivate) (iq : QXmppJingleIq),
      ∃ ack,
        (d.sendAck iq).trace = d.trace ++ [.sendIq ack] ∧
        ack.type = .Result ∧
        ack.id = iq.id ∧
        ack.toJid = iq.fromJid) := by
  constructor
  · intro tz dt now element htag htime hget
    unfold QXmppEntityTimeManager.handleStanza
    rw [if_pos ⟨htag, htime⟩]
    have hget2 : (QXmppEntityTimeIq.parse tz dt element).iq.type = .Get := hget
    simp only [hget2, if_true]
    exact ⟨_, rfl, rfl, rfl, rfl⟩
  · intro d iq
    exact ⟨_, rfl, rfl, rfl, rfl⟩

/-- C13, at a concrete input: the entity time get request with id `t1` from
`bob@example.org/pc`. -/
theorem QXmppIq.response_carries_request_id_sample :
    ∃ response,
      QXmppEntityTimeManager.sentPackets
        (QXmppEntityTimeManager.handleStanza sampleTimezoneOffsetFromString sampleDatetimeFromString
          sampleCurrentDateTime (sampleTimeIq "get")).2 = [response] ∧
      response.iq.type = .Result ∧
      response.iq.id = "t1" ∧
      response.iq.toJid = "bob@example.org/pc" :=
  QXmppIq.response_carries_request_id.1 sampleTimezoneOffsetFromString sampleDatetimeFromString
    sampleCurrentDateTime (sampleTimeIq "get") rfl (by decide) (by decide)

/-! ## Theorems: refused routes -/

/-- C20: `routeData` returns false and leaves the server as it was (no data
handed to a connection, no outgoing stream created) when the destination is
empty, is the server's own domain, has a domain ending with `.` followed by the
server's domain, or has a domain other than the server's while there is no
listener for servers. -/
theorem QXmppServer.routeData_refused (u : QXmppUtils) (server : QXmppServer) (toJid : String)
    (data : QByteArray)
    (h : toJid = "" ∨ toJid = server.d.domain ∨
      QString.endsWith (u.jidToDomain toJid) ("." ++ server.d.domain) = true ∨
      (u.jidToDomain toJid ≠ server.d.domain ∧ server.d.serversForServers = [])) :
    QXmppServer.routeData u server toJid data = (false, server) := by
  unfold QXmppServer.routeData
  simp only
  by_cases h1 : toJid = "" ∨ toJid = server.d.domain ∨
      QString.endsWith (u.jidToDomain toJid) ("." ++ server.d.domain) = true
  · rw [if_pos h1]
  · rw [if_neg h1]
    have h2 : u.jidToDomain toJid ≠ server.d.domain ∧ server.d.serversForServers = [] := by
      rcases h with h | h | h | h
      · exact absurd (Or.inl h) h1
      · exact absurd (Or.inr (Or.inl h)) h1
      · exact absurd (Or.inr (Or.inr h)) h1
      · exact h
    rw [if_neg h2.1, h2.2]
    rfl

/-- C20, at concrete inputs: the server for `example.org`, without listener for
servers, refuses the empty destination, its own domain, a sub-domain and a
foreign domain. -/
theorem QXmppServer.routeData_refused_sample :
    ["", "example.org", "room@conference.example.org", "carol@example.com"].map
        (fun toJid =>
          (QXmppServer.routeData QXmppUtils.reference QXmppServer.sampleServer toJid
            (.literal "data")).1) =
      [false, false, false, false] := by
  have h1 := QXmppServer.routeData_refused QXmppUtils.reference QXmppServer.sampleServer ""
    (.literal "data") (Or.inl rfl)
  have h2 := QXmppServer.routeData_refused QXmppUtils.reference QXmppServer.sampleServer
    "example.org" (.literal "data") (Or.inr (Or.inl rfl))
  have h3 := QXmppServer.routeData_refused QXmppUtils.reference QXmppServer.sampleServer
    "room@conference.example.org" (.literal "data") (Or.inr (Or.inr (Or.inl (by decide))))
  have h4 := QXmppServer.routeData_refused QXmppUtils.reference QXmppServer.sampleServer
    "carol@example.com" (.literal "data") (Or.inr (Or.inr (Or.inr ⟨by decide, rfl⟩)))
  simp only [List.map_cons, List.map_nil, h1, h2, h3, h4]

/-! ## Theorems: trust messages -/

namespace QXmppTrustMessageKeyOwner

theorem foldl_parseChild_trust (toBase64 : Bytes → String) (fromBase64 : String → Bytes)
    (hbase64 : ∀ key, fromBase64 (toBase64 key) = key) (ns : String) (keys : List Bytes)
    (d : QXmppTrustMessageKeyOwner) :
    (keys.map (fun key => QXmlStreamWriter.textElement ns "trust" (toBase64 key))).foldl
        (parseChild fromBase64) d =
      { d with trustedKeys := d.trustedKeys ++ keys } := by
  induction keys generalizing d with
  | nil => simp
  | cons key rest ih =>
    simp only [List.map_cons, List.foldl_cons]
    rw [ih]
    simp [parseChild, QXmlStreamWriter.textElement, QDomElement.tagName, QDomElement.text, hbase64]

theorem foldl_parseChild_distrust (toBase64 : Bytes → String) (fromBase64 : String → Bytes)
    (hbase64 : ∀ key, fromBase64 (toBase64 key) = key) (ns : String) (keys : List Bytes)
    (d : QXmppTrustMessageKeyOwner) :
    (keys.map (fun key => QXmlStreamWriter.textElement ns "distrust" (toBase64 key))).foldl
        (parseChild fromBase64) d =
      { d with distrustedKeys := d.distrustedKeys ++ keys } := by
  induction keys generalizing d with
  | nil => simp
  | cons key rest ih =>
    simp only [List.map_cons, List.foldl_cons]
    rw [ih]
    have hne : ¬ ("distrust" = "trust") := by decide
    simp [parseChild, QXmlStreamWriter.textElement, QDomElement.tagName, QDomElement.text, hbase64,
      hne]

/-- Parsing a written key owner into a fresh key owner gives the key owner back. -/
theorem keyOwner_parse_toXml (toBase64 : Bytes → String) (fromBase64 : String → Bytes)
    (hbase64 : ∀ key, fromBase64 (toBase64 key) = key) (ns : String)
    (d : QXmppTrustMessageKeyOwner) :
    parse fromBase64 new (toXml toBase64 ns d) = d := by
  unfold parse toXml
  simp only [QDomElement.children, List.foldl_append]
  rw [foldl_parseChild_trust toBase64 fromBase64 hbase64,
    foldl_parseChild_distrust toBase64 fromBase64 hbase64]
  simp [new, QDomElement.attributeValue, QDomElement.attributes]

/-- The jid after `parse` is the `jid` attribute of the element, as it is. -/
theorem jid_parse (fromBase64 : String → Bytes) (d : QXmppTrustMessageKeyOwner)
    (element : QDomElement) :
    (parse fromBase64 d element).jid = element.attributeValue "jid" := by
  have h : ∀ (children : List QDomElement) (k : QXmppTrustMessageKeyOwner),
      (children.foldl (parseChild fromBase64) k).jid = k.jid := by
    intro children
    induction children with
    | nil => intro k; rfl
    | cons c rest ih =>
      intro k
      simp only [List.foldl_cons]
      rw [ih]
      unfold parseChild
      split_ifs <;> rfl
  unfold parse
  rw [h]

end QXmppTrustMessageKeyOwner

namespace QXmppTrustMessageElement

theorem foldl_parseKeyOwner (toBase64 : Bytes → String) (fromBase64 : String → Bytes)
    (hbase64 : ∀ key, fromBase64 (toBase64 key) = key) (owners : List QXmppTrustMessageKeyOwner)
    (d : QXmppTrustMessageElement) :
    (owners.map (fun keyOwner => QXmppTrustMessageKeyOwner.toXml toBase64 ns_tm keyOwner)).foldl
        (parseKeyOwner fromBase64) d =
      { d with keyOwners := d.keyOwners ++ owners } := by
  induction owners generalizing d with
  | nil => simp
  | cons owner rest ih =>
    simp only [List.map_cons, List.foldl_cons]
    rw [ih]
    have hkind : QXmppTrustMessageKeyOwner.isTrustMessageKeyOwner
        (QXmppTrustMessageKeyOwner.toXml toBase64 ns_tm owner) = true := by
      simp [QXmppTrustMessageKeyOwner.isTrustMessageKeyOwner, QXmppTrustMessageKeyOwner.toXml,
        QDomElement.tagName, QDomElement.namespaceURI]
    simp [parseKeyOwner, hkind,
      QXmppTrustMessageKeyOwner.keyOwner_parse_toXml toBase64 fromBase64 hbase64]

theorem filter_keyOwners (toBase64 : Bytes → String) (owners : List QXmppTrustMessageKeyOwner) :
    (owners.map (fun keyOwner => QXmppTrustMessageKeyOwner.toXml toBase64 ns_tm keyOwner)).filter
        (fun child => child.tagName == "key-owner") =
      owners.map (fun keyOwner => QXmppTrustMessageKeyOwner.toXml toBase64 ns_tm keyOwner) := by
  apply List.filter_eq_self.2
  intro child hchild
  obtain ⟨owner, _, rfl⟩ := List.mem_map.1 hchild
  simp [QXmppTrustMessageKeyOwner.toXml, QDomElement.tagName]

end QXmppTrustMessageElement

/-- Parsing a written trust message element into a fresh one gives the element
back, for every pair of conversions such that decoding an encoded key gives
the key back. -/
theorem QXmppTrustMessageElement.parse_toXml_of_codec (toBase64 : Bytes → String)
    (fromBase64 : String → Bytes) (hbase64 : ∀ key, fromBase64 (toBase64 key) = key)
    (d : QXmppTrustMessageElement) :
    QXmppTrustMessageElement.parse fromBase64 QXmppTrustMessageElement.new
      (QXmppTrustMessageElement.toXml toBase64 d) = d := by
  unfold QXmppTrustMessageElement.parse QXmppTrustMessageElement.toXml
  simp only [QDomElement.children]
  rw [QXmppTrustMessageElement.filter_keyOwners,
    QXmppTrustMessageElement.foldl_parseKeyOwner toBase64 fromBase64 hbase64]
  have hne : ¬ ("usage" = "encryption") := by decide
  simp [QXmppTrustMessageElement.new, QDomElement.attributeValue, QDomElement.attributes, hne]

/-! ## Theorems: Base64 -/

namespace QByteArray

theorem base64Value_alphabet : ∀ d : Fin 64, base64Value (alphabet d.val) = some d.val := by
  decide

theorem base64Value_alphabet_lt (d : Nat) (h : d < 64) : base64Value (alphabet d) = some d :=
  base64Value_alphabet ⟨d, h⟩

theorem base64Value_pad : base64Value '=' = none := by
  decide

end QByteArray

namespace QByteArray

theorem decodeChar_alphabet (s : Decoder) (d : Nat) (h : d < 64) :
    decodeChar s (alphabet d) =
      if s.nbits + 6 ≥ 8 then
        { buf := (s.buf * 64 + d) % 2 ^ (s.nbits + 6 - 8)
          nbits := s.nbits + 6 - 8
          output := s.output ++
            [⟨(s.buf * 64 + d) / 2 ^ (s.nbits + 6 - 8) % 256, Nat.mod_lt _ (by decide)⟩] }
      else
        { buf := s.buf * 64 + d, nbits := s.nbits + 6, output := s.output } := by
  simp only [decodeChar, base64Value_alphabet_lt d h]

theorem decodeChar_pad (s : Decoder) : decodeChar s '=' = s := by
  simp only [decodeChar, base64Value_pad]

theorem decode_chunk3 (a b c : Fin 256) (out : Bytes) :
    (encodeChunk (a.val * 65536 + b.val * 256 + c.val) 0).foldl decodeChar
        { buf := 0, nbits := 0, output := out } =
      { buf := 0, nbits := 0, output := out ++ [a, b, c] } := by
  have ha := a.isLt
  have hb := b.isLt
  have hc := c.isLt
  simp only [encodeChunk, List.foldl_cons, List.foldl_nil, gt_iff_lt, Nat.lt_irrefl, if_false,
    Nat.not_lt_zero]
  rw [decodeChar_alphabet _ _ (Nat.mod_lt _ (by decide)),
    decodeChar_alphabet _ _ (Nat.mod_lt _ (by decide)),
    decodeChar_alphabet _ _ (Nat.mod_lt _ (by decide)),
    decodeChar_alphabet _ _ (Nat.mod_lt _ (by decide))]
  simp only [Nat.zero_add, Nat.zero_mul, ge_iff_le, Nat.add_sub_cancel, List.append_assoc,
    List.singleton_append, Decoder.mk.injEq, List.append_cancel_left_eq, List.cons.injEq, and_true]
  norm_num
  refine ⟨by omega, Fin.ext ?_, Fin.ext ?_, Fin.ext ?_⟩
  · show _ % 256 = a.val
    omega
  · show _ % 256 = b.val
    omega
  · show _ % 256 = c.val
    omega

theorem decode_chunk2 (a b : Fin 256) (out : Bytes) :
    ((encodeChunk (a.val * 65536 + b.val * 256) 1).foldl decodeChar
        { buf := 0, nbits := 0, output := out }).output = out ++ [a, b] := by
  have ha := a.isLt
  have hb := b.isLt
  have h1 : ¬ (1 > 1) := by decide
  have h2 : 1 > 0 := by decide
  simp only [encodeChunk, List.foldl_cons, List.foldl_nil, h1, h2, if_false, if_true]
  rw [decodeChar_alphabet _ _ (Nat.mod_lt _ (by decide)),
    decodeChar_alphabet _ _ (Nat.mod_lt _ (by decide)),
    decodeChar_alphabet _ _ (Nat.mod_lt _ (by decide)), decodeChar_pad]
  simp only [Nat.zero_add, Nat.zero_mul, ge_iff_le, Nat.add_sub_cancel, List.append_assoc,
    List.singleton_append, Decoder.mk.injEq, List.append_cancel_left_eq, List.cons.injEq, and_true]
  norm_num
  refine ⟨Fin.ext ?_, Fin.ext ?_⟩
  · show _ % 256 = a.val
    omega
  · show _ % 256 = b.val
    omega

theorem decode_chunk1 (a : Fin 256) (out : Bytes) :
    ((encodeChunk (a.val * 65536) 2).foldl decodeChar
        { buf := 0, nbits := 0, output := out }).output = out ++ [a] := by
  have ha := a.isLt
  have h1 : 2 > 1 := by decide
  have h2 : 2 > 0 := by decide
  simp only [encodeChunk, List.foldl_cons, List.foldl_nil, h1, h2, if_true]
  rw [decodeChar_alphabet _ _ (Nat.mod_lt _ (by decide)),
    decodeChar_alphabet _ _ (Nat.mod_lt _ (by decide)), decodeChar_pad, decodeChar_pad]
  simp only [Nat.zero_add, Nat.zero_mul, ge_iff_le, Nat.add_sub_cancel, List.append_assoc,
    List.singleton_append, Decoder.mk.injEq, List.append_cancel_left_eq, List.cons.injEq, and_true]
  norm_num
  refine Fin.ext ?_
  show _ % 256 = a.val
  omega

/-- Decoding the characters written for some bytes appends these bytes. -/
theorem decode_toBase64Chars (bytes : List (Fin 256)) (out : Bytes) :
    ((toBase64Chars bytes).foldl decodeChar { buf := 0, nbits := 0, output := out }).output =
      out ++ bytes := by
  induction bytes using toBase64Chars.induct generalizing out with
  | case1 => simp [toBase64Chars]
  | case2 a => exact decode_chunk1 a out
  | case3 a b => exact decode_chunk2 a b out
  | case4 a b c rest ih =>
    simp only [toBase64Chars, List.foldl_append]
    rw [decode_chunk3, ih]
    simp

/-- Decoding the Base64 text of a byte array gives the byte array back. -/
theorem fromBase64_toBase64 (bytes : Bytes) : fromBase64 (toBase64 bytes) = bytes := by
  unfold fromBase64 toBase64
  rw [decode_toBase64Chars]
  rfl

end QByteArray

/-- C11: for every trust message element (usage, encryption and key owners,
each with a jid, trusted keys and distrusted keys), parsing the element
written by `toXml` into a fresh trust message element gives the same usage, the
same encryption and the same key owners in the same order, each with the same
jid and the same trusted and distrusted keys, byte for byte and in order. This
holds for the Base64 conversions of `QByteArray`, and for every pair of
conversions such that decoding an encoded key gives the key back. -/
theorem QXmppTrustMessageElement.parse_toXml :
    (∀ d : QXmppTrustMessageElement,
      QXmppTrustMessageElement.parse QByteArray.fromBase64 QXmppTrustMessageElement.new
        (QXmppTrustMessageElement.toXml QByteArray.toBase64 d) = d) ∧
    (∀ (toBase64 : Bytes → String) (fromBase64 : String → Bytes),
      (∀ key, fromBase64 (toBase64 key) = key) →
      ∀ d : QXmppTrustMessageElement,
        QXmppTrustMessageElement.parse fromBase64 QXmppTrustMessageElement.new
          (QXmppTrustMessageElement.toXml toBase64 d) = d) :=
  ⟨QXmppTrustMessageElement.parse_toXml_of_codec QByteArray.toBase64 QByteArray.fromBase64
      QByteArray.fromBase64_toBase64,
    QXmppTrustMessageElement.parse_toXml_of_codec⟩

/-- C11, at a concrete input: the trust message for Alice and Bob is read back
as it was built, and Alice is its first key owner with her bare JID. -/
theorem QXmppTrustMessageElement.parse_toXml_sample :
    QXmppTrustMessageElement.parse QByteArray.fromBase64 QXmppTrustMessageElement.new
        (QXmppTrustMessageElement.toXml QByteArray.toBase64 sampleTrustMessage) =
      sampleTrustMessage ∧
    sampleTrustMessage.keyOwners.map (fun keyOwner => keyOwner.jid) =
      ["alice@example.org", "bob@example.com"] :=
  ⟨QXmppTrustMessageElement.parse_toXml.2 QByteArray.toBase64 QByteArray.fromBase64
      QByteArray.fromBase64_toBase64 sampleTrustMessage,
    by decide⟩

/-- C18: a key owner parsed from a `key-owner` element whose `jid` attribute is
the full JID `alice@example.org/phone` has that full JID as its `jid()`, with
the resource part `phone`: `parse` stores the attribute as it is, while
`setJid` stores the bare JID of its argument. -/
theorem QXmppTrustMessageKeyOwner.parse_keeps_resource :
    (QXmppTrustMessageKeyOwner.parse QByteArray.fromBase64 QXmppTrustMessageKeyOwner.new
        sampleKeyOwnerElement).jid = "alice@example.org/phone" ∧
    QXmppUtils.reference.jidToResource
        (QXmppTrustMessageKeyOwner.parse QByteArray.fromBase64 QXmppTrustMessageKeyOwner.new
          sampleKeyOwnerElement).jid = "phone" ∧
    (QXmppTrustMessageKeyOwner.new.setJid QXmppUtils.reference "alice@example.org/phone").jid =
      "alice@example.org" ∧
    (∀ (u : QXmppUtils) (d : QXmppTrustMessageKeyOwner) (j : String),
      (d.setJid u j).jid = u.jidToBareJid j) ∧
    (∀ (fromBase64 : String → Bytes) (d : QXmppTrustMessageKeyOwner) (element : QDomElement),
      (QXmppTrustMessageKeyOwner.parse fromBase64 d element).jid = element.attributeValue "jid") := by
  refine ⟨?_, ?_, by decide, fun _ _ _ => rfl, QXmppTrustMessageKeyOwner.jid_parse⟩
  · rw [QXmppTrustMessageKeyOwner.jid_parse]
    decide
  · rw [QXmppTrustMessageKeyOwner.jid_parse]
    decide

/-! ## Theorems: entity time payload -/

/-- With an invalid date nothing but the empty `time` element is written, so
what is parsed does not depend on the offset that was set. -/
theorem QXmppEntityTimeIq.parseElementFromChild_toXml_invalid
    (timezoneOffsetToString : Int → String) (datetimeToString : QDateTime → String)
    (timezoneOffsetFromString : String → Int) (datetimeFromString : String → QDateTime)
    (d fresh : QXmppEntityTimeIq) (tagName namespaceURI text : String)
    (attributes : List (String × String)) (hinvalid : d.utc.isValid = false) :
    QXmppEntityTimeIq.toXmlElementFromChild timezoneOffsetToString datetimeToString d =
        .mk "time" ns_entity_time [] "" [] ∧
    (QXmppEntityTimeIq.parseElementFromChild timezoneOffsetFromString datetimeFromString fresh
        (.mk tagName namespaceURI attributes text
          [QXmppEntityTimeIq.toXmlElementFromChild timezoneOffsetToString datetimeToString d])).tzo =
      timezoneOffsetFromString "" := by
  have hxml : QXmppEntityTimeIq.toXmlElementFromChild timezoneOffsetToString datetimeToString d =
      .mk "time" ns_entity_time [] "" [] := by
    simp [QXmppEntityTimeIq.toXmlElementFromChild, hinvalid]
  refine ⟨hxml, ?_⟩
  rw [hxml]
  simp [QXmppEntityTimeIq.parseElementFromChild, QDomElement.firstChildElement,
    QDomElement.children, QDomElement.tagName, QDomElement.text, QDomElement.null]

namespace QXmppUtils

theorem digitValue_digitChar (k : Nat) : digitValue (digitChar k) = some (k % 10) := by
  have h : k % 10 < 10 := Nat.mod_lt _ (by decide)
  unfold digitChar
  generalize k % 10 = r at h
  interval_cases r <;> rfl

theorem number2_digitChar (n : Nat) (h : n < 100) :
    number2 (digitChar (n / 10)) (digitChar n) = some n := by
  simp only [number2, digitValue_digitChar]
  congr 1
  omega

theorem number3_digitChar (n : Nat) (h : n < 1000) :
    number3 (digitChar (n / 100)) (digitChar (n / 10)) (digitChar n) = some n := by
  simp only [number3, digitValue_digitChar]
  congr 1
  omega

theorem number4_digitChar (n : Nat) (h : n < 10000) :
    number4 (digitChar (n / 1000)) (digitChar (n / 100)) (digitChar (n / 10)) (digitChar n) =
      some n := by
  simp only [number4, number2, digitValue_digitChar]
  congr 1
  omega

theorem timezoneOffsetFromString_toString (secs : Int) (hminutes : secs % 60 = 0)
    (hday : -86400 < secs ∧ secs < 86400) :
    timezoneOffsetFromString (timezoneOffsetToString secs) = secs := by
  unfold timezoneOffsetToString
  by_cases h0 : secs = 0
  · rw [if_pos h0, h0]
    rfl
  · rw [if_neg h0]
    have hh : secs.natAbs / 3600 % 24 < 100 := by omega
    have hm : secs.natAbs / 60 % 60 < 100 := by omega
    simp only [timezoneOffsetFromString, number2_digitChar _ hh, number2_digitChar _ hm]
    by_cases hneg : secs < 0
    · simp only [hneg, if_true]
      omega
    · simp only [hneg, if_false]
      have : ¬ ('+' = '-') := by decide
      simp only [this, if_false, if_true]
      omega

theorem month_day (doy : Nat) (h : doy ≤ 365) :
    1 ≤ doy - (153 * ((5 * doy + 2) / 153) + 2) / 5 + 1 ∧
    doy - (153 * ((5 * doy + 2) / 153) + 2) / 5 + 1 ≤ 31 ∧
    (5 * doy + 2) / 153 ≤ 11 ∧
    (153 * ((5 * doy + 2) / 153) + 2) / 5 +
      (doy - (153 * ((5 * doy + 2) / 153) + 2) / 5 + 1) - 1 = doy := by
  omega

theorem year_days (era century cycle yoq : Nat) (hcentury : century ≤ 3) (hcycle : cycle ≤ 24)
    (hyoq : yoq ≤ 3) :
    (400 * era + 100 * century + 4 * cycle + yoq) / 400 = era ∧
    (400 * era + 100 * century + 4 * cycle + yoq) % 400 = 100 * century + 4 * cycle + yoq ∧
    (100 * century + 4 * cycle + yoq) / 4 = 25 * century + cycle ∧
    (100 * century + 4 * cycle + yoq) / 100 = century := by
  omega

theorem daysFromCivil_civilFromDays (z : Nat) :
    daysFromCivil (civilFromDays z).1 (civilFromDays z).2.1 (civilFromDays z).2.2 = z := by
  simp only [daysFromCivil, civilFromDays]
  have hz : z = z / 146097 * 146097 + z % 146097 := by omega
  have h1 : z % 146097 < 146097 := by omega
  generalize z / 146097 = era at *
  generalize z % 146097 = doe at *
  subst hz
  have hc : (if doe / 36524 < 3 then doe / 36524 else 3) ≤ 3 ∧
      36524 * (if doe / 36524 < 3 then doe / 36524 else 3) ≤ doe ∧
      doe - 36524 * (if doe / 36524 < 3 then doe / 36524 else 3) ≤ 36524 := by
    split_ifs <;> omega
  generalize (if doe / 36524 < 3 then doe / 36524 else 3) = century at *
  have hd : doe = 36524 * century + (doe - 36524 * century) := by omega
  generalize doe - 36524 * century = doc at *
  subst hd
  have hq : doc / 1461 ≤ 24 ∧ doc = 1461 * (doc / 1461) + doc % 1461 ∧ doc % 1461 < 1461 := by
    omega
  generalize doc / 1461 = cycle at *
  generalize doc % 1461 = doq at *
  obtain ⟨hq1, hq2, hq3⟩ := hq
  subst hq2
  have hy : (if doq / 365 < 3 then doq / 365 else 3) ≤ 3 ∧
      365 * (if doq / 365 < 3 then doq / 365 else 3) ≤ doq ∧
      doq - 365 * (if doq / 365 < 3 then doq / 365 else 3) ≤ 365 := by
    split_ifs <;> omega
  generalize (if doq / 365 < 3 then doq / 365 else 3) = yoq at *
  have hdq : doq = 365 * yoq + (doq - 365 * yoq) := by omega
  generalize doq - 365 * yoq = doy at *
  subst hdq
  obtain ⟨hm1, hm2, hm3, hm4⟩ := month_day doy hy.2.2
  obtain ⟨hy1, hy2, hy3, hy4⟩ := year_days era century cycle yoq hc.1 hq1 hy.1
  generalize (5 * doy + 2) / 153 = mp at *
  by_cases hmp : mp < 10
  · have hmonth : ¬ mp + 3 ≤ 2 := by omega
    simp only [hmp, hmonth, if_true, if_false, Nat.add_sub_cancel, Nat.add_zero, hy1, hy2, hy3,
      hy4]
    omega
  · have hmonth : mp - 9 ≤ 2 := by omega
    have h9 : mp - 9 + 9 = mp := by omega
    simp only [hmp, hmonth, if_true, if_false, Nat.add_sub_cancel, h9, hy1, hy2, hy3, hy4]
    omega

theorem civilFromDays_range (z : Nat) (hlo : 306 ≤ z) (hhi : z < 306 + 3652059) :
    1 ≤ (civilFromDays z).1 ∧ (civilFromDays z).1 < 10000 ∧
    1 ≤ (civilFromDays z).2.1 ∧ (civilFromDays z).2.1 ≤ 12 ∧
    1 ≤ (civilFromDays z).2.2 ∧ (civilFromDays z).2.2 ≤ 31 := by
  simp only [civilFromDays]
  have hz : z = z / 146097 * 146097 + z % 146097 := by omega
  have h1 : z % 146097 < 146097 := by omega
  generalize z / 146097 = era at *
  generalize z % 146097 = doe at *
  subst hz
  have hc : (if doe / 36524 < 3 then doe / 36524 else 3) ≤ 3 ∧
      36524 * (if doe / 36524 < 3 then doe / 36524 else 3) ≤ doe ∧
      doe - 36524 * (if doe / 36524 < 3 then doe / 36524 else 3) ≤ 36524 := by
    split_ifs <;> omega
  generalize (if doe / 36524 < 3 then doe / 36524 else 3) = century at *
  have hd : doe = 36524 * century + (doe - 36524 * century) := by omega
  generalize doe - 36524 * century = doc at *
  subst hd
  have hq : doc / 1461 ≤ 24 ∧ doc = 1461 * (doc / 1461) + doc % 1461 ∧ doc % 1461 < 1461 := by
    omega
  generalize doc / 1461 = cycle at *
  generalize doc % 1461 = doq at *
  obtain ⟨hq1, hq2, hq3⟩ := hq
  subst hq2
  have hy : (if doq / 365 < 3 then doq / 365 else 3) ≤ 3 ∧
      365 * (if doq / 365 < 3 then doq / 365 else 3) ≤ doq ∧
      doq - 365 * (if doq / 365 < 3 then doq / 365 else 3) ≤ 365 := by
    split_ifs <;> omega
  generalize (if doq / 365 < 3 then doq / 365 else 3) = yoq at *
  have hdq : doq = 365 * yoq + (doq - 365 * yoq) := by omega
  generalize doq - 365 * yoq = doy at *
  subst hdq
  obtain ⟨hm1, hm2, hm3, hm4⟩ := month_day doy hy.2.2
  have hmp : 153 * ((5 * doy + 2) / 153) ≤ 5 * doy + 2 ∧
      5 * doy + 2 < 153 * ((5 * doy + 2) / 153) + 153 := by omega
  generalize (5 * doy + 2) / 153 = mp at *
  split_ifs <;> omega

theorem datetimeFromString_toString (dt : QDateTime) (hvalid : dt.isValid = true)
    (hlo : -epochMsecs ≤ dt.msecsSinceEpoch)
    (hhi : dt.msecsSinceEpoch < 315537897600000 - epochMsecs) :
    datetimeFromString (datetimeToString dt) = dt.toUTC := by
  have hcond : dt.toUTC.isValid = true ∧ -epochMsecs ≤ dt.toUTC.msecsSinceEpoch ∧
      dt.toUTC.msecsSinceEpoch < 315537897600000 - epochMsecs := ⟨hvalid, hlo, hhi⟩
  unfold datetimeToString
  simp only [hcond, and_self, if_true]
  have hm : ((dt.toUTC.msecsSinceEpoch + epochMsecs).toNat : Int) =
      dt.msecsSinceEpoch + epochMsecs := by
    simp only [QDateTime.toUTC]
    unfold epochMsecs at *
    omega
  have hb : (dt.toUTC.msecsSinceEpoch + epochMsecs).toNat < 315537897600000 := by
    unfold epochMsecs at *
    omega
  generalize (dt.toUTC.msecsSinceEpoch + epochMsecs).toNat = msecs at *
  obtain ⟨r1, r2, r3, r4, r5, r6⟩ :=
    civilFromDays_range (msecs / 86400000 + 306) (by omega) (by omega)
  have hdays := daysFromCivil_civilFromDays (msecs / 86400000 + 306)
  generalize hdate : civilFromDays (msecs / 86400000 + 306) = date at *
  obtain ⟨year, month, day⟩ := date
  simp only at r1 r2 r3 r4 r5 r6 hdays
  have hsplit : msecs = msecs / 86400000 * 86400000 + msecs % 86400000 := by omega
  have ht : msecs % 86400000 < 86400000 := Nat.mod_lt _ (by decide)
  generalize msecs / 86400000 = days at *
  generalize msecs % 86400000 = time at *
  have n1 := number4_digitChar year r2
  have n2 := number2_digitChar month (by omega)
  have n3 := number2_digitChar day (by omega)
  have n4 := number2_digitChar (time / 3600000) (by omega)
  have n5 := number2_digitChar (time / 60000 % 60) (by omega)
  have n6 := number2_digitChar (time / 1000 % 60) (by omega)
  have n7 := number3_digitChar (time % 1000) (by omega)
  have hfields : 1 ≤ year ∧ civilFromDays (daysFromCivil year month day) = (year, month, day) ∧
      time / 3600000 < 24 ∧ time / 60000 % 60 < 60 ∧ time / 1000 % 60 < 60 :=
    ⟨r1, by rw [hdays]; exact hdate, by omega, by omega, by omega⟩
  have hresult : ∀ z : Nat, z = time % 1000 →
      utcDateTime year month day (time / 3600000) (time / 60000 % 60) (time / 1000 % 60) z =
        dt.toUTC := by
    intro z hz
    unfold utcDateTime
    rw [if_pos hfields, hdays]
    cases dt with
    | mk isValid msecsSinceEpoch offsetFromUtc =>
      simp only [QDateTime.toUTC] at *
      subst hvalid
      congr 1
      unfold epochMsecs at *
      omega
  by_cases hz : time % 1000 = 0
  · simp only [hz, if_true, List.append_nil, List.cons_append, List.nil_append,
      datetimeFromString, n1, n2, n3, n4, n5, n6]
    exact hresult 0 hz.symm
  · simp only [hz, if_false, List.cons_append, List.nil_append,
      datetimeFromString, n1, n2, n3, n4, n5, n6, n7]
    exact hresult _ rfl

end QXmppUtils

/-- With a valid date the `time` element carries the two texts written by the
conversions, and parsing converts exactly these two texts back. -/
theorem QXmppEntityTimeIq.parseElementFromChild_toXml_of_conversions
    (timezoneOffsetToString : Int → String) (datetimeToString : QDateTime → String)
    (timezoneOffsetFromString : String → Int) (datetimeFromString : String → QDateTime)
    (d fresh : QXmppEntityTimeIq) (tagName namespaceURI text : String)
    (attributes : List (String × String)) (hvalid : d.utc.isValid = true) :
    (QXmppEntityTimeIq.parseElementFromChild timezoneOffsetFromString datetimeFromString fresh
        (.mk tagName namespaceURI attributes text
          [QXmppEntityTimeIq.toXmlElementFromChild timezoneOffsetToString datetimeToString d])).tzo =
      timezoneOffsetFromString (timezoneOffsetToString d.tzo) ∧
    (QXmppEntityTimeIq.parseElementFromChild timezoneOffsetFromString datetimeFromString fresh
        (.mk tagName namespaceURI attributes text
          [QXmppEntityTimeIq.toXmlElementFromChild timezoneOffsetToString datetimeToString d])).utc =
      datetimeFromString (datetimeToString d.utc) := by
  constructor
  · simp [QXmppEntityTimeIq.parseElementFromChild, QXmppEntityTimeIq.toXmlElementFromChild,
      QDomElement.firstChildElement, QDomElement.children, QDomElement.tagName, QDomElement.text,
      QXmlStreamWriter.textElement, hvalid]
  · have hne : ¬ ("tzo" = "utc") := by decide
    simp [QXmppEntityTimeIq.parseElementFromChild, QXmppEntityTimeIq.toXmlElementFromChild,
      QDomElement.firstChildElement, QDomElement.children, QDomElement.tagName, QDomElement.text,
      QXmlStreamWriter.textElement, hvalid, hne]

/-- C12, as stated, fails. With an invalid date the payload written is the
empty `time` element, and the offset 3600 is read back as 0. With a valid date,
the offset 30 is written as `+00:00` and read back as 0, and the offset 90000
(25 hours) is written as `+01:00` and read back as 3600. The first instant of
the year 10000 and the last instant before the year 1 have no text of the
profile: the `utc` element is empty and an invalid date is read back. -/
theorem QXmppEntityTimeIq.roundtrip_loses_fields :
    QXmppEntityTimeIq.toXmlElementFromChild QXmppUtils.timezoneOffsetToString
        QXmppUtils.datetimeToString
        ((QXmppEntityTimeIq.new.setTzo 3600).setUtc
          { isValid := false, msecsSinceEpoch := 0, offsetFromUtc := 0 }) =
      .mk "time" "urn:xmpp:time" [] "" [] ∧
    (QXmppEntityTimeIq.parseElementFromChild QXmppUtils.timezoneOffsetFromString
        QXmppUtils.datetimeFromString QXmppEntityTimeIq.new
        (sampleIqWith
          (QXmppEntityTimeIq.toXmlElementFromChild QXmppUtils.timezoneOffsetToString
            QXmppUtils.datetimeToString
            ((QXmppEntityTimeIq.new.setTzo 3600).setUtc
              { isValid := false, msecsSinceEpoch := 0, offsetFromUtc := 0 })))).tzo = 0 ∧
    QXmppUtils.timezoneOffsetToString 30 = "+00:00" ∧
    (QXmppEntityTimeIq.parseElementFromChild QXmppUtils.timezoneOffsetFromString
        QXmppUtils.datetimeFromString QXmppEntityTimeIq.new
        (sampleIqWith
          (QXmppEntityTimeIq.toXmlElementFromChild QXmppUtils.timezoneOffsetToString
            QXmppUtils.datetimeToString
            ((QXmppEntityTimeIq.new.setTzo 30).setUtc sampleEpoch)))).tzo = 0 ∧
    QXmppUtils.timezoneOffsetToString 90000 = "+01:00" ∧
    (QXmppEntityTimeIq.parseElementFromChild QXmppUtils.timezoneOffsetFromString
        QXmppUtils.datetimeFromString QXmppEntityTimeIq.new
        (sampleIqWith
          (QXmppEntityTimeIq.toXmlElementFromChild QXmppUtils.timezoneOffsetToString
            QXmppUtils.datetimeToString
            ((QXmppEntityTimeIq.new.setTzo 90000).setUtc sampleEpoch)))).tzo = 3600 ∧
    (QXmppEntityTimeIq.parseElementFromChild QXmppUtils.timezoneOffsetFromString
        QXmppUtils.datetimeFromString QXmppEntityTimeIq.new
        (sampleIqWith
          (QXmppEntityTimeIq.toXmlElementFromChild QXmppUtils.timezoneOffsetToString
            QXmppUtils.datetimeToString
            ((QXmppEntityTimeIq.new.setTzo 0).setUtc
              { isValid := true, msecsSinceEpoch := 253402300800000,
                offsetFromUtc := 0 })))).utc.isValid = false ∧
    (QXmppEntityTimeIq.parseElementFromChild QXmppUtils.timezoneOffsetFromString
        QXmppUtils.datetimeFromString QXmppEntityTimeIq.new
        (sampleIqWith
          (QXmppEntityTimeIq.toXmlElementFromChild QXmppUtils.timezoneOffsetToString
            QXmppUtils.datetimeToString
            ((QXmppEntityTimeIq.new.setTzo 0).setUtc
              { isValid := true, msecsSinceEpoch := -62135596800001,
                offsetFromUtc := 0 })))).utc.isValid = false := by
  refine ⟨rfl, ?_, ?_, ?_, ?_, ?_, ?_, ?_⟩ <;> decide

/-- C12, amended: for an entity time iq whose fields are set through `setTzo`
and `setUtc`, with a valid date between 0001-01-01T00:00:00.000Z and
9999-12-31T23:59:59.999Z and an offset that is a whole number of minutes of
less than 24 hours in absolute value, parsing the payload written by
`toXmlElementFromChild` with `parseElementFromChild` yields the same offset and
the same date: the instant that was set, in UTC, which is the date that was set
when that was in UTC. -/
theorem QXmppEntityTimeIq.parseElementFromChild_toXml (d fresh : QXmppEntityTimeIq) (tzo : Int)
    (utc : QDateTime) (tagName namespaceURI text : String) (attributes : List (String × String))
    (hvalid : utc.isValid = true)
    (hrange : -62135596800000 ≤ utc.msecsSinceEpoch ∧ utc.msecsSinceEpoch ≤ 253402300799999)
    (hminutes : tzo % 60 = 0) (hday : -86400 < tzo ∧ tzo < 86400) :
    (QXmppEntityTimeIq.parseElementFromChild QXmppUtils.timezoneOffsetFromString
        QXmppUtils.datetimeFromString fresh
        (.mk tagName namespaceURI attributes text
          [QXmppEntityTimeIq.toXmlElementFromChild QXmppUtils.timezoneOffsetToString
            QXmppUtils.datetimeToString ((d.setTzo tzo).setUtc utc)])).tzo = tzo ∧
    (QXmppEntityTimeIq.parseElementFromChild QXmppUtils.timezoneOffsetFromString
        QXmppUtils.datetimeFromString fresh
        (.mk tagName namespaceURI attributes text
          [QXmppEntityTimeIq.toXmlElementFromChild QXmppUtils.timezoneOffsetToString
            QXmppUtils.datetimeToString ((d.setTzo tzo).setUtc utc)])).utc =
      { isValid := true, msecsSinceEpoch := utc.msecsSinceEpoch, offsetFromUtc := 0 } ∧
    (utc.offsetFromUtc = 0 →
      (QXmppEntityTimeIq.parseElementFromChild QXmppUtils.timezoneOffsetFromString
          QXmppUtils.datetimeFromString fresh
          (.mk tagName namespaceURI attributes text
            [QXmppEntityTimeIq.toXmlElementFromChild QXmppUtils.timezoneOffsetToString
              QXmppUtils.datetimeToString ((d.setTzo tzo).setUtc utc)])).utc = utc) := by
  have hv : ((d.setTzo tzo).setUtc utc).utc.isValid = true := hvalid
  obtain ⟨h1, h2⟩ := QXmppEntityTimeIq.parseElementFromChild_toXml_of_conversions
    QXmppUtils.timezoneOffsetToString QXmppUtils.datetimeToString
    QXmppUtils.timezoneOffsetFromString QXmppUtils.datetimeFromString
    ((d.setTzo tzo).setUtc utc) fresh tagName namespaceURI text attributes hv
  have htzo : QXmppUtils.timezoneOffsetFromString (QXmppUtils.timezoneOffsetToString tzo) = tzo :=
    QXmppUtils.timezoneOffsetFromString_toString tzo hminutes hday
  have hutc : QXmppUtils.datetimeFromString (QXmppUtils.datetimeToString utc) = utc.toUTC :=
    QXmppUtils.datetimeFromString_toString utc hvalid
      (by unfold QXmppUtils.epochMsecs; omega) (by unfold QXmppUtils.epochMsecs; omega)
  have htoUTC : utc.toUTC =
      { isValid := true, msecsSinceEpoch := utc.msecsSinceEpoch, offsetFromUtc := 0 } := by
    unfold QDateTime.toUTC
    rw [hvalid]
  rw [h1, h2]
  refine ⟨htzo, hutc.trans htoUTC, ?_⟩
  intro hoffset
  show QXmppUtils.datetimeFromString (QXmppUtils.datetimeToString utc) = utc
  rw [hutc]
  cases utc with
  | mk isValid msecsSinceEpoch offsetFromUtc =>
    simp only [QDateTime.toUTC] at *
    rw [hoffset]

/-- C12, amended, at concrete inputs: the offset -19800 and the instant
1000000 s after the epoch are written as `-05:30` and `1970-01-12T13:46:40Z`
and read back as they were set; the instant of the presence test is written as
`1969-07-21T02:56:15Z`. -/
theorem QXmppEntityTimeIq.parseElementFromChild_toXml_sample :
    ((QXmppEntityTimeIq.parseElementFromChild QXmppUtils.timezoneOffsetFromString
        QXmppUtils.datetimeFromString QXmppEntityTimeIq.new
        (sampleIqWith
          (QXmppEntityTimeIq.toXmlElementFromChild QXmppUtils.timezoneOffsetToString
            QXmppUtils.datetimeToString
            ((QXmppEntityTimeIq.new.setTzo (-19800)).setUtc sampleUtc)))).tzo = -19800 ∧
      (QXmppEntityTimeIq.parseElementFromChild QXmppUtils.timezoneOffsetFromString
        QXmppUtils.datetimeFromString QXmppEntityTimeIq.new
        (sampleIqWith
          (QXmppEntityTimeIq.toXmlElementFromChild QXmppUtils.timezoneOffsetToString
            QXmppUtils.datetimeToString
            ((QXmppEntityTimeIq.new.setTzo (-19800)).setUtc sampleUtc)))).utc = sampleUtc) ∧
    QXmppUtils.timezoneOffsetToString (-19800) = "-05:30" ∧
    QXmppUtils.datetimeToString sampleUtc = "1970-01-12T13:46:40Z" ∧
    QXmppUtils.datetimeToString
        { isValid := true, msecsSinceEpoch := -14159025000, offsetFromUtc := 0 } =
      "1969-07-21T02:56:15Z" :=
  ⟨⟨(QXmppEntityTimeIq.parseElementFromChild_toXml QXmppEntityTimeIq.new QXmppEntityTimeIq.new
        (-19800) sampleUtc "iq" "jabber:client" "" [("type", "result"), ("id", "t1")]
        (by decide) (by decide) (by decide) (by decide)).1,
      (QXmppEntityTimeIq.parseElementFromChild_toXml QXmppEntityTimeIq.new QXmppEntityTimeIq.new
        (-19800) sampleUtc "iq" "jabber:client" "" [("type", "result"), ("id", "t1")]
        (by decide) (by decide) (by decide) (by decide)).2.2 rfl⟩,
    by decide, by decide, by decide⟩

/-! ## Theorems: local routes, client connections, dialback -/

namespace QXmppServer

theorem endsWith_dot_self (domain : String) : QString.endsWith domain ("." ++ domain) = false := by
  unfold QString.endsWith
  rw [Bool.eq_false_iff]
  intro h
  have hs := (List.isSuffixOf_iff_suffix).1 h
  have hlen := hs.length_le
  simp [String.data_append] at hlen

theorem perform_nil (server : QXmppServer) : server.perform [] = server := by
  simp [perform]

theorem deliveredTo_sendData (found : List Nat) (data : QByteArray) :
    deliveredTo (found.map (fun conn => QXmppServer.Effect.sendData conn data)) = found := by
  induction found with
  | nil => rfl
  | cons x xs ih => simp [deliveredTo, ih]

/-- The value of `routeData` on the branch for the server's own domain. -/
theorem routeData_own_domain (u : QXmppUtils) (server : QXmppServer) (toJid : String)
    (data : QByteArray) (hdomain : u.jidToDomain toJid = server.d.domain)
    (h1 : toJid ≠ "") (h2 : toJid ≠ server.d.domain) :
    routeData u server toJid data =
      (!(selected u server toJid).isEmpty,
        server.perform ((selected u server toJid).map (fun conn => .sendData conn data))) := by
  unfold routeData selected
  simp only
  rw [if_neg (by
    rintro (h | h | h)
    · exact h1 h
    · exact h2 h
    · rw [hdomain, endsWith_dot_self] at h
      exact absurd h (by decide)), if_pos hdomain]

end QXmppServer

/-- C21: for a destination whose domain is the server's domain, `routeData`
hands the data to the selected connections, once each and in order, and to no
other connection, and changes nothing else; the selected connections are the
one registered under the full JID when the destination has a resource, and
those registered under the bare JID when it has none; the value returned is
true if and only if a connection was selected. (For the empty destination and
the bare domain, which `routeData` refuses, this assumes that no connection is
registered under them.) -/
theorem QXmppServer.routeData_local_delivery (u : QXmppUtils) (server : QXmppServer)
    (toJid : String) (data : QByteArray) (hdomain : u.jidToDomain toJid = server.d.domain)
    (hrefused : toJid = "" ∨ toJid = server.d.domain → QXmppServer.selected u server toJid = []) :
    (QXmppServer.routeData u server toJid data).2.trace =
        server.trace ++
          (QXmppServer.selected u server toJid).map (fun conn => .sendData conn data) ∧
    QXmppServer.deliveredTo
        ((QXmppServer.routeData u server toJid data).2.trace.drop server.trace.length) =
      QXmppServer.selected u server toJid ∧
    ((QXmppServer.routeData u server toJid data).1 = true ↔
      QXmppServer.selected u server toJid ≠ []) ∧
    (QXmppServer.routeData u server toJid data).2.d = server.d ∧
    (u.jidToResource toJid ≠ "" →
      QXmppServer.selected u server toJid = (QXmppServer.registered server toJid).toList) ∧
    (u.jidToResource toJid = "" →
      QXmppServer.selected u server toJid = QXmppServer.registeredBare server toJid) := by
  have hvalue : QXmppServer.routeData u server toJid data =
      (!(QXmppServer.selected u server toJid).isEmpty,
        server.perform
          ((QXmppServer.selected u server toJid).map (fun conn => .sendData conn data))) := by
    by_cases h : toJid = "" ∨ toJid = server.d.domain
    · rw [QXmppServer.routeData_refused u server toJid data (by
        rcases h with h | h
        · exact Or.inl h
        · exact Or.inr (Or.inl h)), hrefused h]
      simp [QXmppServer.perform_nil]
    · exact QXmppServer.routeData_own_domain u server toJid data hdomain
        (fun e => h (Or.inl e)) (fun e => h (Or.inr e))
  rw [hvalue]
  refine ⟨rfl, ?_, ?_, rfl, ?_, ?_⟩
  · simp [QXmppServer.perform, QXmppServer.deliveredTo_sendData]
  · cases QXmppServer.selected u server toJid <;> simp
  · intro hres
    unfold QXmppServer.selected QXmppServer.registered
    rw [if_neg hres]
    cases server.d.incomingClientsByJid.find? (fun kv => kv.1 == toJid) <;> rfl
  · intro hres
    unfold QXmppServer.selected QXmppServer.registeredBare
    rw [if_pos hres]

/-- C21, at concrete inputs: with the streams 1 and 2 connected for Alice, data
for her bare JID goes to 1 and 2, data for `alice@example.org/pc` to 2 only. -/
theorem QXmppServer.routeData_local_delivery_sample :
    QXmppServer.deliveredTo
        ((QXmppServer.routeData QXmppUtils.reference QXmppServer.sampleRoutingServer
          "alice@example.org" (.literal "data")).2.trace.drop
          QXmppServer.sampleRoutingServer.trace.length) = [1, 2] ∧
    QXmppServer.deliveredTo
        ((QXmppServer.routeData QXmppUtils.reference QXmppServer.sampleRoutingServer
          "alice@example.org/pc" (.literal "data")).2.trace.drop
          QXmppServer.sampleRoutingServer.trace.length) = [2] :=
  ⟨(QXmppServer.routeData_local_delivery QXmppUtils.reference QXmppServer.sampleRoutingServer
      "alice@example.org" (.literal "data") (by decide) (by decide)).2.1.trans (by decide),
    (QXmppServer.routeData_local_delivery QXmppUtils.reference QXmppServer.sampleRoutingServer
      "alice@example.org/pc" (.literal "data") (by decide) (by decide)).2.1.trans (by decide)⟩

namespace QXmppServer

theorem domain_clientConnected (u : QXmppUtils) (server : QXmppServer) (client : Nat)
    (jid : String) : (server._q_clientConnected u (some client) jid).d.domain = server.d.domain := by
  simp only [_q_clientConnected, perform]
  split
  · split_ifs <;> rfl
  · rfl

theorem registered_clientConnected (u : QXmppUtils) (server : QXmppServer) (client : Nat)
    (jid : String) : registered (server._q_clientConnected u (some client) jid) jid = some client := by
  simp only [_q_clientConnected, perform, registered]
  simp

theorem registeredBare_clientConnected (u : QXmppUtils) (server : QXmppServer) (client : Nat)
    (jid : String) :
    client ∈ registeredBare (server._q_clientConnected u (some client) jid) (u.jidToBareJid jid) := by
  simp only [_q_clientConnected, perform, registeredBare]
  simp only [List.find?_cons, beq_self_eq_true]
  split_ifs with h
  · simpa using h
  · simp

theorem trace_clientConnected_conflict (u : QXmppUtils) (server : QXmppServer) (client old : Nat)
    (jid : String) (hold : registered server jid = some old) (hne : old ≠ client) :
    (server._q_clientConnected u (some client) jid).trace =
      server.trace ++
        [.sendData old (.literal conflictStreamError), .disconnectFromHost old,
          .emitClientConnected jid] := by
  unfold registered at hold
  simp only [_q_clientConnected, perform]
  split at hold
  · rename_i kv hfind
    have hkv : kv.2 = old := by simpa using hold
    simp only [hfind, hkv, hne, ne_eq, not_false_eq_true, if_true]
    simp
  · exact absurd hold (by simp)

theorem trace_clientConnected_free (u : QXmppUtils) (server : QXmppServer) (client : Nat)
    (jid : String) (hfree : registered server jid = none ∨ registered server jid = some client) :
    (server._q_clientConnected u (some client) jid).trace =
      server.trace ++ [.emitClientConnected jid] := by
  unfold registered at hfree
  simp only [_q_clientConnected, perform]
  split at hfree
  · rename_i kv hfind
    have hkv : kv.2 = client := by simpa using hfree
    simp only [hfind, hkv, ne_eq, not_true_eq_false, if_false]
  · rename_i hfind
    simp only [hfind]

/-- A disconnecting stream does not unregister another stream's full JID. -/
theorem registered_clientDisconnected (u : QXmppUtils) (server : QXmppServer) (client old : Nat)
    (jid : String) (hreg : registered server jid = some client) (hne : old ≠ client) :
    registered (server._q_clientDisconnected u (some old) jid) jid = some client ∧
    (server._q_clientDisconnected u (some old) jid).d.domain = server.d.domain := by
  unfold registered at hreg
  split at hreg
  · rename_i kv hfind
    have hkv : kv.2 = client := by simpa using hreg
    have hkv2 : ¬ kv.2 = old := by rw [hkv]; exact fun e => hne e.symm
    simp only [_q_clientDisconnected, perform, registered]
    split_ifs
    · simp only [hfind, hkv2, if_false]
      exact ⟨by rw [hkv], trivial⟩
    · simp only [hfind]
      exact ⟨by rw [hkv], trivial⟩
    · simp only [hfind]
      exact ⟨by rw [hkv], trivial⟩
  · exact absurd hreg (by simp)

/-- Data for a full JID of the server's domain goes to the stream registered
under it, and to no other. -/
theorem routeData_registered (u : QXmppUtils) (server : QXmppServer) (client : Nat)
    (jid : String) (data : QByteArray) (hreg : registered server jid = some client)
    (hdomain : u.jidToDomain jid = server.d.domain) (hres : u.jidToResource jid ≠ "")
    (h1 : jid ≠ "") (h2 : jid ≠ server.d.domain) :
    routeData u server jid data = (true, server.perform [.sendData client data]) := by
  rw [routeData_own_domain u server jid data hdomain h1 h2]
  have hsel : selected u server jid = [client] := by
    unfold registered at hreg
    unfold selected
    rw [if_neg hres]
    split at hreg
    · rename_i kv hfind
      have hkv : kv.2 = client := by simpa using hreg
      simp only [hfind, hkv]
    · exact absurd hreg (by simp)
  rw [hsel]
  rfl

end QXmppServer

/-- C22: when a client stream `c` connects with JID `j`, a different stream
registered under `j` is sent the conflict stream error exactly once and is
disconnected (and nothing is sent when there is none); afterwards the full-JID
table maps `j` to `c` and `c` is in the set registered under the bare JID of
`j`. When `j` is a full JID of the server's domain, data routed to `j` is
handed to `c` and to no other stream, also after the replaced stream has
disconnected. -/
theorem QXmppServer.clientConnected_replaces (u : QXmppUtils) (server : QXmppServer) (c : Nat)
    (j : String) :
    (∀ old, QXmppServer.registered server j = some old → old ≠ c →
      (server._q_clientConnected u (some c) j).trace =
        server.trace ++
          [.sendData old (.literal QXmppServer.conflictStreamError), .disconnectFromHost old,
            .emitClientConnected j]) ∧
    (QXmppServer.registered server j = none ∨ QXmppServer.registered server j = some c →
      (server._q_clientConnected u (some c) j).trace =
        server.trace ++ [.emitClientConnected j]) ∧
    QXmppServer.registered (server._q_clientConnected u (some c) j) j = some c ∧
    c ∈ QXmppServer.registeredBare (server._q_clientConnected u (some c) j) (u.jidToBareJid j) ∧
    (u.jidToDomain j = server.d.domain → u.jidToResource j ≠ "" → j ≠ "" → j ≠ server.d.domain →
      ∀ data,
        QXmppServer.routeData u (server._q_clientConnected u (some c) j) j data =
          (true, (server._q_clientConnected u (some c) j).perform [.sendData c data]) ∧
        ∀ old, old ≠ c →
          QXmppServer.routeData u
              ((server._q_clientConnected u (some c) j)._q_clientDisconnected u (some old) j) j data =
            (true,
              ((server._q_clientConnected u (some c) j)._q_clientDisconnected u (some old) j).perform
                [.sendData c data])) := by
  refine ⟨fun old hold hne => QXmppServer.trace_clientConnected_conflict u server c old j hold hne,
    QXmppServer.trace_clientConnected_free u server c j,
    QXmppServer.registered_clientConnected u server c j,
    QXmppServer.registeredBare_clientConnected u server c j, ?_⟩
  intro hdomain hres h1 h2 data
  have hd := QXmppServer.domain_clientConnected u server c j
  have hreg := QXmppServer.registered_clientConnected u server c j
  refine ⟨QXmppServer.routeData_registered u _ c j data hreg (by rw [hd]; exact hdomain) hres h1
    (by rw [hd]; exact h2), ?_⟩
  intro old hne
  obtain ⟨hreg2, hd2⟩ := QXmppServer.registered_clientDisconnected u _ c old j hreg hne
  exact QXmppServer.routeData_registered u _ c j data hreg2 (by rw [hd2, hd]; exact hdomain) hres h1
    (by rw [hd2, hd]; exact h2)

/-- C22, at a concrete input: with the streams 1 and 2 connected for Alice,
stream 3 connects as `alice@example.org/pc`; stream 2 is sent the conflict
stream error and disconnected, and data for that JID is accepted for stream 3. -/
theorem QXmppServer.clientConnected_replaces_sample :
    (QXmppServer.sampleRoutingServer._q_clientConnected QXmppUtils.reference (some 3)
        "alice@example.org/pc").trace =
      QXmppServer.sampleRoutingServer.trace ++
        [.sendData 2 (.literal QXmppServer.conflictStreamError), .disconnectFromHost 2,
          .emitClientConnected "alice@example.org/pc"] ∧
    QXmppServer.routeData QXmppUtils.reference
        (QXmppServer.sampleRoutingServer._q_clientConnected QXmppUtils.reference (some 3)
          "alice@example.org/pc") "alice@example.org/pc" (.literal "data") =
      (true,
        (QXmppServer.sampleRoutingServer._q_clientConnected QXmppUtils.reference (some 3)
          "alice@example.org/pc").perform [.sendData 3 (.literal "data")]) :=
  ⟨(QXmppServer.clientConnected_replaces QXmppUtils.reference QXmppServer.sampleRoutingServer 3
      "alice@example.org/pc").1 2 (by decide) (by decide),
    ((QXmppServer.clientConnected_replaces QXmppUtils.reference QXmppServer.sampleRoutingServer 3
      "alice@example.org/pc").2.2.2.2 (by decide) (by decide) (by decide) (by decide)
      (.literal "data")).1⟩

/-- C25: for a dialback request with command Verify, if an outgoing server
stream with the request's `from` as remote domain exists, exactly one packet
is sent, on the requesting stream: a verify response with the request's id,
`to` the request's `from`, `from` the server domain, and type `valid` if and
only if the request's key equals the local stream key of that outgoing stream
(`invalid` otherwise); if no such stream exists, or the command is not
Verify, nothing is sent and nothing changes. -/
theorem QXmppServer.dialback_verify (server : QXmppServer) (stream : Nat)
    (dialback : QXmppDialback) :
    (dialback.command = .Verify →
      ∀ out,
        server.d.outgoingServers.find? (fun o => o.remoteDomain == dialback.fromJid) = some out →
        (server._q_dialbackRequestReceived (some stream) dialback).trace =
            server.trace ++
              [.sendDialback stream
                { command := .Verify
                  id := dialback.id
                  toJid := dialback.fromJid
                  fromJid := server.d.domain
                  key := ""
                  type := if dialback.key = out.localStreamKey then "valid" else "invalid" }] ∧
          QXmppServer.sentDialbacks
              ((server._q_dialbackRequestReceived (some stream) dialback).trace.drop
                server.trace.length) =
            [(stream, QXmppServer.verifyResponse server dialback out)] ∧
          ((QXmppServer.verifyResponse server dialback out).type = "valid" ↔
            dialback.key = out.localStreamKey) ∧
          (dialback.key ≠ out.localStreamKey →
            (QXmppServer.verifyResponse server dialback out).type = "invalid")) ∧
    (dialback.command = .Verify →
      (∀ o ∈ server.d.outgoingServers, o.remoteDomain ≠ dialback.fromJid) →
      server._q_dialbackRequestReceived (some stream) dialback = server) ∧
    (dialback.command ≠ .Verify →
      server._q_dialbackRequestReceived (some stream) dialback = server) := by
  refine ⟨?_, ?_, ?_⟩
  · intro hcmd out hfind
    have htrace : (server._q_dialbackRequestReceived (some stream) dialback).trace =
        server.trace ++ [.sendDialback stream (QXmppServer.verifyResponse server dialback out)] := by
      simp only [QXmppServer._q_dialbackRequestReceived, hcmd, if_true, hfind, QXmppServer.perform]
    refine ⟨htrace, ?_, ?_, ?_⟩
    · rw [htrace]
      simp [QXmppServer.sentDialbacks]
    · unfold QXmppServer.verifyResponse
      by_cases hkey : dialback.key = out.localStreamKey
      · simp [hkey]
      · simp [hkey]
    · intro hkey
      simp [QXmppServer.verifyResponse, hkey]
  · intro hcmd hnone
    have hfind : server.d.outgoingServers.find? (fun o => o.remoteDomain == dialback.fromJid) =
        none := by
      rw [List.find?_eq_none]
      intro o ho
      simpa using hnone o ho
    simp only [QXmppServer._q_dialbackRequestReceived, hcmd, if_true, hfind]
  · intro hcmd
    simp only [QXmppServer._q_dialbackRequestReceived, hcmd, if_false]

/-- C25, at concrete inputs: the server holding an outgoing stream to
`example.com` with key `secret` answers a verify request with that key by
`valid`, and sends nothing for a request from `example.net`. -/
theorem QXmppServer.dialback_verify_sample :
    QXmppServer.sentDialbacks
        ((QXmppServer.sampleDialbackServer._q_dialbackRequestReceived (some 5)
          { command := .Verify, id := "d1", toJid := "example.org", fromJid := "example.com",
            key := "secret", type := "" }).trace.drop QXmppServer.sampleDialbackServer.trace.length) =
      [(5, { command := .Verify, id := "d1", toJid := "example.com", fromJid := "example.org",
             key := "", type := "valid" })] ∧
    QXmppServer.sampleDialbackServer._q_dialbackRequestReceived (some 5)
        { command := .Verify, id := "d2", toJid := "example.org", fromJid := "example.net",
          key := "secret", type := "" } = QXmppServer.sampleDialbackServer :=
  ⟨((QXmppServer.dialback_verify QXmppServer.sampleDialbackServer 5
      { command := .Verify, id := "d1", toJid := "example.org", fromJid := "example.com",
        key := "secret", type := "" }).1 rfl
      { ptr := 7, remoteDomain := "example.com", localStreamKey := "secret" } (by decide)).2.1,
    (QXmppServer.dialback_verify QXmppServer.sampleDialbackServer 5
      { command := .Verify, id := "d2", toJid := "example.org", fromJid := "example.net",
        key := "secret", type := "" }).2.1 rfl (by decide)⟩

/-! ## Theorems: termination of a call -/

namespace QXmppCallPrivate

theorem terminate_finished (d : QXmppCallPrivate) (id : String)
    (reasonType : QXmppJingleIq.Reason.Type)
    (h : d.state = .DisconnectingState ∨ d.state = .FinishedState) :
    d.terminate id reasonType = d := by
  unfold terminate
  rw [if_pos h]

theorem terminate_live (d : QXmppCallPrivate) (id : String)
    (reasonType : QXmppJingleIq.Reason.Type)
    (h : ¬ (d.state = .DisconnectingState ∨ d.state = .FinishedState)) :
    d.terminate id reasonType =
      { d with
        requests := d.requests ++ [d.terminateRequest id reasonType]
        state := .DisconnectingState
        trace :=
          d.trace ++
            [.sendPacket (d.terminateRequest id reasonType),
             .emitStateChanged .DisconnectingState,
             .singleShot 5000 .terminated] } := by
  have hne : d.state ≠ .DisconnectingState := fun e => h (Or.inl e)
  unfold terminate
  rw [if_neg h]
  simp [sendRequest, setState, perform, hne]

theorem sentRequests_drop_append (t e : List QXmppCall.Effect) :
    sentRequests ((t ++ e).drop t.length) = sentRequests e := by
  rw [List.drop_left]

end QXmppCallPrivate

/-- C26: `terminate` in `DisconnectingState` or `FinishedState` changes nothing
(no request sent, state and outstanding requests as before); in any other state
it appends exactly one session-terminate request to the outstanding requests,
sends exactly that request and moves the call to `DisconnectingState`. A second
`hangup()` right after a first one changes nothing, and two consecutive
`hangup()` calls on a call that was not yet disconnecting or finished send
exactly one session-terminate; on any call they send at most one. -/
theorem QXmppCallPrivate.hangup_idempotent (d : QXmppCallPrivate) (id id2 : String)
    (reasonType : QXmppJingleIq.Reason.Type) :
    (d.state = .DisconnectingState ∨ d.state = .FinishedState →
      d.terminate id reasonType = d) ∧
    (¬ (d.state = .DisconnectingState ∨ d.state = .FinishedState) →
      (d.terminate id reasonType).requests = d.requests ++ [d.terminateRequest id reasonType] ∧
      (d.terminateRequest id reasonType).action = .SessionTerminate ∧
      (d.terminate id reasonType).state = .DisconnectingState ∧
      QXmppCallPrivate.sentRequests ((d.terminate id reasonType).trace.drop d.trace.length) =
        [d.terminateRequest id reasonType]) ∧
    (d.hangup id).hangup id2 = d.hangup id ∧
    (¬ (d.state = .DisconnectingState ∨ d.state = .FinishedState) →
      QXmppCallPrivate.sentTerminates d ((d.hangup id).hangup id2) =
        [d.terminateRequest id .None]) ∧
    (QXmppCallPrivate.sentTerminates d ((d.hangup id).hangup id2)).length ≤ 1 := by
  have hsecond : (d.hangup id).hangup id2 = d.hangup id := by
    unfold QXmppCallPrivate.hangup
    by_cases h : d.state = .DisconnectingState ∨ d.state = .FinishedState
    · rw [QXmppCallPrivate.terminate_finished d id .None h,
        QXmppCallPrivate.terminate_finished d id2 .None h]
    · apply QXmppCallPrivate.terminate_finished
      left
      rw [QXmppCallPrivate.terminate_live d id .None h]
  have hlive : ¬ (d.state = .DisconnectingState ∨ d.state = .FinishedState) →
      QXmppCallPrivate.sentTerminates d ((d.hangup id).hangup id2) =
        [d.terminateRequest id .None] := by
    intro h
    rw [hsecond]
    unfold QXmppCallPrivate.hangup QXmppCallPrivate.sentTerminates
    rw [QXmppCallPrivate.terminate_live d id .None h]
    simp only []
    rw [QXmppCallPrivate.sentRequests_drop_append]
    simp [QXmppCallPrivate.sentRequests, QXmppCallPrivate.terminateRequest]
  refine ⟨QXmppCallPrivate.terminate_finished d id reasonType, ?_, hsecond, hlive, ?_⟩
  · intro h
    rw [QXmppCallPrivate.terminate_live d id reasonType h]
    refine ⟨rfl, rfl, rfl, ?_⟩
    simp only []
    rw [QXmppCallPrivate.sentRequests_drop_append]
    simp [QXmppCallPrivate.sentRequests]
  · by_cases h : d.state = .DisconnectingState ∨ d.state = .FinishedState
    · rw [hsecond]
      unfold QXmppCallPrivate.hangup
      rw [QXmppCallPrivate.terminate_finished d id .None h]
      simp [QXmppCallPrivate.sentTerminates, QXmppCallPrivate.sentRequests]
    · rw [hlive h]
      simp

/-- C26, at concrete inputs: hanging up the connecting sample call twice sends
one session-terminate and leaves three outstanding requests; a finished call is
left as it is. -/
theorem QXmppCallPrivate.hangup_idempotent_sample :
    ({ sampleCall with state := .FinishedState }.terminate "x" .None =
      { sampleCall with state := .FinishedState }) ∧
    (sampleCall.terminate "x" .None).requests =
      sampleCall.requests ++ [sampleCall.terminateRequest "x" .None] ∧
    (sampleCall.terminate "x" .None).state = .DisconnectingState ∧
    (sampleCall.hangup "x").hangup "y" = sampleCall.hangup "x" ∧
    QXmppCallPrivate.sentTerminates sampleCall ((sampleCall.hangup "x").hangup "y") =
      [sampleCall.terminateRequest "x" .None] :=
  ⟨(QXmppCallPrivate.hangup_idempotent { sampleCall with state := .FinishedState } "x" "y" .None).1
      (Or.inr rfl),
    ((QXmppCallPrivate.hangup_idempotent sampleCall "x" "y" .None).2.1 (by decide)).1,
    ((QXmppCallPrivate.hangup_idempotent sampleCall "x" "y" .None).2.1 (by decide)).2.2.1,
    (QXmppCallPrivate.hangup_idempotent sampleCall "x" "y" .None).2.2.1,
    (QXmppCallPrivate.hangup_idempotent sampleCall "x" "y" .None).2.2.2.1 (by decide)⟩

/-! ## Theorems: remote descriptions -/

namespace QXmppCallPrivate

theorem audioCodecs_handleDescription (env : QXmppCall.Platform) (d : QXmppCallPrivate)
    (stream : QXmppCallStream) (content : QXmppJingleIq.Content) :
    (d.handleDescription env stream content).1.audioCodecs = d.audioCodecs := by
  unfold handleDescription
  simp only []
  split_ifs <;> rfl

theorem videoCodecs_handleDescription (env : QXmppCall.Platform) (d : QXmppCallPrivate)
    (stream : QXmppCallStream) (content : QXmppJingleIq.Content) :
    (d.handleDescription env stream content).1.videoCodecs = d.videoCodecs := by
  unfold handleDescription
  simp only []
  split_ifs <;> rfl

end QXmppCallPrivate

/-- C24: `handleDescription` leaves `audioCodecs` and `videoCodecs` as they
were, whatever the remote content: the assignments `codec.pt = it->id()` and
`codec.name = it->name()` are made to the local list `codecs`, which is a copy.
For the sample call with the local codecs Opus (pt 96) and PCMU (pt 0, name
`pcmu`) and the remote content offering Opus as payload type 111 and payload
type 0 under the name `PCMU`, both payload types are accepted, the copy of the
round for 111 holds Opus with pt 111 and the copy of the round for 0 holds the
name `PCMU`, and after the call `audioCodecs` still holds Opus with pt 96 and
the name `pcmu`. -/
theorem QXmppCallPrivate.handleDescription_keeps_codecs :
    (∀ (env : QXmppCall.Platform) (d : QXmppCallPrivate) (stream : QXmppCallStream)
        (content : QXmppJingleIq.Content),
      (d.handleDescription env stream content).1.audioCodecs = d.audioCodecs ∧
      (d.handleDescription env stream content).1.videoCodecs = d.videoCodecs) ∧
    (sampleOutgoingCall.handleDescription samplePlatform sampleStream sampleRemoteContent).2 =
      true ∧
    ((sampleOutgoingCall.handleDescription samplePlatform sampleStream
        sampleRemoteContent).1.streams.map (fun s => s.payloadTypes.map (fun p => p.id))) =
      [[111, 0]] ∧
    (QXmppCallPrivate.matchPayloadType samplePlatform sampleOutgoingCall sampleStream
        { id := 111, name := "opus", channels := 2, clockrate := 48000 } false).codecs.map
        (fun codec => (codec.pt, codec.name)) = [(111, "opus"), (0, "pcmu")] ∧
    (QXmppCallPrivate.matchPayloadType samplePlatform sampleOutgoingCall sampleStream
        { id := 0, name := "PCMU", channels := 1, clockrate := 8000 } true).codecs.map
        (fun codec => (codec.pt, codec.name)) = [(96, "opus"), (0, "PCMU")] ∧
    (sampleOutgoingCall.handleDescription samplePlatform sampleStream
        sampleRemoteContent).1.audioCodecs.map (fun codec => (codec.pt, codec.name)) =
      [(96, "opus"), (0, "pcmu")] := by
  refine ⟨fun env d stream content =>
      ⟨QXmppCallPrivate.audioCodecs_handleDescription env d stream content,
        QXmppCallPrivate.videoCodecs_handleDescription env d stream content⟩,
    by decide, by decide, by decide, by decide, ?_⟩
  rw [QXmppCallPrivate.audioCodecs_handleDescription]
  decide

/-! ## Theorems: acknowledgement of Jingle requests -/

namespace QXmppCallPrivate

theorem acks_append (a b : List QXmppCall.Effect) : acks (a ++ b) = acks a ++ acks b := by
  induction a with
  | nil => rfl
  | cons e rest ih => cases e <;> simp [acks, ih]

theorem noAck_refl (d : QXmppCallPrivate) : ∃ e, d.trace = d.trace ++ e ∧ acks e = [] :=
  ⟨[], by simp, rfl⟩

theorem noAck_trans {a b c : QXmppCallPrivate}
    (hab : ∃ e, b.trace = a.trace ++ e ∧ acks e = [])
    (hbc : ∃ e, c.trace = b.trace ++ e ∧ acks e = []) :
    ∃ e, c.trace = a.trace ++ e ∧ acks e = [] := by
  obtain ⟨e1, h1, k1⟩ := hab
  obtain ⟨e2, h2, k2⟩ := hbc
  exact ⟨e1 ++ e2, by rw [h2, h1, List.append_assoc], by rw [acks_append, k1, k2]; rfl⟩

theorem noAck_perform (d : QXmppCallPrivate) (effects : List QXmppCall.Effect)
    (h : acks effects = []) : ∃ e, (d.perform effects).trace = d.trace ++ e ∧ acks e = [] :=
  ⟨effects, rfl, h⟩

theorem noAck_setState (d : QXmppCallPrivate) (newState : QXmppCall.State) :
    ∃ e, (d.setState newState).trace = d.trace ++ e ∧ acks e = [] := by
  unfold setState
  split_ifs
  · exact ⟨[.emitStateChanged newState, .emitConnected], by simp [perform], rfl⟩
  · exact ⟨[.emitStateChanged newState, .emitFinished], by simp [perform], rfl⟩
  · exact ⟨[.emitStateChanged newState], by simp [perform], rfl⟩
  · exact noAck_refl d

theorem acks_closeConnection (streams : List QXmppCallStream) :
    acks (streams.map (fun stream => QXmppCall.Effect.closeConnection stream.id)) = [] := by
  induction streams with
  | nil => rfl
  | cons s rest ih => simpa [acks] using ih

theorem noAck_terminated (d : QXmppCallPrivate) :
    ∃ e, d.terminated.trace = d.trace ++ e ∧ acks e = [] := by
  unfold terminated
  exact noAck_trans (noAck_perform d _ (acks_closeConnection d.streams)) (noAck_setState _ _)

theorem noAck_sendRequest (d : QXmppCallPrivate) (iq : QXmppJingleIq) :
    ∃ e, (d.sendRequest iq).trace = d.trace ++ e ∧ acks e = [] :=
  ⟨[.sendPacket iq], rfl, rfl⟩

theorem noAck_terminate (d : QXmppCallPrivate) (id : String)
    (reasonType : QXmppJingleIq.Reason.Type) :
    ∃ e, (d.terminate id reasonType).trace = d.trace ++ e ∧ acks e = [] := by
  unfold terminate
  split_ifs
  · exact noAck_refl d
  · exact noAck_trans (noAck_trans (noAck_sendRequest d _) (noAck_setState _ _))
      (noAck_perform _ _ rfl)

theorem acks_matchCodec (stream : Nat) (it : QXmppJinglePayloadType) (dynamic : Bool)
    (loop : DescriptionLoop) (codec : GstCodec) (h : acks loop.effects = []) :
    acks (matchCodec stream it dynamic loop codec).effects = [] := by
  unfold matchCodec
  split_ifs <;> simp [acks_append, h, acks]

theorem acks_foldl_matchCodec (stream : Nat) (it : QXmppJinglePayloadType) (dynamic : Bool)
    (codecs : List GstCodec) (loop : DescriptionLoop) (h : acks loop.effects = []) :
    acks (codecs.foldl (matchCodec stream it dynamic) loop).effects = [] := by
  induction codecs generalizing loop with
  | nil => exact h
  | cons codec rest ih => exact ih _ (acks_matchCodec stream it dynamic loop codec h)

theorem acks_filterPayloadTypes (env : QXmppCall.Platform) (d : QXmppCallPrivate)
    (stream : QXmppCallStream) (payloadTypes : List QXmppJinglePayloadType)
    (foundCandidate : Bool) :
    acks (filterPayloadTypes env d stream payloadTypes foundCandidate).2.2 = [] := by
  induction payloadTypes generalizing foundCandidate with
  | nil => rfl
  | cons it rest ih =>
    simp only [filterPayloadTypes]
    rw [acks_append, ih, List.append_nil]
    unfold matchPayloadType
    exact acks_foldl_matchCodec _ _ _ _ _ rfl

theorem noAck_handleDescription (env : QXmppCall.Platform) (d : QXmppCallPrivate)
    (stream : QXmppCallStream) (content : QXmppJingleIq.Content) :
    ∃ e, (d.handleDescription env stream content).1.trace = d.trace ++ e ∧ acks e = [] := by
  unfold handleDescription
  simp only []
  split_ifs
  · exact noAck_trans
      (noAck_perform (d.setPayloadTypes stream _) _ (acks_filterPayloadTypes env d stream _ false))
      (noAck_perform _ _ rfl)
  · exact noAck_perform (d.setPayloadTypes stream _) _ (acks_filterPayloadTypes env d stream _ false)

theorem acks_addRemoteCandidate (stream : Nat) (candidates : List QXmppJingleCandidate) :
    acks (candidates.map (fun candidate => QXmppCall.Effect.addRemoteCandidate stream candidate)) =
      [] := by
  induction candidates with
  | nil => rfl
  | cons c rest ih => simpa [acks] using ih

theorem noAck_handleTransport (d : QXmppCallPrivate) (stream : QXmppCallStream)
    (content : QXmppJingleIq.Content) :
    ∃ e, (d.handleTransport stream content).1.trace = d.trace ++ e ∧ acks e = [] := by
  have h : acks ([QXmppCall.Effect.setRemoteUser stream.id content.transportUser,
      .setRemotePassword stream.id content.transportPassword] ++
      content.transportCandidates.map (fun candidate => .addRemoteCandidate stream.id candidate)) =
      [] := by
    rw [acks_append, acks_addRemoteCandidate]
    rfl
  unfold handleTransport
  simp only []
  split_ifs
  · exact noAck_trans (noAck_perform d _ h) (noAck_perform _ _ rfl)
  · exact noAck_perform d _ h

theorem noAck_createStream (env : QXmppCall.Platform) (d : QXmppCallPrivate)
    (media creator name : String) :
    ∃ e, (d.createStream env media creator name).1.trace = d.trace ++ e ∧ acks e = [] := by
  unfold createStream
  split_ifs
  all_goals exact noAck_perform d _ rfl

theorem sentAcks_of_noAck (d after : QXmppCallPrivate) (iq : QXmppJingleIq)
    (h : ∃ e, after.trace = (d.sendAck iq).trace ++ e ∧ acks e = []) :
    sentAcks d after = [ackFor iq] := by
  obtain ⟨e, he, hk⟩ := h
  unfold sentAcks
  rw [he]
  simp only [sendAck, perform, List.append_assoc, List.drop_left]
  rw [acks_append, hk]
  rfl

theorem noAck_handleRequest_sessionAccept (env : QXmppCall.Platform) (d : QXmppCallPrivate)
    (id : String) (iq : QXmppJingleIq) (hact : iq.action = .SessionAccept)
    (hdir : d.direction = .OutgoingDirection) :
    ∃ e, (d.handleRequest env id iq).trace = (d.sendAck iq).trace ++ e ∧ acks e = [] := by
  have hd : ¬ d.direction = .IncomingDirection := by rw [hdir]; decide
  unfold handleRequest
  simp only [hact, if_true, hd, if_false]
  split
  · exact noAck_terminate _ _ _
  · split_ifs
    · exact noAck_trans (noAck_handleDescription _ _ _ _) (noAck_terminate _ _ _)
    · exact noAck_trans (noAck_handleDescription _ _ _ _)
        (noAck_trans (noAck_handleTransport _ _ _) (noAck_terminate _ _ _))
    · exact noAck_trans (noAck_handleDescription _ _ _ _)
        (noAck_trans (noAck_handleTransport _ _ _) (noAck_setState _ _))

theorem noAck_answerContentAdd (env : QXmppCall.Platform) (d : QXmppCallPrivate) (id : String)
    (stream : QXmppCallStream) (content : QXmppJingleIq.Content) :
    ∃ e, (d.answerContentAdd env id stream content).trace = d.trace ++ e ∧ acks e = [] := by
  have hd := noAck_handleDescription env d stream content
  have ht := noAck_handleTransport (d.handleDescription env stream content).1 stream content
  have hdel : ∀ (x : QXmppCallPrivate) (streams : List QXmppCallStream),
      ∃ e, ({ x with streams := streams }.perform [.deleteStream stream.id]).trace =
        x.trace ++ e ∧ acks e = [] := fun x streams => ⟨[.deleteStream stream.id], rfl, rfl⟩
  unfold answerContentAdd
  simp only []
  split_ifs
  · exact noAck_trans hd (noAck_trans (noAck_sendRequest _ _) (hdel _ _))
  · exact noAck_trans hd (noAck_trans ht (noAck_trans (noAck_sendRequest _ _) (hdel _ _)))
  · exact noAck_trans hd (noAck_trans ht (noAck_sendRequest _ _))

theorem noAck_handleRequest_sessionTerminate (env : QXmppCall.Platform) (d : QXmppCallPrivate)
    (id : String) (iq : QXmppJingleIq) (hact : iq.action = .SessionTerminate) :
    ∃ e, (d.handleRequest env id iq).trace = (d.sendAck iq).trace ++ e ∧ acks e = [] := by
  unfold handleRequest
  simp only [hact, reduceCtorEq, if_true, if_false]
  have h1 : ∃ e, ((d.sendAck iq).perform
      [.info ("Remote party " ++ iq.fromJid ++ " terminated call " ++ iq.sid)]).trace =
      (d.sendAck iq).trace ++ e ∧ acks e = [] := noAck_perform _ _ rfl
  exact noAck_trans h1 (noAck_terminated _)

theorem noAck_handleRequest_contentAccept (env : QXmppCall.Platform) (d : QXmppCallPrivate)
    (id : String) (iq : QXmppJingleIq) (hact : iq.action = .ContentAccept) :
    ∃ e, (d.handleRequest env id iq).trace = (d.sendAck iq).trace ++ e ∧ acks e = [] := by
  unfold handleRequest
  simp only [hact, reduceCtorEq, if_true, if_false]
  split
  · exact noAck_refl _
  · split_ifs
    · exact noAck_handleDescription _ _ _ _
    · exact noAck_trans (noAck_handleDescription _ _ _ _) (noAck_handleTransport _ _ _)

theorem noAck_handleRequest_transportInfo (env : QXmppCall.Platform) (d : QXmppCallPrivate)
    (id : String) (iq : QXmppJingleIq) (hact : iq.action = .TransportInfo) :
    ∃ e, (d.handleRequest env id iq).trace = (d.sendAck iq).trace ++ e ∧ acks e = [] := by
  unfold handleRequest
  simp only [hact, reduceCtorEq, if_true, if_false]
  split
  · exact noAck_refl _
  · exact noAck_handleTransport _ _ _

theorem noAck_handleRequest_contentAdd (env : QXmppCall.Platform) (d : QXmppCallPrivate)
    (id : String) (iq : QXmppJingleIq) (hact : iq.action = .ContentAdd) :
    ∃ e, (d.handleRequest env id iq).trace = (d.sendAck iq).trace ++ e ∧ acks e = [] := by
  unfold handleRequest
  simp only [hact, reduceCtorEq, if_true, if_false]
  split
  · exact noAck_refl _
  · split
    · rename_i d2 heq
      have h1 := congrArg Prod.fst heq
      simp only at h1
      rw [← h1]
      exact noAck_createStream _ _ _ _ _
    · rename_i d2 stream heq
      have h : ∃ e, d2.trace = (d.sendAck iq).trace ++ e ∧ acks e = [] := by
        have h1 := congrArg Prod.fst heq
        simp only at h1
        rw [← h1]
        exact noAck_createStream _ _ _ _ _
      have h2 := noAck_answerContentAdd env { d2 with streams := d2.streams ++ [stream] } id stream
        (match iq.contents with
          | [] => QXmppJingleIq.Content.new
          | first :: _ => first)
      exact noAck_trans h h2

end QXmppCallPrivate

/-- C23, counterexample: a session-accept passed to `handleRequest` of an
incoming call is ignored with a warning; no acknowledgement is sent. -/
theorem QXmppCallPrivate.handleRequest_sessionAccept_incoming_unacknowledged :
    (sampleJingleRequest .SessionAccept).type = .Set ∧
    sampleIncomingCall.direction = .IncomingDirection ∧
    (sampleIncomingCall.handleRequest samplePlatform "q1" (sampleJingleRequest .SessionAccept)).trace =
      [.warning "Ignoring Session-Accept for an incoming call"] ∧
    QXmppCallPrivate.sentAcks sampleIncomingCall
        (sampleIncomingCall.handleRequest samplePlatform "q1" (sampleJingleRequest .SessionAccept)) =
      [] := by
  decide

/-- C23, amended: for a Jingle iq whose action is session-terminate,
content-accept, content-add or transport-info, or session-accept when the call
is outgoing, `handleRequest` sends exactly one acknowledgement, whatever the
state of the call: an iq of type result with the request's id, addressed to the
sender of the request. A session-accept for an incoming call is ignored with a
warning and no acknowledgement is sent. -/
theorem QXmppCallPrivate.handleRequest_acknowledges (env : QXmppCall.Platform)
    (d : QXmppCallPrivate) (id : String) (iq : QXmppJingleIq) :
    (iq.action = .SessionTerminate ∨ iq.action = .ContentAccept ∨ iq.action = .ContentAdd ∨
        iq.action = .TransportInfo ∨
        (iq.action = .SessionAccept ∧ d.direction = .OutgoingDirection) →
      QXmppCallPrivate.sentAcks d (d.handleRequest env id iq) = [QXmppCallPrivate.ackFor iq] ∧
      (QXmppCallPrivate.ackFor iq).type = .Result ∧
      (QXmppCallPrivate.ackFor iq).id = iq.id ∧
      (QXmppCallPrivate.ackFor iq).toJid = iq.fromJid) ∧
    (iq.action = .SessionAccept ∧ d.direction = .IncomingDirection →
      d.handleRequest env id iq =
        d.perform [.warning "Ignoring Session-Accept for an incoming call"] ∧
      QXmppCallPrivate.sentAcks d (d.handleRequest env id iq) = []) := by
  constructor
  · intro hact
    refine ⟨?_, rfl, rfl, rfl⟩
    apply QXmppCallPrivate.sentAcks_of_noAck
    rcases hact with h | h | h | h | ⟨h, hdir⟩
    · exact QXmppCallPrivate.noAck_handleRequest_sessionTerminate env d id iq h
    · exact QXmppCallPrivate.noAck_handleRequest_contentAccept env d id iq h
    · exact QXmppCallPrivate.noAck_handleRequest_contentAdd env d id iq h
    · exact QXmppCallPrivate.noAck_handleRequest_transportInfo env d id iq h
    · exact QXmppCallPrivate.noAck_handleRequest_sessionAccept env d id iq h hdir
  · rintro ⟨hact, hdir⟩
    have h : d.handleRequest env id iq =
        d.perform [.warning "Ignoring Session-Accept for an incoming call"] := by
      unfold QXmppCallPrivate.handleRequest
      simp only [hact, hdir, if_true]
    refine ⟨h, ?_⟩
    rw [h]
    simp [QXmppCallPrivate.sentAcks, QXmppCallPrivate.perform, QXmppCallPrivate.acks]

/-- C23, amended, at concrete inputs: the outgoing sample call acknowledges a
session-accept once, the incoming sample call acknowledges a content-add and a
session-terminate once each and does not acknowledge a session-accept. -/
theorem QXmppCallPrivate.handleRequest_acknowledges_sample :
    QXmppCallPrivate.sentAcks sampleOutgoingCall
        (sampleOutgoingCall.handleRequest samplePlatform "q1" (sampleJingleRequest .SessionAccept)) =
      [QXmppCallPrivate.ackFor (sampleJingleRequest .SessionAccept)] ∧
    QXmppCallPrivate.sentAcks sampleIncomingCall
        (sampleIncomingCall.handleRequest samplePlatform "q1" (sampleJingleRequest .ContentAdd)) =
      [QXmppCallPrivate.ackFor (sampleJingleRequest .ContentAdd)] ∧
    QXmppCallPrivate.sentAcks sampleIncomingCall
        (sampleIncomingCall.handleRequest samplePlatform "q1"
          (sampleJingleRequest .SessionTerminate)) =
      [QXmppCallPrivate.ackFor (sampleJingleRequest .SessionTerminate)] ∧
    QXmppCallPrivate.sentAcks sampleIncomingCall
        (sampleIncomingCall.handleRequest samplePlatform "q1" (sampleJingleRequest .SessionAccept)) =
      [] :=
  ⟨((QXmppCallPrivate.handleRequest_acknowledges samplePlatform sampleOutgoingCall "q1"
        (sampleJingleRequest .SessionAccept)).1
      (Or.inr (Or.inr (Or.inr (Or.inr ⟨rfl, rfl⟩))))).1,
    ((QXmppCallPrivate.handleRequest_acknowledges samplePlatform sampleIncomingCall "q1"
        (sampleJingleRequest .ContentAdd)).1 (Or.inr (Or.inr (Or.inl rfl)))).1,
    ((QXmppCallPrivate.handleRequest_acknowledges samplePlatform sampleIncomingCall "q1"
        (sampleJingleRequest .SessionTerminate)).1 (Or.inl rfl)).1,
    ((QXmppCallPrivate.handleRequest_acknowledges samplePlatform sampleIncomingCall "q1"
        (sampleJingleRequest .SessionAccept)).2 ⟨rfl, rfl⟩).2⟩

/-! ## Theorems: `QXmppClient::send` -/

/-- C27: with an encryption extension set, `send` passes a message to
`encryptMessage` and an iq to `encryptIq`; when the extension delivers encrypted
bytes, the stream is handed exactly one packet holding those bytes, and when it
delivers an error, the stream is handed nothing and the returned future gets
`reportResult` with that error followed by `reportFinished`. In both cases the
stanza object of the message or iq itself is never handed to the stream. A
presence is handed to the stream as it is. -/
theorem QXmppClient.send_encrypts (extension : QXmppE2eeExtension) :
    (∀ (message : QXmppMessage) (bytes : String),
      extension.encryptMessage message = .xml bytes →
      (QXmppClient.send (some extension) (.message message)).handed = [.packet bytes]) ∧
    (∀ (iq : QXmppIq) (bytes : String),
      extension.encryptIq iq = .xml bytes →
      (QXmppClient.send (some extension) (.iq iq)).handed = [.packet bytes]) ∧
    (∀ (message : QXmppMessage) (err : QXmpp.SendError),
      extension.encryptMessage message = .error err →
      (QXmppClient.send (some extension) (.message message)).handed = [] ∧
      (QXmppClient.send (some extension) (.message message)).future =
        .ofInterface [.reportResult err, .reportFinished]) ∧
    (∀ (iq : QXmppIq) (err : QXmpp.SendError),
      extension.encryptIq iq = .error err →
      (QXmppClient.send (some extension) (.iq iq)).handed = [] ∧
      (QXmppClient.send (some extension) (.iq iq)).future =
        .ofInterface [.reportResult err, .reportFinished]) ∧
    (∀ (stanza : QXmppStanza),
      ∀ handed ∈ (QXmppClient.send (some extension) stanza).handed,
        handed.isPlainMessageOrIq = false) ∧
    (∀ (presence : QXmppPresence),
      (QXmppClient.send (some extension) (.presence presence)).handed =
        [.stanza (.presence presence)]) := by
  refine ⟨?_, ?_, ?_, ?_, ?_, fun _ => rfl⟩
  · intro message bytes h
    simp [QXmppClient.send, QXmppClient.sendEncrypted, h]
  · intro iq bytes h
    simp [QXmppClient.send, QXmppClient.sendEncrypted, h]
  · intro message err h
    simp [QXmppClient.send, QXmppClient.sendEncrypted, h]
  · intro iq err h
    simp [QXmppClient.send, QXmppClient.sendEncrypted, h]
  · intro stanza handed hmem
    cases stanza with
    | message message =>
      simp only [QXmppClient.send, QXmppClient.sendEncrypted] at hmem
      cases h : extension.encryptMessage message with
      | xml bytes =>
        rw [h] at hmem
        simp only [List.mem_singleton] at hmem
        rw [hmem]
        rfl
      | error err =>
        rw [h] at hmem
        simp at hmem
    | iq iq =>
      simp only [QXmppClient.send, QXmppClient.sendEncrypted] at hmem
      cases h : extension.encryptIq iq with
      | xml bytes =>
        rw [h] at hmem
        simp only [List.mem_singleton] at hmem
        rw [hmem]
        rfl
      | error err =>
        rw [h] at hmem
        simp at hmem
    | presence presence =>
      simp only [QXmppClient.send, List.mem_singleton] at hmem
      rw [hmem]
      rfl

/-- C27, at concrete inputs: with the sample extension, which encrypts messages
and fails on iqs, the stream is handed the encrypted bytes of the message and
nothing for the iq, whose future reports the error. -/
theorem QXmppClient.send_encrypts_sample :
    (QXmppClient.send (some sampleE2eeExtension) (.message sampleSecretMessage)).handed =
      [.packet "<message><encrypted xmlns='urn:xmpp:omemo:2'/></message>"] ∧
    (QXmppClient.send (some sampleE2eeExtension) (.iq (QXmppIq.new .Get))).handed = [] ∧
    (QXmppClient.send (some sampleE2eeExtension) (.iq (QXmppIq.new .Get))).future =
      .ofInterface
        [.reportResult { text := "No session", type := .EncryptionError }, .reportFinished] :=
  ⟨(QXmppClient.send_encrypts sampleE2eeExtension).1 sampleSecretMessage _ rfl,
    ((QXmppClient.send_encrypts sampleE2eeExtension).2.2.2.1 (QXmppIq.new .Get) _ rfl).1,
    ((QXmppClient.send_encrypts sampleE2eeExtension).2.2.2.1 (QXmppIq.new .Get) _ rfl).2⟩
